import Mathlib

/-!
# MangoHud overlay core: a shallow embedding

Lean model of the interception and frame-synchronisation core of
`src/overlay.cpp`, `src/logging.h` and `src/gl/inject.cpp`.

Conventions of the embedding

* C unsigned integers are natural numbers reduced explicitly modulo `2^w`
  where the source can wrap; signed integers are `Int`, produced from unsigned
  values by the two's complement conversions `to_i32` / `to_i64`.
  The data model is LP64 (`size_t` and `uint64_t` are 64 bits, `int` and
  `unsigned` are 32 bits, `long` is 64 bits).
* Clock readings, key states, driver results and the amount of ImGui draw data
  are inputs of the step functions.
* Vulkan handles and heap pointers are natural numbers, `0` being the null
  handle / null pointer.
* Floating point quotients are kept symbolically (numerator and denominator).
-/

namespace MangoHud

/-! ## Machine integers -/

/-- The modulus of `uint64_t` and `size_t`. -/
def U64 : Nat := 18446744073709551616

/-- The modulus of `unsigned int` and `uint32_t`. -/
def U32 : Nat := 4294967296

/-- Conversion of a signed value to `uint64_t` / `size_t`. -/
def to_u64 (x : Int) : Nat := (x % 18446744073709551616).toNat

/-- Conversion of an unsigned value to `int` (reduction modulo `2^32`, two's complement). -/
def to_i32 (x : Nat) : Int :=
  if x % 4294967296 < 2147483648 then ((x % 4294967296 : Nat) : Int)
  else ((x % 4294967296 : Nat) : Int) - 4294967296

/-- Conversion of an unsigned value to `long` (reduction modulo `2^64`, two's complement). -/
def to_i64 (x : Nat) : Int :=
  if x % 18446744073709551616 < 9223372036854775808 then ((x % 18446744073709551616 : Nat) : Int)
  else ((x % 18446744073709551616 : Nat) : Int) - 18446744073709551616

/-- Unsigned 64-bit subtraction `a - b`. -/
def sub_u64 (a b : Nat) : Nat := (a + U64 - b % U64) % U64

/-! ## Frame statistics (`overlay.h`) -/

/-- The channels of a `frame_stat`; only the frame-timing channel is written by
`update_hud_info`. The enumeration itself lives in `overlay_params.h`. -/
inductive overlay_param_enabled where
  | frame_timing
  | other (k : Nat)
  deriving DecidableEq, Repr

/-- The value `1000000.0f * frames / elapsed`, kept as its two integer operands. -/
structure fps_value where
  frames : Nat
  elapsed : Nat
  deriving DecidableEq, Repr

/-- `ARRAY_SIZE(sw_stats.frames_stats)`: the ring has 200 slots. -/
def FRAMES_STATS_SIZE : Nat := 200

/-- The fields of `struct swapchain_stats` used by the statistics ring and the
aggregates. `frames_stats i c` is `frames_stats[i].stats[c]`. -/
structure swapchain_stats where
  n_frames : Nat
  stat_selector : overlay_param_enabled
  frames_stats : Nat → overlay_param_enabled → Nat
  fps : fps_value
  total_cpu : Int
  last_present_time : Nat
  n_frames_since_update : Nat
  last_fps_update : Nat

/-- A zero-initialised `swapchain_stats`, with the selector that `render_imgui`
sets before plotting. -/
def zero_swapchain_stats : swapchain_stats :=
  { n_frames := 0
    stat_selector := overlay_param_enabled.frame_timing
    frames_stats := fun _ _ => 0
    fps := ⟨0, 0⟩
    total_cpu := 0
    last_present_time := 0
    n_frames_since_update := 0
    last_fps_update := 0 }

/-- Assignment `frames_stats[i].stats[c] = v`. -/
def set_stat (fs : Nat → overlay_param_enabled → Nat) (i : Nat) (c : overlay_param_enabled)
    (v : Nat) : Nat → overlay_param_enabled → Nat :=
  fun j d => if j = i ∧ d = c then v else fs j d

/-! ## Session logger (`logging.h`) -/

/-- `BUF_SIZE`. -/
def BUF_SIZE : Nat := 100

/-- `struct logData`. -/
structure logData where
  fps : fps_value
  frametime : Int
  cpu : Int
  gpu : Int
  previous : Int
  deriving DecidableEq, Repr

/-- One line of a log file. -/
inductive log_line where
  | header
  | sysinfo (os cpu gpu ram kernel driver : String)
  | row (frametime : Int) (fps : fps_value) (cpu gpu previous : Int)
  deriving DecidableEq, Repr

/-- An output stream: whether it is open, the path it was opened on and the
lines written through it, oldest first. -/
structure ofstream where
  is_open : Bool
  path : String
  lines : List log_line
  deriving DecidableEq, Repr

/-- The two static buffers `buffer1` and `buffer2`; a `logData *` points to one of them. -/
inductive buffer_id where
  | buffer1
  | buffer2
  deriving DecidableEq, Repr

/-- The broken-down local time used by `create_file`. -/
structure tm where
  tm_year : Int
  tm_mon : Int
  tm_mday : Int
  tm_hour : Int
  tm_min : Int
  tm_sec : Int
  deriving DecidableEq, Repr

/-- The globals of `logging.h`, together with `log_file` of `overlay.cpp` and
`last_f2_press` of `keybinds.h`. -/
structure logging_state where
  os : String
  cpu : String
  gpu : String
  ram : String
  kernel : String
  driver : String
  gpuLoadLog : Int
  cpuLoadLog : Int
  elapsedLog : Int
  fps : fps_value
  buffer1 : Nat → logData
  buffer2 : Nat → logData
  write_buffer : buffer_id
  read_buffer : buffer_id
  log_i : Nat
  log_size : Nat
  loggingOn : Bool
  log_start : Nat
  log_file : ofstream
  last_f2_press : Nat

/-- Contents of the buffer a pointer designates. -/
def deref (g : logging_state) (p : buffer_id) : Nat → logData :=
  match p with
  | buffer_id.buffer1 => g.buffer1
  | buffer_id.buffer2 => g.buffer2

/-- Store `p[i] = d`. -/
def store (g : logging_state) (p : buffer_id) (i : Nat) (d : logData) : logging_state :=
  match p with
  | buffer_id.buffer1 => { g with buffer1 := fun j => if j = i then d else g.buffer1 j }
  | buffer_id.buffer2 => { g with buffer2 := fun j => if j = i then d else g.buffer2 j }

/-- `swap_array(&write_buffer, &read_buffer)`. -/
def swap_array (g : logging_state) : logging_state :=
  { g with write_buffer := g.read_buffer, read_buffer := g.write_buffer }

/-- The row `write_file` prints for one sample. -/
def row_of (d : logData) : log_line :=
  log_line.row d.frametime d.fps d.cpu d.gpu d.previous

/-- Insertion into an `ofstream`: nothing is written through a closed stream. -/
def put_lines (f : ofstream) (ls : List log_line) : ofstream :=
  if f.is_open then { f with lines := f.lines ++ ls } else f

/-- `write_file(&log_file)`: prints `read_buffer[0 .. log_size-1]`, then clears `log_size`. -/
def write_file (g : logging_state) : logging_state :=
  let size := g.log_size
  let rows := (List.range size).map (fun i => row_of (deref g g.read_buffer i))
  { g with log_file := put_lines g.log_file rows, log_size := 0 }

/-- `ofstream::close`. -/
def close (f : ofstream) : ofstream := { f with is_open := false }

/-- The `date` string built by `create_file`. -/
def date_string (t : tm) : String :=
  toString (t.tm_year + 1900) ++ "-" ++ toString (1 + t.tm_mon) ++ "-" ++
  toString t.tm_mday ++ "_" ++ toString (1 + t.tm_hour) ++ "-" ++
  toString (1 + t.tm_min) ++ "-" ++ toString (1 + t.tm_sec)

/-- `create_file(filename)`: `lt` is the result of `localtime`, `now` the reading
of `os_time_get`; returns the new stream, and sets `log_start`. The file is
taken to open successfully. -/
def create_file (filename : String) (lt : tm) (now : Nat) (g : logging_state) :
    ofstream × logging_state :=
  let new_file : ofstream := { is_open := true, path := filename ++ date_string lt, lines := [] }
  let new_file := put_lines new_file [log_line.header]
  let new_file := put_lines new_file [log_line.sysinfo g.os g.cpu g.gpu g.ram g.kernel g.driver]
  (new_file, { g with log_start := now })

/-! ## Per-frame statistics and logging (`overlay.cpp`) -/

/-- Conversion of a signed value to `unsigned int`. -/
def to_u32 (x : Int) : Nat := (x % 4294967296).toNat

/-- The fields of `struct overlay_params` (declared in `overlay_params.h`) read
by the functions below: `fps_sampling_period` is a `uint32_t` in microseconds,
`log_duration` an `unsigned` number of seconds, and `enabled_x` is
`enabled[OVERLAY_PARAM_ENABLED_x]`. -/
structure overlay_params where
  fps_sampling_period : Nat
  log_duration : Nat
  output_file : String
  enabled_cpu_stats : Bool
  enabled_core_load : Bool
  enabled_cpu_temp : Bool
  enabled_gpu_stats : Bool
  enabled_ram : Bool
  enabled_io_read : Bool
  enabled_io_write : Bool
  deriving DecidableEq, Repr

/-- What one call of `update_hud_info` reads from its environment:
`os_time_get()`, the CPU load reported by `cpuStats` and `gpu_info.load`. -/
structure frame_input where
  now : Nat
  cpu_percent : Int
  gpu_load : Int
  deriving DecidableEq, Repr

/-- What one call of `check_keybinds` reads from its environment:
`os_time_get()`, `key_is_pressed(params.toggle_logging)`, and the
`localtime` / `os_time_get` readings of `create_file` when it runs. -/
structure keybind_input where
  now : Nat
  pressed : Bool
  local_time : tm
  create_now : Nat
  deriving DecidableEq, Repr

/-- The statements `swap_array; write_file (joined); flush; close; log_size = log_i; log_i = 0`
of `check_keybinds` (lines 900-906) and of `update_hud_info` (lines 1002-1008). -/
def stop_logging (g : logging_state) : logging_state :=
  let g := swap_array g
  let g := write_file g
  let g := { g with log_file := close g.log_file }
  { g with log_size := g.log_i, log_i := 0 }

/-- The condition `params.log_duration && elapsedLog >= params.log_duration * 1000000`,
an `int` compared with an `unsigned` product. -/
def log_duration_reached (params : overlay_params) (elapsedLog : Int) : Bool :=
  decide (params.log_duration ≠ 0 ∧ (params.log_duration * 1000000) % U32 ≤ to_u32 elapsedLog)

/-- Lines 943-946 of `update_hud_info`: the frame time is stored in slot `f_idx`
once a previous present time is known. -/
def hud_store_frame_time (now : Nat) (sw : swapchain_stats) : swapchain_stats :=
  let f_idx := sw.n_frames % FRAMES_STATS_SIZE
  let frame_time := to_i64 (sub_u64 now sw.last_present_time)
  if sw.last_present_time ≠ 0 then
    { sw with frames_stats :=
        set_stat sw.frames_stats f_idx overlay_param_enabled.frame_timing (to_u64 frame_time) }
  else sw

/-- Lines 948-992 of `update_hud_info`; `fps` is the global computed at line 942. -/
def hud_aggregates (params : overlay_params) (inp : frame_input)
    (s : swapchain_stats × logging_state) : swapchain_stats × logging_state :=
  let sw := s.1
  let g := s.2
  if sw.last_fps_update ≠ 0 then
    if params.fps_sampling_period ≤ sub_u64 inp.now sw.last_fps_update then
      let total_cpu := if params.enabled_cpu_stats then inp.cpu_percent else sw.total_cpu
      ({ sw with total_cpu := total_cpu, fps := g.fps, n_frames_since_update := 0,
                 last_fps_update := inp.now },
       { g with gpuLoadLog := inp.gpu_load, cpuLoadLog := total_cpu })
    else (sw, g)
  else ({ sw with last_fps_update := inp.now }, g)

/-- Lines 994-996 of `update_hud_info`. -/
def hud_count (now : Nat) (sw : swapchain_stats) : swapchain_stats :=
  { sw with last_present_time := now
            n_frames := (sw.n_frames + 1) % U64
            n_frames_since_update := (sw.n_frames_since_update + 1) % U32 }

/-- Lines 1011-1016 of `update_hud_info`: one sample is stored at `write_buffer[log_i]`. -/
def log_sample (frame_time : Int) (g : logging_state) : logging_state :=
  let g := store g g.write_buffer g.log_i
    { fps := g.fps, frametime := frame_time, cpu := g.cpuLoadLog, gpu := g.gpuLoadLog,
      previous := g.elapsedLog }
  { g with log_i := (g.log_i + 1) % U32 }

/-- Lines 1019-1029 of `update_hud_info`: the forced rotation. The detached
`write_file` thread of line 1028 is run to completion where it is launched. -/
def log_rotate (g : logging_state) : logging_state :=
  if g.log_i = BUF_SIZE then
    let g := swap_array g
    let g := { g with log_size := g.log_i, log_i := 0 }
    write_file g
  else g

/-- Lines 998-1030 of `update_hud_info`. -/
def hud_log (params : overlay_params) (now : Nat) (frame_time : Int) (g : logging_state) :
    logging_state :=
  if g.loggingOn then
    let g := { g with elapsedLog := to_i32 (sub_u64 now g.log_start) }
    let g :=
      if log_duration_reached params g.elapsedLog then
        stop_logging { g with loggingOn := false }
      else log_sample frame_time g
    log_rotate g
  else g

/-- `update_hud_info(sw_stats, params, vendorID)`. -/
def update_hud_info (params : overlay_params) (inp : frame_input)
    (s : swapchain_stats × logging_state) : swapchain_stats × logging_state :=
  let sw := s.1
  let g := s.2
  let now := inp.now
  let elapsed := sub_u64 now sw.last_fps_update
  let frame_time := to_i64 (sub_u64 now sw.last_present_time)
  let g := { g with fps := ⟨sw.n_frames_since_update, elapsed⟩ }
  let sw := hud_store_frame_time now sw
  let s1 := hud_aggregates params inp (sw, g)
  let sw := hud_count now s1.1
  (sw, hud_log params now frame_time s1.2)

/-- The telemetry reads of the refresh block of `update_hud_info` (lines
951-973): the three calls on `cpuStats` and the four functions started on
detached threads. -/
inductive telemetry_call where
  | UpdateCPUData
  | UpdateCoreMhz
  | UpdateCpuTemp
  | getAmdGpuUsage
  | getNvidiaGpuInfo
  | update_meminfo
  | getIoStats
  deriving DecidableEq, Repr

/-- Lines 951-973 of `update_hud_info`: the telemetry reads of one refresh, in
program order. -/
def hud_telemetry (params : overlay_params) (vendorID : Nat) : List telemetry_call :=
  (if params.enabled_cpu_stats then
      [telemetry_call.UpdateCPUData] ++
      (if params.enabled_core_load then [telemetry_call.UpdateCoreMhz] else []) ++
      (if params.enabled_cpu_temp then [telemetry_call.UpdateCpuTemp] else [])
    else []) ++
  (if params.enabled_gpu_stats then
      (if vendorID = 0x1002 then [telemetry_call.getAmdGpuUsage] else []) ++
      (if vendorID = 0x10de then [telemetry_call.getNvidiaGpuInfo] else [])
    else []) ++
  (if params.enabled_ram then [telemetry_call.update_meminfo] else []) ++
  (if params.enabled_io_read || params.enabled_io_write then [telemetry_call.getIoStats]
    else [])

/-- Lines 948-992 of `update_hud_info` with the telemetry reads they make: the
state is that of `hud_aggregates`, the list the reads of this call. -/
def hud_aggregates_traced (params : overlay_params) (vendorID : Nat) (inp : frame_input)
    (s : swapchain_stats × logging_state) :
    (swapchain_stats × logging_state) × List telemetry_call :=
  let sw := s.1
  let g := s.2
  if sw.last_fps_update ≠ 0 then
    if params.fps_sampling_period ≤ sub_u64 inp.now sw.last_fps_update then
      let reads := hud_telemetry params vendorID
      let total_cpu := if params.enabled_cpu_stats then inp.cpu_percent else sw.total_cpu
      (({ sw with total_cpu := total_cpu, fps := g.fps, n_frames_since_update := 0,
                  last_fps_update := inp.now },
        { g with gpuLoadLog := inp.gpu_load, cpuLoadLog := total_cpu }), reads)
    else ((sw, g), [])
  else (({ sw with last_fps_update := inp.now }, g), [])

/-- `update_hud_info(sw_stats, params, vendorID)` with the telemetry reads it
makes. -/
def update_hud_info_traced (params : overlay_params) (vendorID : Nat) (inp : frame_input)
    (s : swapchain_stats × logging_state) :
    (swapchain_stats × logging_state) × List telemetry_call :=
  let sw := s.1
  let g := s.2
  let now := inp.now
  let elapsed := sub_u64 now sw.last_fps_update
  let frame_time := to_i64 (sub_u64 now sw.last_present_time)
  let g := { g with fps := ⟨sw.n_frames_since_update, elapsed⟩ }
  let sw := hud_store_frame_time now sw
  let r := hud_aggregates_traced params vendorID inp (sw, g)
  let sw := hud_count now r.1.1
  ((sw, hud_log params now frame_time r.1.2), r.2)

/-- The logging block of `check_keybinds` (lines 879-909); the two other blocks
only toggle `params.no_display` and reload the configuration. -/
def check_keybinds (params : overlay_params) (inp : keybind_input) (g : logging_state) :
    logging_state :=
  let now := inp.now
  let elapsedF2 := sub_u64 now g.last_f2_press
  if 500000 ≤ elapsedF2 ∧ params.output_file ≠ "" then
    if inp.pressed then
      let g := { g with last_f2_press := now, log_start := now, loggingOn := !g.loggingOn }
      if g.loggingOn then
        let r := create_file params.output_file inp.local_time inp.create_now g
        { r.2 with log_file := r.1 }
      else
        stop_logging g
    else g
  else g

/-- `snapshot_swapchain_frame(data)`: `update_hud_info` on the statistics of the
swapchain, then `check_keybinds`. -/
def snapshot_swapchain_frame (params : overlay_params) (inp : frame_input)
    (keys : keybind_input) (s : swapchain_stats × logging_state) :
    swapchain_stats × logging_state :=
  let s1 := update_hud_info params inp s
  (s1.1, check_keybinds params keys s1.2)

/-- The slot computed by `get_time_stat(data, _idx)`: `none` when the function
returns the sentinel `0.0f` at line 1052 without reading the ring, otherwise
the final value of `int idx` used at line 1059. -/
def get_time_stat_slot (data : swapchain_stats) (_idx : Int) : Option Int :=
  if data.n_frames < sub_u64 FRAMES_STATS_SIZE (to_u64 _idx) then none
  else
    let sum :=
      if (FRAMES_STATS_SIZE + data.n_frames) % U64 < FRAMES_STATS_SIZE then
        sub_u64 (to_u64 _idx) data.n_frames
      else (to_u64 _idx + data.n_frames) % U64
    let idx := to_i32 sum
    some (to_i32 (to_u64 idx % FRAMES_STATS_SIZE))

/-- The integer `get_time_stat` reads: `0` for the sentinel, otherwise
`frames_stats[idx].stats[stat_selector]`; the function returns it divided by
`time_dividor`. -/
def get_time_stat (data : swapchain_stats) (_idx : Int) : Nat :=
  match get_time_stat_slot data _idx with
  | none => 0
  | some idx => data.frames_stats idx.toNat data.stat_selector

/-- The state after `m` consecutive calls of `update_hud_info`, the `i`-th call
(from 0) reading the environment `ins i`. -/
def run_hud (params : overlay_params) (ins : Nat → frame_input) :
    Nat → swapchain_stats × logging_state → swapchain_stats × logging_state
  | 0, s => s
  | m + 1, s => update_hud_info params (ins m) (run_hud params ins m s)

/-- Number of sample rows in a file. -/
def sample_rows (f : ofstream) : Nat :=
  (f.lines.filter (fun l => match l with
    | log_line.row _ _ _ _ _ => true
    | _ => false)).length

/-- The logger globals as initialised at program start (`logging.h`). -/
def initial_logging_state : logging_state :=
  { os := "", cpu := "", gpu := "", ram := "", kernel := "", driver := ""
    gpuLoadLog := 0, cpuLoadLog := 0, elapsedLog := 0
    fps := ⟨0, 0⟩
    buffer1 := fun _ => ⟨⟨0, 0⟩, 0, 0, 0, 0⟩
    buffer2 := fun _ => ⟨⟨0, 0⟩, 0, 0, 0, 0⟩
    write_buffer := buffer_id.buffer1
    read_buffer := buffer_id.buffer2
    log_i := 0, log_size := 0, loggingOn := false, log_start := 0
    log_file := { is_open := false, path := "", lines := [] }
    last_f2_press := 0 }

/-- A parameter set used for concrete runs: sampling period 0.5 s, no maximum
log duration, an output file configured. -/
def test_params : overlay_params :=
  { fps_sampling_period := 500000, log_duration := 0, output_file := "/tmp/mangohud_log",
    enabled_cpu_stats := true, enabled_core_load := true, enabled_cpu_temp := true,
    enabled_gpu_stats := true, enabled_ram := true, enabled_io_read := true,
    enabled_io_write := true }

/-- Present times `1, 2, 5, 10, ...` (microseconds): call `i` happens at `i * i + 1`,
so the frame time of call `i` is `2 * i - 1`. -/
def square_times (i : Nat) : frame_input :=
  { now := i * i + 1, cpu_percent := 0, gpu_load := 0 }

/-! ## Object registry (`overlay.cpp`, lines 216-242) -/

/-- `std::unordered_map<uint64_t, void *> vk_object_to_data`: at most one entry per key. -/
abbrev object_map := Nat → Option Nat

/-- The empty map the process starts with. -/
def empty_object_map : object_map := fun _ => none

/-- `find_object_data(obj)`: `vk_object_to_data[obj]`. The subscript operator
inserts a null entry when the key is absent. Returns the pointer read and the map. -/
def find_object_data (obj : Nat) (m : object_map) : Nat × object_map :=
  match m obj with
  | some data => (data, m)
  | none => (0, fun k => if k = obj then some 0 else m k)

/-- `map_object(obj, data)`: `vk_object_to_data[obj] = data`. -/
def map_object (obj data : Nat) (m : object_map) : object_map :=
  fun k => if k = obj then some data else m k

/-- `unmap_object(obj)`: `vk_object_to_data.erase(obj)`. -/
def unmap_object (obj : Nat) (m : object_map) : object_map :=
  fun k => if k = obj then none else m k

/-- One call on the registry. -/
inductive registry_op where
  | map (obj data : Nat)
  | unmap (obj : Nat)
  | find (obj : Nat)
  deriving DecidableEq, Repr

/-- Effect of one call on the map. -/
def apply_op (m : object_map) (op : registry_op) : object_map :=
  match op with
  | registry_op.map obj data => map_object obj data m
  | registry_op.unmap obj => unmap_object obj m
  | registry_op.find obj => (find_object_data obj m).2

/-- Effect of a sequence of calls, first call first. -/
def run_ops (ops : List registry_op) (m : object_map) : object_map :=
  ops.foldl apply_op m

/-- The call is `map_object(k, _)` or `unmap_object(k)`. -/
def writes_key (k : Nat) (op : registry_op) : Bool :=
  match op with
  | registry_op.map obj _ => decide (obj = k)
  | registry_op.unmap obj => decide (obj = k)
  | registry_op.find _ => false

/-- The most recent `map_object` / `unmap_object` call on key `k` in a sequence, if any. -/
def last_write (k : Nat) (ops : List registry_op) : Option registry_op :=
  (ops.filter (writes_key k)).getLast?

/-! ## Draw records (`overlay.cpp`, lines 141-156 and 440-486) -/

/-- `struct overlay_draw`; `ptr` is the address of the heap object. -/
structure overlay_draw where
  ptr : Nat
  command_buffer : Nat
  cross_engine_semaphore : Nat
  semaphore : Nat
  fence : Nat
  deriving DecidableEq, Repr

/-- What the driver answers during one `get_overlay_draw`: whether
`GetFenceStatus(device, fence)` is `VK_SUCCESS`, and the handles produced by
`AllocateCommandBuffers`, `CreateFence` and the two `CreateSemaphore` calls. -/
structure draw_env where
  fence_signalled : Nat → Bool
  command_buffer : Nat
  fence : Nat
  semaphore : Nat
  cross_engine_semaphore : Nat

/-- `struct queue_data`. -/
structure queue_data where
  device : Nat
  queue : Nat
  flags : Nat
  family_index : Nat
  deriving DecidableEq, Repr

/-- The fields of `struct device_data` used by the present path. -/
structure device_data where
  device : Nat
  graphic_queue : queue_data
  deriving DecidableEq, Repr

/-- The fields of `struct swapchain_data` used by the present path.
`draws_allocated` counts the `new overlay_draw()` executed for this swapchain;
the `n`-th allocation yields the address `n`. -/
structure swapchain_data where
  device : device_data
  swapchain : Nat
  draws : List overlay_draw
  draws_allocated : Nat
  sw_stats : swapchain_stats

/-- The record built by lines 457-481 of `get_overlay_draw`: a new heap object
holding the handles the driver returns. -/
def fresh_draw (env : draw_env) (data : swapchain_data) : overlay_draw :=
  { ptr := data.draws_allocated + 1
    command_buffer := env.command_buffer
    cross_engine_semaphore := env.cross_engine_semaphore
    semaphore := env.semaphore
    fence := env.fence }

/-- `get_overlay_draw(data)`: returns the record and the updated swapchain data. -/
def get_overlay_draw (env : draw_env) (data : swapchain_data) : overlay_draw × swapchain_data :=
  match data.draws with
  | [] =>
    (fresh_draw env data,
      { data with draws := [fresh_draw env data], draws_allocated := data.draws_allocated + 1 })
  | draw :: rest =>
    if env.fence_signalled draw.fence then
      (draw, { data with draws := rest ++ [draw] })
    else
      (fresh_draw env data,
        { data with draws := data.draws ++ [fresh_draw env data],
                    draws_allocated := data.draws_allocated + 1 })

/-- The pool after `n` calls of `get_overlay_draw`, call `i` (from 0) being
answered by `envs i`, with the records handed out so far, newest first. -/
def run_draws (envs : Nat → draw_env) (data : swapchain_data) :
    Nat → swapchain_data × List overlay_draw
  | 0 => (data, [])
  | n + 1 =>
    let r := get_overlay_draw (envs n) (run_draws envs data n).1
    (r.2, r.1 :: (run_draws envs data n).2)

/-- Only three frames are in flight: at call `j`, every record of the pool that
was not handed out by one of the two preceding calls has its fence signalled. -/
def three_in_flight (envs : Nat → draw_env) (data : swapchain_data) (n : Nat) : Prop :=
  ∀ j, j < n → ∀ d, d ∈ (run_draws envs data j).1.draws →
    d ∉ (run_draws envs data j).2.take 2 → (envs j).fence_signalled d.fence = true

/-- The invariant of the draw pool along a run: the pool lists, oldest first,
the records handed out by the most recent calls, without repetition, and every
record allocated is in the pool. -/
def pool_inv (data : swapchain_data) (log : List overlay_draw) : Prop :=
  data.draws.reverse = log.take data.draws.length ∧ data.draws.Nodup ∧ data.draws.length ≤ 3 ∧
    (∀ d, d ∈ data.draws → d.ptr ≤ data.draws_allocated) ∧
    data.draws_allocated = data.draws.length

/-- A swapchain whose draw pool is empty, on a device whose graphics queue is queue 1. -/
def empty_swapchain : swapchain_data :=
  { device := { device := 1, graphic_queue := { device := 1, queue := 1, flags := 1, family_index := 0 } }
    swapchain := 1
    draws := []
    draws_allocated := 0
    sw_stats := zero_swapchain_stats }

/-- A driver on which the fence created at call `f` is signalled from call `f + 3` on;
the handles created at call `j` are numbered from `j`. -/
def steady_driver (j : Nat) : draw_env :=
  { fence_signalled := fun f => decide (f + 3 ≤ j)
    command_buffer := j
    fence := j
    semaphore := j
    cross_engine_semaphore := j }

/-! ## The present path (`overlay.cpp`, lines 1620-1868 and 2318-2465) -/

/-- `VK_SUCCESS`. -/
def VK_SUCCESS : Int := 0

/-- `VK_NULL_HANDLE`. -/
def VK_NULL_HANDLE : Nat := 0

/-- The fields of `VkSubmitInfo` the overlay fills in; the three counts are the
lengths of the lists. -/
structure VkSubmitInfo where
  pWaitSemaphores : List Nat
  pCommandBuffers : List Nat
  pSignalSemaphores : List Nat
  deriving DecidableEq, Repr

/-- The fields of `VkPresentInfoKHR`; `waitSemaphoreCount` and `swapchainCount`
are the lengths of the lists. `pResults` is `none` for a null pointer, otherwise
the contents of the array it points to. -/
structure VkPresentInfoKHR where
  pWaitSemaphores : List Nat
  pSwapchains : List Nat
  pImageIndices : List Nat
  pResults : Option (List Int)
  deriving DecidableEq, Repr

/-- What the present path does that is visible outside of it: the two overlay
stages it enters and the calls it makes into the driver. -/
inductive event where
  | compute_swapchain_display (swapchain : Nat)
  | render_swapchain_display (swapchain : Nat)
  | QueueSubmit (queue : Nat) (info : VkSubmitInfo) (fence : Nat)
  | QueuePresentKHR (queue : Nat) (info : VkPresentInfoKHR)
  deriving DecidableEq, Repr

/-- `render_swapchain_display(data, present_queue, wait_semaphores, n_wait_semaphores, image_index)`.
`total_vtx_count` is `ImGui::GetDrawData()->TotalVtxCount`. The recording of the
command buffer (lines 1633-1821) does not submit anything and is left out; the
function returns the draw record, the swapchain data and its queue submissions. -/
def render_swapchain_display (total_vtx_count : Int) (env : draw_env) (data : swapchain_data)
    (present_queue : queue_data) (wait_semaphores : List Nat) (_image_index : Nat) :
    Option overlay_draw × swapchain_data × List event :=
  if total_vtx_count = 0 then (none, data, [])
  else
    let r := get_overlay_draw env data
    let draw := r.1
    let graphic_queue := data.device.graphic_queue
    if wait_semaphores.length = 0 ∧ graphic_queue.queue ≠ present_queue.queue then
      (some draw, r.2,
        [event.QueueSubmit present_queue.queue
            { pWaitSemaphores := [], pCommandBuffers := [],
              pSignalSemaphores := [draw.cross_engine_semaphore] } VK_NULL_HANDLE,
         event.QueueSubmit graphic_queue.queue
            { pWaitSemaphores := [draw.cross_engine_semaphore],
              pCommandBuffers := [draw.command_buffer],
              pSignalSemaphores := [draw.semaphore] } draw.fence])
    else
      (some draw, r.2,
        [event.QueueSubmit graphic_queue.queue
            { pWaitSemaphores := wait_semaphores,
              pCommandBuffers := [draw.command_buffer],
              pSignalSemaphores := [draw.semaphore] } draw.fence])

/-- What one `before_present` reads from its environment. -/
structure present_env where
  frame : frame_input
  keys : keybind_input
  total_vtx_count : Int
  draw : draw_env
  chain_result : Int

/-- The outcome of `before_present`: the returned draw record (`none` for `NULL`),
the swapchain data, the logger globals and the events, in order. -/
structure before_present_result where
  draw : Option overlay_draw
  data : swapchain_data
  logging : logging_state
  events : List event

/-- `before_present(swapchain_data, present_queue, wait_semaphores, n_wait_semaphores, imageIndex)`.
`compute_swapchain_display` lays out the widgets; its output is the ImGui draw
data, of which `render_swapchain_display` reads `TotalVtxCount`. -/
def before_present (params : overlay_params) (env : present_env) (swapchain_data : swapchain_data)
    (g : logging_state) (present_queue : queue_data) (wait_semaphores : List Nat)
    (imageIndex : Nat) : before_present_result :=
  let s := snapshot_swapchain_frame params env.frame env.keys (swapchain_data.sw_stats, g)
  let data := { swapchain_data with sw_stats := s.1 }
  if 0 < data.sw_stats.n_frames then
    let r := render_swapchain_display env.total_vtx_count env.draw data present_queue
      wait_semaphores imageIndex
    { draw := r.1, data := r.2.1, logging := s.2,
      events := [event.compute_swapchain_display data.swapchain,
                 event.render_swapchain_display data.swapchain] ++ r.2.2 }
  else
    { draw := none, data := data, logging := s.2, events := [] }

/-- `struct fps_limit` (`overlay.h`); times are `int64_t` nanoseconds. -/
structure fps_limit where
  frameStart : Int
  frameEnd : Int
  targetFrameTime : Int
  frameOverhead : Int
  sleepTime : Int
  deriving DecidableEq, Repr

/-- `FpsLimiter(stats)`. `clock d` is the reading of `os_time_get_nano()` after
a sleep of `d` nanoseconds was requested. Returns the statistics and the sleep
requested, if any. -/
def FpsLimiter (clock : Int → Int) (stats : fps_limit) : fps_limit × Option Int :=
  let stats := { stats with sleepTime := stats.targetFrameTime - (stats.frameStart - stats.frameEnd) }
  if stats.frameOverhead < stats.sleepTime then
    let adjustedSleep := stats.sleepTime - stats.frameOverhead
    let stats := { stats with frameOverhead := (clock adjustedSleep - stats.frameStart) - adjustedSleep }
    if stats.targetFrameTime < stats.frameOverhead then
      ({ stats with frameOverhead := 0 }, some adjustedSleep)
    else (stats, some adjustedSleep)
  else (stats, none)

/-- The process-wide state the present hook works on: the registry, the
`swapchain_data` and `queue_data` objects by address, the logger globals and
`fps_limit_stats`. -/
structure layer_state where
  vk_object_to_data : object_map
  swapchains : Nat → Option swapchain_data
  queues : Nat → Option queue_data
  logging : logging_state
  fps_limit_stats : fps_limit

/-- `FIND(struct swapchain_data, obj)` followed by a dereference: the address
and the object, or `none` when the pointer is null or dangling. -/
def FIND_swapchain_data (obj : Nat) (st : layer_state) :
    Option (Nat × swapchain_data) × layer_state :=
  let f := find_object_data obj st.vk_object_to_data
  let st := { st with vk_object_to_data := f.2 }
  if f.1 = 0 then (none, st)
  else
    match st.swapchains f.1 with
    | none => (none, st)
    | some sd => (some (f.1, sd), st)

/-- `FIND(struct queue_data, obj)` followed by a dereference. -/
def FIND_queue_data (obj : Nat) (st : layer_state) : Option queue_data × layer_state :=
  let f := find_object_data obj st.vk_object_to_data
  let st := { st with vk_object_to_data := f.2 }
  if f.1 = 0 then (none, st) else (st.queues f.1, st)

/-- One iteration of the loop of `overlay_QueuePresentKHR`: the local `draw`,
the events of `before_present`, the `present_info` handed to the driver and the
driver's result. -/
structure present_iteration where
  draw : Option overlay_draw
  events : List event
  present_info : VkPresentInfoKHR
  chain_result : Int

/-- The loop of `overlay_QueuePresentKHR` (lines 2423-2456) over the remaining
`(swapchain, image index)` pairs, `i` being the loop counter and `results` the
current contents of the caller's result array; `none` when a swapchain has no
context (null dereference). The copy `present_info` keeps the caller's
`pResults` pointer, so the driver stores the result of the chained present in
element 0 of the caller's array (as `vkQueuePresentKHR` does for a present of
one swapchain) before the layer stores it in element `i`. -/
def present_loop (params : overlay_params) (envs : Nat → present_env) (queue_data : queue_data)
    (pPresentInfo : VkPresentInfoKHR) :
    List (Nat × Nat) → Nat → layer_state → Int → Option (List Int) →
      Option (layer_state × Int × Option (List Int) × List present_iteration)
  | [], _, st, result, results => some (st, result, results, [])
  | (swapchain, image_index) :: rest, i, st, result, results =>
    match FIND_swapchain_data swapchain st with
    | (none, _) => none
    | (some (p, swapchain_data), st1) =>
      let r := before_present params (envs i) swapchain_data st1.logging queue_data
        pPresentInfo.pWaitSemaphores image_index
      let st2 : layer_state :=
        { st1 with swapchains := fun q => if q = p then some r.data else st1.swapchains q,
                   logging := r.logging }
      let present_info : VkPresentInfoKHR :=
        { pPresentInfo with
          pSwapchains := [swapchain]
          pImageIndices := [image_index]
          pResults := results
          pWaitSemaphores :=
            match r.draw with
            | some draw => [draw.semaphore]
            | none => pPresentInfo.pWaitSemaphores }
      let chain_result := (envs i).chain_result
      let results := results.map (fun a => a.set 0 chain_result)
      let results := results.map (fun a => a.set i chain_result)
      let result := if chain_result ≠ VK_SUCCESS ∧ result = VK_SUCCESS then chain_result else result
      match present_loop params envs queue_data pPresentInfo rest (i + 1) st2 result results with
      | none => none
      | some (st3, res, results3, its) =>
        some (st3, res, results3,
          { draw := r.draw, events := r.events, present_info := present_info,
            chain_result := chain_result } :: its)

/-- The clock readings of the frame limiter at the end of a present:
`os_time_get_nano()` before the limiter, after a sleep of `d` ns, and after the limiter. -/
structure limiter_env where
  frame_start : Int
  clock : Int → Int
  frame_end : Int

/-- What `overlay_QueuePresentKHR` returns and does: the returned `VkResult`, the
final contents of the caller's result array, the loop iterations, the sleep
requested by the frame limiter and the state. -/
structure present_output where
  result : Int
  pResults : Option (List Int)
  iterations : List present_iteration
  sleep : Option Int
  state : layer_state

/-- `overlay_QueuePresentKHR(queue, pPresentInfo)`; `none` when the queue or a
swapchain has no context (null dereference). -/
def overlay_QueuePresentKHR (params : overlay_params) (envs : Nat → present_env)
    (lim : limiter_env) (queue : Nat) (pPresentInfo : VkPresentInfoKHR) (st : layer_state) :
    Option present_output :=
  match FIND_queue_data queue st with
  | (none, _) => none
  | (some queue_data, st1) =>
    match present_loop params envs queue_data pPresentInfo
        (List.zip pPresentInfo.pSwapchains pPresentInfo.pImageIndices) 0 st1 VK_SUCCESS
        pPresentInfo.pResults with
    | none => none
    | some (st2, result, pResults, its) =>
      if 0 < st2.fps_limit_stats.targetFrameTime then
        let stats := { st2.fps_limit_stats with frameStart := lim.frame_start }
        let r := FpsLimiter lim.clock stats
        some { result := result, pResults := pResults, iterations := its, sleep := r.2,
               state := { st2 with fps_limit_stats := { r.1 with frameEnd := lim.frame_end } } }
      else
        some { result := result, pResults := pResults, iterations := its, sleep := none,
               state := st2 }

/-- The event is a queue submission. -/
def is_submit (e : event) : Bool :=
  match e with
  | event.QueueSubmit _ _ _ => true
  | _ => false

/-- The context of swapchain handle `h` is registered and alive. -/
def swapchain_registered (st : layer_state) (h : Nat) : Prop :=
  ∃ p, st.vk_object_to_data h = some p ∧ p ≠ 0 ∧ (st.swapchains p).isSome = true

/-- The context of queue handle `h` is registered and alive. -/
def queue_registered (st : layer_state) (h : Nat) : Prop :=
  ∃ p, st.vk_object_to_data h = some p ∧ p ≠ 0 ∧ (st.queues p).isSome = true

/-- A presenting queue (queue 2) distinct from the graphics queue of `empty_swapchain`. -/
def other_queue : queue_data := { device := 1, queue := 2, flags := 0, family_index := 1 }

/-- A driver whose fences are never signalled yet and that hands out the handles 101-104. -/
def sample_driver : draw_env :=
  { fence_signalled := fun _ => false
    command_buffer := 101
    fence := 102
    semaphore := 103
    cross_engine_semaphore := 104 }

/-- An environment for one present: time `t`, no key pressed, `n` vertices of
draw data, the driver `sample_driver`, a successful chained present. -/
def quiet_env (t : Nat) (n : Int) : present_env :=
  { frame := { now := t, cpu_percent := 0, gpu_load := 0 }
    keys := { now := t, pressed := false, local_time := ⟨120, 0, 1, 0, 0, 0⟩, create_now := t }
    total_vtx_count := n
    draw := sample_driver
    chain_result := VK_SUCCESS }

/-- A layer state with one queue (handle 10, context at address 1) and one
swapchain (handle 20, context at address 2). -/
def one_swapchain_state : layer_state :=
  { vk_object_to_data := map_object 20 2 (map_object 10 1 empty_object_map)
    swapchains := fun p => if p = 2 then some empty_swapchain else none
    queues := fun p => if p = 1 then some other_queue else none
    logging := initial_logging_state
    fps_limit_stats := ⟨0, 0, 0, 0, 0⟩ }

/-- A limiter clock that measures every sleep exactly. -/
def exact_limiter : limiter_env := { frame_start := 0, clock := fun d => d, frame_end := 0 }

/-- What the patched present of one iteration looks like: with a draw record,
the forwarded call waits on the record's completion semaphore alone, which the
last submission of the iteration signals together with the record's fence;
without one, nothing was submitted and the caller's semaphores are kept. -/
def iteration_ok (pPresentInfo : VkPresentInfoKHR) (it : present_iteration) : Prop :=
  (∀ d, it.draw = some d →
    it.present_info.pWaitSemaphores = [d.semaphore] ∧
    ∃ q w, it.events.getLast? =
      some (event.QueueSubmit q
        { pWaitSemaphores := w, pCommandBuffers := [d.command_buffer],
          pSignalSemaphores := [d.semaphore] } d.fence)) ∧
  (it.draw = none →
    it.present_info.pWaitSemaphores = pPresentInfo.pWaitSemaphores ∧
    ∀ e, e ∈ it.events → is_submit e = false)

/-- A session is running with `i` samples in the write buffer, nothing pending
in the read buffer, `file` as its log file and `start` as its start time. -/
def session_at (g : logging_state) (i : Nat) (file : ofstream) (start : Nat) : Prop :=
  g.loggingOn = true ∧ g.log_i = i ∧ g.log_size = 0 ∧ g.log_file = file ∧ g.log_start = start

/-- A key event at time `t` with the logging key held down. -/
def toggle_at (t : Nat) : keybind_input :=
  { now := t, pressed := true, local_time := ⟨120, 3, 17, 14, 5, 9⟩, create_now := t }

/-- Frames 16.667 ms apart, starting at one second. -/
def steady_frames (i : Nat) : frame_input :=
  { now := 1000000 + 16667 * (i + 1), cpu_percent := 12, gpu_load := 34 }

/-- The stream `create_file` returns: open, named by the base name and the date
string, holding the header line and the environment line. -/
def session_file (filename : String) (lt : tm) (g : logging_state) : ofstream :=
  { is_open := true
    path := filename ++ date_string lt
    lines := [log_line.header, log_line.sysinfo g.os g.cpu g.gpu g.ram g.kernel g.driver] }

/-- The control fields of the logger: whether a session runs, the fill of the
write buffer, the pending size, the log file and the session start. -/
def logging_with (g : logging_state) (running : Bool) (i size : Nat) (file : ofstream)
    (start : Nat) : Prop :=
  g.loggingOn = running ∧ g.log_i = i ∧ g.log_size = size ∧ g.log_file = file ∧ g.log_start = start

/-- The parameters of `test_params` with a maximum log duration of one second. -/
def timed_params : overlay_params := { test_params with log_duration := 1 }

/-- The logger after a first session on the initial state: started at 1 s,
50 frames, stopped at 3 s. -/
def first_session_end : logging_state :=
  check_keybinds test_params (toggle_at 3000000)
    (run_hud test_params steady_frames 50
      (zero_swapchain_stats,
        check_keybinds test_params (toggle_at 1000000) initial_logging_state)).2

/-- The logger after a second session following `first_session_end`: started
at 5 s, 20 frames, stopped at 7 s. -/
def second_session_end : logging_state :=
  check_keybinds test_params (toggle_at 7000000)
    (run_hud test_params steady_frames 20
      (zero_swapchain_stats, check_keybinds test_params (toggle_at 5000000) first_session_end)).2

/-- The logger after a session under `timed_params` started at 1 s and run for
60 frames; the maximum duration of one second is reached at the 60th frame. -/
def timed_session_end : logging_state :=
  (run_hud timed_params steady_frames 60
    (zero_swapchain_stats,
      check_keybinds timed_params (toggle_at 1000000) initial_logging_state)).2

/-- One call into the logger from the present path: a frame of
`update_hud_info` or a call of `check_keybinds`, with the parameters in force
and what the call reads from its environment. -/
inductive logger_event where
  | frame (params : overlay_params) (inp : frame_input)
  | keys (params : overlay_params) (inp : keybind_input)
  deriving DecidableEq, Repr

/-- Effect of one logger event. -/
def logger_step (s : swapchain_stats × logging_state) (e : logger_event) :
    swapchain_stats × logging_state :=
  match e with
  | logger_event.frame params inp => update_hud_info params inp s
  | logger_event.keys params inp => (s.1, check_keybinds params inp s.2)

/-- Effect of a sequence of logger events, first event first. -/
def run_logger (evs : List logger_event) (s : swapchain_stats × logging_state) :
    swapchain_stats × logging_state :=
  evs.foldl logger_step s

/-- One pass of the limiter block of the present hook with a zero measured
frame interval: the caller stores the reading `t` of `os_time_get_nano()` in
`frameStart`, `frameEnd` holds the same reading, and a sleep of `d` ns is
measured as `d + c` ns, so that the clock reads `t + d + c` after it. -/
def zero_interval_call (c t : Int) (stats : fps_limit) : fps_limit × Option Int :=
  FpsLimiter (fun d => t + d + c) { stats with frameStart := t, frameEnd := t }

/-- Statistics before call number `n` of a run of `zero_interval_call`, call
number `i` being entered at the reading `start i`. -/
def pace_state (c : Int) (start : Nat → Int) (stats : fps_limit) : Nat → fps_limit
  | 0 => stats
  | n + 1 => (zero_interval_call c (start n) (pace_state c start stats n)).1

/-- Sleep requested by call number `n` of the run, if any. -/
def pace_sleep (c : Int) (start : Nat → Int) (stats : fps_limit) (n : Nat) : Option Int :=
  (zero_interval_call c (start n) (pace_state c start stats n)).2

/-- Effective sleep duration of a call: 0 when no sleep is made. -/
def effective_sleep (r : Option Int) : Int := r.getD 0

/-- Statistics of a limiter at 60 frames per second before its first call. -/
def sixty_fps_stats : fps_limit :=
  { frameStart := 0, frameEnd := 0, targetFrameTime := 16666667, frameOverhead := 0,
    sleepTime := 0 }

/-- `struct command_buffer_data`; `device` and `queue_data` are addresses, 0 for null. -/
structure command_buffer_data where
  device : Nat
  level : Nat
  cmd_buffer : Nat
  queue_data : Nat
  deriving DecidableEq, Repr

/-- The fields of `struct device_data` used by the create and destroy hooks
(`device_data` above holds those of the present path). `instance_ptr`,
`graphic_queue` and the elements of `queues` are addresses, 0 for null. -/
structure device_record where
  instance_ptr : Nat
  physical_device : Nat
  device : Nat
  graphic_queue : Nat
  queues : List Nat
  deriving DecidableEq, Repr

/-- The part of the process state the create, allocate, free and destroy hooks
work on: the registry and the live `device_data`, `queue_data` and
`command_buffer_data` objects by address. `allocated` counts the `new`
expressions executed; the `n`-th one yields the address `n`. -/
structure object_heap where
  vk_object_to_data : object_map
  devices : Nat → Option device_record
  queue_objects : Nat → Option queue_data
  command_buffers : Nat → Option command_buffer_data
  allocated : Nat

/-- What the hooks do besides changing the heap: the `delete` expressions
executed and the calls forwarded to the driver, in order. -/
inductive lifecycle_event where
  | delete_queue_data (address : Nat)
  | delete_device_data (address : Nat)
  | delete_command_buffer_data (address : Nat)
  | FreeCommandBuffers (device commandPool : Nat) (pCommandBuffers : List Nat)
  | DestroyDevice (device : Nat)
  deriving DecidableEq, Repr

/-- The heap the process starts with. -/
def empty_heap : object_heap :=
  { vk_object_to_data := empty_object_map, devices := fun _ => none,
    queue_objects := fun _ => none, command_buffers := fun _ => none, allocated := 0 }

/-- `FIND(type, obj)`: the pointer read, and the heap with the map as the lookup leaves it. -/
def FIND (obj : Nat) (h : object_heap) : Nat × object_heap :=
  ((find_object_data obj h.vk_object_to_data).1,
    { h with vk_object_to_data := (find_object_data obj h.vk_object_to_data).2 })

/-- `new_device_data(device, instance)`. -/
def new_device_data (device inst : Nat) (h : object_heap) : Nat × object_heap :=
  let data := h.allocated + 1
  (data,
    { h with
      allocated := data
      devices := fun a =>
        if a = data then
          some { instance_ptr := inst, physical_device := 0, device := device,
                 graphic_queue := 0, queues := [] }
        else h.devices a
      vk_object_to_data := map_object device data h.vk_object_to_data })

/-- `new_queue_data(queue, family_props, family_index, device_data)`; `flags` is
`family_props->queueFlags`, and `VK_QUEUE_GRAPHICS_BIT` is bit 0. The result is
`none` when `device_data` is written through while it is not a live object. -/
def new_queue_data (queue flags family_index device_data : Nat) (h : object_heap) :
    Option (Nat × object_heap) :=
  let data := h.allocated + 1
  let h1 : object_heap :=
    { h with
      allocated := data
      queue_objects := fun a =>
        if a = data then
          some { device := device_data, queue := queue, flags := flags,
                 family_index := family_index }
        else h.queue_objects a
      vk_object_to_data := map_object queue data h.vk_object_to_data }
  if flags % 2 = 1 then
    match h1.devices device_data with
    | none => none
    | some dd =>
      some (data,
        { h1 with
          devices := fun a =>
            if a = device_data then some { dd with graphic_queue := data } else h1.devices a })
  else some (data, h1)

/-- `destroy_queue(data)`; `none` when `data` is not a live `queue_data`. -/
def destroy_queue (data : Nat) (h : object_heap) :
    Option (object_heap × List lifecycle_event) :=
  match h.queue_objects data with
  | none => none
  | some q =>
    some ({ h with
            vk_object_to_data := unmap_object q.queue h.vk_object_to_data
            queue_objects := fun a => if a = data then none else h.queue_objects a },
          [lifecycle_event.delete_queue_data data])

/-- `new_command_buffer_data(cmd_buffer, level, device_data)`. -/
def new_command_buffer_data (cmd_buffer level device_data : Nat) (h : object_heap) :
    Nat × object_heap :=
  let data := h.allocated + 1
  (data,
    { h with
      allocated := data
      command_buffers := fun a =>
        if a = data then
          some { device := device_data, level := level, cmd_buffer := cmd_buffer,
                 queue_data := 0 }
        else h.command_buffers a
      vk_object_to_data := map_object cmd_buffer data h.vk_object_to_data })

/-- `destroy_command_buffer_data(data)`; `none` when `data` is not a live
`command_buffer_data`. -/
def destroy_command_buffer_data (data : Nat) (h : object_heap) :
    Option (object_heap × List lifecycle_event) :=
  match h.command_buffers data with
  | none => none
  | some cb =>
    some ({ h with
            vk_object_to_data := unmap_object cb.cmd_buffer h.vk_object_to_data
            command_buffers := fun a => if a = data then none else h.command_buffers a },
          [lifecycle_event.delete_command_buffer_data data])

/-- `destroy_device_data(data)`; `none` when `data` is not a live `device_data`. -/
def destroy_device_data (data : Nat) (h : object_heap) :
    Option (object_heap × List lifecycle_event) :=
  match h.devices data with
  | none => none
  | some dd =>
    some ({ h with
            vk_object_to_data := unmap_object dd.device h.vk_object_to_data
            devices := fun a => if a = data then none else h.devices a },
          [lifecycle_event.delete_device_data data])

/-- What `device_map_queues` reads: `pCreateInfo->pQueueCreateInfos` as pairs
(`queueFamilyIndex`, `queueCount`), the `queueFlags` of each family and the
handle `GetDeviceQueue` returns for a family and an index. -/
structure queue_env where
  pQueueCreateInfos : List (Nat × Nat)
  family_flags : Nat → Nat
  GetDeviceQueue : Nat → Nat → Nat

/-- The calls of `new_queue_data` made by the two nested loops of
`device_map_queues`, in order: queue handle, flags and family index. -/
def queue_requests (env : queue_env) : List (Nat × Nat × Nat) :=
  env.pQueueCreateInfos.flatMap
    (fun info => (List.range info.2).map
      (fun j => (env.GetDeviceQueue info.1 j, env.family_flags info.1, info.1)))

/-- The body of the loops of `device_map_queues` from `queue_index` on:
`data->queues[queue_index++] = new_queue_data(...)`. -/
def map_queues_from (data : Nat) :
    List (Nat × Nat × Nat) → Nat → object_heap → Option object_heap
  | [], _, h => some h
  | r :: rest, queue_index, h =>
    match new_queue_data r.1 r.2.1 r.2.2 data h with
    | none => none
    | some (q, h1) =>
      match h1.devices data with
      | none => none
      | some dd =>
        map_queues_from data rest (queue_index + 1)
          { h1 with
            devices := fun a =>
              if a = data then some { dd with queues := dd.queues.set queue_index q }
              else h1.devices a }

/-- `device_map_queues(data, pCreateInfo)`: `queues` is resized to the number of
queues, then filled. The loader callback `set_device_loader_data` changes
nothing the layer keeps. -/
def device_map_queues (data : Nat) (env : queue_env) (h : object_heap) : Option object_heap :=
  match h.devices data with
  | none => none
  | some dd =>
    let n_queues := (env.pQueueCreateInfos.map (fun info => info.2)).sum
    map_queues_from data (queue_requests env) 0
      { h with
        devices := fun a =>
          if a = data then
            some { dd with queues := dd.queues.take n_queues ++
              List.replicate (n_queues - dd.queues.length) 0 }
          else h.devices a }

/-- The loop of `device_unmap_queues`: `destroy_queue(q)` for each element. -/
def destroy_queues : List Nat → object_heap → Option (object_heap × List lifecycle_event)
  | [], h => some (h, [])
  | q :: rest, h =>
    match destroy_queue q h with
    | none => none
    | some (h1, e1) =>
      match destroy_queues rest h1 with
      | none => none
      | some (h2, e2) => some (h2, e1 ++ e2)

/-- `device_unmap_queues(data)`. -/
def device_unmap_queues (data : Nat) (h : object_heap) :
    Option (object_heap × List lifecycle_event) :=
  match h.devices data with
  | none => none
  | some dd => destroy_queues dd.queues h

/-- `overlay_CreateDevice` from the call of the next layer's `vkCreateDevice`
on: `result` and `pDevice` are what that call returns, `is_blacklisted` the
value of `is_blacklisted()`. The instance context found for `physicalDevice` is
only read. -/
def overlay_CreateDevice (is_blacklisted : Bool) (physicalDevice : Nat) (result : Int)
    (pDevice : Nat) (env : queue_env) (h : object_heap) : Option (Int × object_heap) :=
  let f := FIND physicalDevice h
  if result ≠ VK_SUCCESS then some (result, f.2)
  else
    let d := new_device_data pDevice f.1 f.2
    match d.2.devices d.1 with
    | none => none
    | some dd =>
      let h1 : object_heap :=
        { d.2 with
          devices := fun a =>
            if a = d.1 then some { dd with physical_device := physicalDevice }
            else d.2.devices a }
      if is_blacklisted then some (result, h1)
      else
        match device_map_queues d.1 env h1 with
        | none => none
        | some h2 => some (result, h2)

/-- `overlay_AllocateCommandBuffers`: `result` and `pCommandBuffers` are what the
driver returns. The result is `none` when the device context read for the
dispatch table is null or not live. -/
def overlay_AllocateCommandBuffers (device level : Nat) (result : Int)
    (pCommandBuffers : List Nat) (h : object_heap) : Option (Int × object_heap) :=
  let f := FIND device h
  if f.1 = 0 then none
  else
    match f.2.devices f.1 with
    | none => none
    | some _ =>
      if result ≠ VK_SUCCESS then some (result, f.2)
      else
        some (result,
          pCommandBuffers.foldl (fun s cb => (new_command_buffer_data cb level f.1 s).2) f.2)

/-- The loop of `overlay_FreeCommandBuffers`. -/
def free_command_buffers :
    List Nat → object_heap → Option (object_heap × List lifecycle_event)
  | [], h => some (h, [])
  | cb :: rest, h =>
    let f := FIND cb h
    if f.1 = 0 then free_command_buffers rest f.2
    else
      match destroy_command_buffer_data f.1 f.2 with
      | none => none
      | some (h1, e1) =>
        match free_command_buffers rest h1 with
        | none => none
        | some (h2, e2) => some (h2, e1 ++ e2)

/-- `overlay_FreeCommandBuffers(device, commandPool, commandBufferCount, pCommandBuffers)`. -/
def overlay_FreeCommandBuffers (device commandPool : Nat) (pCommandBuffers : List Nat)
    (h : object_heap) : Option (object_heap × List lifecycle_event) :=
  let f := FIND device h
  match free_command_buffers pCommandBuffers f.2 with
  | none => none
  | some (h1, e1) =>
    if f.1 = 0 then none
    else
      match h1.devices f.1 with
      | none => none
      | some _ =>
        some (h1, e1 ++ [lifecycle_event.FreeCommandBuffers device commandPool pCommandBuffers])

/-- `overlay_DestroyDevice(device, pAllocator)`. -/
def overlay_DestroyDevice (is_blacklisted : Bool) (device : Nat) (h : object_heap) :
    Option (object_heap × List lifecycle_event) :=
  let f := FIND device h
  if f.1 = 0 then none
  else
    match (if is_blacklisted then some (f.2, []) else device_unmap_queues f.1 f.2) with
    | none => none
    | some (h1, e1) =>
      match h1.devices f.1 with
      | none => none
      | some _ =>
        match destroy_device_data f.1 h1 with
        | none => none
        | some (h2, e2) => some (h2, e1 ++ [lifecycle_event.DestroyDevice device] ++ e2)

/-- One queue family with the graphics bit and one queue, whose handle is 200. -/
def sample_queue_env : queue_env :=
  { pQueueCreateInfos := [(0, 1)], family_flags := fun _ => 1,
    GetDeviceQueue := fun family j => 200 + 10 * family + j }

/-- A heap in which the instance 40 and its physical device 50 are registered
with the instance context at address 1. -/
def one_instance_heap : object_heap :=
  { empty_heap with
    vk_object_to_data := map_object 50 1 (map_object 40 1 empty_object_map)
    allocated := 1 }

/-- The heap after `overlay_CreateDevice` returned the device handle 100 for
the physical device 50. -/
def one_device_heap : object_heap :=
  ((overlay_CreateDevice false 50 VK_SUCCESS 100 sample_queue_env one_instance_heap).map
    Prod.snd).getD empty_heap

/-- The heap `one_device_heap` after the command buffer 300 was allocated
through `overlay_AllocateCommandBuffers`. -/
def one_command_buffer_heap : object_heap :=
  ((overlay_AllocateCommandBuffers 100 0 VK_SUCCESS [300] one_device_heap).map
    Prod.snd).getD empty_heap

/-- The value of `BUFSIZE`. -/
def BUFSIZE : Nat := 4096

/-- The fields of `struct instance_data` that `parse_command` writes. -/
structure instance_data where
  capture_enabled : Bool
  capture_started : Bool
  deriving DecidableEq, Repr

/-- The function-local statics of `process_char`. -/
structure control_state where
  cmd : Nat → Char
  param : Nat → Char
  cmdpos : Nat
  parampos : Nat
  reading_cmd : Bool
  reading_param : Bool

/-- The statics of `process_char` before its first call (zero-initialised arrays). -/
def initial_control_state : control_state :=
  { cmd := fun _ => Char.ofNat 0, param := fun _ => Char.ofNat 0, cmdpos := 0, parampos := 0,
    reading_cmd := false, reading_param := false }

/-- What a call of `process_char` does besides changing the statics and the
instance: the stores into `cmd` and `param` with their index, and the call of
`parse_command` with the lengths it receives. -/
inductive control_event where
  | write_cmd (index : Nat) (c : Char)
  | write_param (index : Nat) (c : Char)
  | parse_command (cmdlen paramlen : Nat)
  deriving DecidableEq, Repr

/-- The C string starting at `buf[i]`: the characters before the first NUL,
reading at most `fuel` characters. -/
def c_str (buf : Nat → Char) : Nat → Nat → List Char
  | 0, _ => []
  | fuel + 1, i => if buf i = Char.ofNat 0 then [] else buf i :: c_str buf fuel (i + 1)

/-- `strncmp(s1, s2, n) == 0` from index `i` on: at most `n` characters are
compared and the comparison stops after a NUL; `s2` is a string literal, read
as NUL past its end. -/
def strncmp_eq (s1 : Nat → Char) (s2 : List Char) : Nat → Nat → Bool
  | 0, _ => true
  | n + 1, i =>
    if s1 i ≠ s2.getD i (Char.ofNat 0) then false
    else if s1 i = Char.ofNat 0 then true
    else strncmp_eq s1 s2 n (i + 1)

/-- `isspace` in the C locale. -/
def isspace (c : Char) : Bool :=
  c = ' ' || c = '\t' || c = '\n' || c = Char.ofNat 11 || c = Char.ofNat 12 || c = '\r'

/-- The decimal value of the leading digits of a string, continuing from `acc`. -/
def digits_value : List Char → Nat → Nat
  | [], acc => acc
  | c :: rest, acc => if c.isDigit then digits_value rest (10 * acc + (c.toNat - 48)) else acc

/-- The integer a string denotes in decimal: optional white space, an optional
sign, then digits; 0 when there is no digit. -/
def decimal_value (s : List Char) : Int :=
  match s.dropWhile isspace with
  | '-' :: rest => - (digits_value rest 0 : Int)
  | '+' :: rest => (digits_value rest 0 : Int)
  | rest => (digits_value rest 0 : Int)

/-- `strtol(nptr, NULL, 10)` on LP64: the decimal value, clamped to the range of `long`. -/
def strtol (s : List Char) : Int :=
  if decimal_value s < -9223372036854775808 then -9223372036854775808
  else if 9223372036854775807 < decimal_value s then 9223372036854775807
  else decimal_value s

/-- `atoi(nptr)` as the GNU C library computes it: `(int) strtol(nptr, NULL, 10)`. -/
def atoi (s : List Char) : Int := to_i32 (to_u64 (strtol s))

/-- `parse_command(instance_data, cmd, cmdlen, param, paramlen)`. -/
def parse_command (inst : instance_data) (cmd : Nat → Char) (cmdlen : Nat)
    (param : Nat → Char) (_paramlen : Nat) : instance_data :=
  if strncmp_eq cmd "capture".toList cmdlen 0 = true then
    let value := atoi (c_str param BUFSIZE 0)
    let enabled := decide (value > 0)
    if enabled = true then { inst with capture_enabled := true }
    else { inst with capture_enabled := false, capture_started := false }
  else inst

/-- `process_char(instance_data, c)`: the statics, the instance and what was done. -/
def process_char (s : control_state) (inst : instance_data) (c : Char) :
    control_state × instance_data × List control_event :=
  if c = ':' then
    ({ s with cmdpos := 0, parampos := 0, reading_cmd := true, reading_param := false }, inst, [])
  else if c = ';' then
    if s.reading_cmd = false then (s, inst, [])
    else
      let cmd := fun i => if i = s.cmdpos then Char.ofNat 0 else s.cmd i
      let cmdpos := (s.cmdpos + 1) % U32
      let param := fun i => if i = s.parampos then Char.ofNat 0 else s.param i
      let parampos := (s.parampos + 1) % U32
      ({ s with cmd := cmd, param := param, cmdpos := cmdpos, parampos := parampos,
                reading_cmd := false, reading_param := false },
        parse_command inst cmd cmdpos param parampos,
        [control_event.write_cmd s.cmdpos (Char.ofNat 0),
          control_event.write_param s.parampos (Char.ofNat 0),
          control_event.parse_command cmdpos parampos])
  else if c = '=' then
    if s.reading_cmd = false then (s, inst, [])
    else ({ s with reading_param := true }, inst, [])
  else
    if s.reading_cmd = false then (s, inst, [])
    else if s.reading_param = true then
      if BUFSIZE - 1 ≤ s.parampos then
        ({ s with reading_cmd := false, reading_param := false }, inst, [])
      else
        ({ s with param := fun i => if i = s.parampos then c else s.param i,
                  parampos := (s.parampos + 1) % U32 },
          inst, [control_event.write_param s.parampos c])
    else
      if BUFSIZE - 1 ≤ s.cmdpos then ({ s with reading_cmd := false }, inst, [])
      else
        ({ s with cmd := fun i => if i = s.cmdpos then c else s.cmd i,
                  cmdpos := (s.cmdpos + 1) % U32 },
          inst, [control_event.write_cmd s.cmdpos c])

/-- The calls of `process_char` for the characters of `input`, first character
first, as the receive loop of `process_control_socket` makes them. -/
def process_chars (input : List Char) (s : control_state) (inst : instance_data) :
    control_state × instance_data × List control_event :=
  input.foldl
    (fun r c => ((process_char r.1 r.2.1 c).1, (process_char r.1 r.2.1 c).2.1,
      r.2.2 ++ (process_char r.1 r.2.1 c).2.2))
    (s, inst, [])

/-- The grammar of the control protocol, read from its description: the
characters received since the most recent `:`, if there is one. -/
def open_frame_body (w : List Char) : Option (List Char) :=
  if ':' ∈ w then some (w.reverse.takeWhile (fun c => decide (c ≠ ':'))).reverse else none

/-- The command of a frame body: the characters before the first `=`. -/
def frame_cmd (body : List Char) : List Char :=
  body.takeWhile (fun c => decide (c ≠ '='))

/-- The parameter of a frame body: the characters after the first `=`, further
`=` left out. -/
def frame_param (body : List Char) : List Char :=
  (body.dropWhile (fun c => decide (c ≠ '='))).filter (fun c => decide (c ≠ '='))

/-- After the characters `w`, a frame is open: a `:` was received, no `;` since,
and neither the command nor the parameter of the frame exceeds `BUFSIZE - 1`
characters. -/
def in_frame (w : List Char) : Bool :=
  match open_frame_body w with
  | none => false
  | some body =>
    decide (';' ∉ body ∧ (frame_cmd body).length ≤ BUFSIZE - 1 ∧
      (frame_param body).length ≤ BUFSIZE - 1)

/-- The statics of `process_char` agree with the frame that is open after `w`. -/
def control_agrees (w : List Char) (s : control_state) : Prop :=
  s.reading_cmd = in_frame w ∧
  (s.reading_cmd = true → ∃ body, open_frame_body w = some body ∧
    s.cmdpos = (frame_cmd body).length ∧ s.parampos = (frame_param body).length ∧
    (s.reading_param = true ↔ '=' ∈ body) ∧
    (∀ i, i < (frame_cmd body).length → s.cmd i = (frame_cmd body).getD i (Char.ofNat 0)) ∧
    (∀ i, i < (frame_param body).length →
      s.param i = (frame_param body).getD i (Char.ofNat 0)))

/-- Some event of the list is a call of `parse_command`. -/
def dispatches (evs : List control_event) : Bool :=
  evs.any (fun e =>
    match e with
    | control_event.parse_command _ _ => true
    | _ => false)

/-- Every store of the list into `cmd` or `param` is at an index below `n`. -/
def writes_below (n : Nat) (evs : List control_event) : Bool :=
  evs.all (fun e =>
    match e with
    | control_event.write_cmd i _ => decide (i < n)
    | control_event.write_param i _ => decide (i < n)
    | control_event.parse_command _ _ => true)

/-! ## Proc-address lookup (`overlay.cpp`, `gl/inject.cpp`) -/

/-- A non-null function pointer: a function of the layer, by its name, or a
function of another library, by its address. A null pointer is `none`. -/
inductive proc_ptr where
  | layer (fn : String)
  | foreign (address : Nat)
  deriving DecidableEq, Repr

/-- `name_to_funcptr_map` of `overlay.cpp`: the Vulkan name and the layer
function registered for it. -/
def name_to_funcptr_map : List (String × String) :=
  [("vkGetDeviceProcAddr", "overlay_GetDeviceProcAddr"),
   ("vkAllocateCommandBuffers", "overlay_AllocateCommandBuffers"),
   ("vkFreeCommandBuffers", "overlay_FreeCommandBuffers"),
   ("vkResetCommandBuffer", "overlay_ResetCommandBuffer"),
   ("vkBeginCommandBuffer", "overlay_BeginCommandBuffer"),
   ("vkEndCommandBuffer", "overlay_EndCommandBuffer"),
   ("vkCmdExecuteCommands", "overlay_CmdExecuteCommands"),
   ("vkCreateSwapchainKHR", "overlay_CreateSwapchainKHR"),
   ("vkQueuePresentKHR", "overlay_QueuePresentKHR"),
   ("vkDestroySwapchainKHR", "overlay_DestroySwapchainKHR"),
   ("vkQueueSubmit", "overlay_QueueSubmit"),
   ("vkCreateDevice", "overlay_CreateDevice"),
   ("vkDestroyDevice", "overlay_DestroyDevice"),
   ("vkCreateInstance", "overlay_CreateInstance"),
   ("vkDestroyInstance", "overlay_DestroyInstance")]

/-- `find_ptr(name)` of `overlay.cpp`; `is_blacklisted` is the value of `is_blacklisted()`. -/
def find_ptr (is_blacklisted : Bool) (name : String) : Option String :=
  if is_blacklisted = true ∧ (name ≠ "vkCreateInstance" ∧ name ≠ "vkDestroyInstance" ∧
      name ≠ "vkCreateDevice" ∧ name ≠ "vkDestroyDevice") then none
  else (name_to_funcptr_map.find? (fun e => decide (name = e.1))).map Prod.snd

namespace gl

/-- `name_to_funcptr_map` of `gl/inject.cpp`: each entry registers the exported
function of the same name. -/
def name_to_funcptr_map : List (String × String) :=
  [("glXGetProcAddress", "glXGetProcAddress"),
   ("glXGetProcAddressARB", "glXGetProcAddressARB"),
   ("glXCreateContext", "glXCreateContext"),
   ("glXMakeCurrent", "glXMakeCurrent"),
   ("glXSwapBuffers", "glXSwapBuffers"),
   ("glXSwapIntervalEXT", "glXSwapIntervalEXT"),
   ("glXSwapIntervalSGI", "glXSwapIntervalSGI"),
   ("glXSwapIntervalMESA", "glXSwapIntervalMESA"),
   ("glXGetSwapIntervalMESA", "glXGetSwapIntervalMESA")]

/-- `find_ptr(name)` of `gl/inject.cpp`. -/
def find_ptr (name : String) : Option String :=
  (name_to_funcptr_map.find? (fun e => decide (name = e.1))).map Prod.snd

/-- What the real resolution reads: the two resolvers of the loaded `libGL` as
`gl.Load` leaves them (`none` for a null pointer), and `real_dlsym(RTLD_NEXT, name)`. -/
structure glx_env where
  glXGetProcAddress : Option (String → Option proc_ptr)
  glXGetProcAddressARB : Option (String → Option proc_ptr)
  real_dlsym : String → Option proc_ptr

/-- `get_proc_address(name)`: the symbol, or `exit(1)` when there is none. -/
def get_proc_address (env : glx_env) (name : String) : Except Nat proc_ptr :=
  match env.real_dlsym name with
  | none => Except.error 1
  | some func => Except.ok func

/-- `get_glx_proc_address(name)`. -/
def get_glx_proc_address (env : glx_env) (name : String) : Except Nat proc_ptr :=
  let func : Option proc_ptr :=
    match env.glXGetProcAddress with
    | some resolver => resolver name
    | none => none
  let func : Option proc_ptr :=
    match func, env.glXGetProcAddressARB with
    | none, some resolver => resolver name
    | _, _ => func
  match func with
  | some p => Except.ok p
  | none => get_proc_address env name

/-- `glXGetProcAddress(procName)` as exported by the layer. -/
def glXGetProcAddress (env : glx_env) (procName : String) : Except Nat proc_ptr :=
  match find_ptr procName with
  | some fn => Except.ok (proc_ptr.layer fn)
  | none => get_glx_proc_address env procName

/-- `glXGetProcAddressARB(procName)` as exported by the layer. -/
def glXGetProcAddressARB (env : glx_env) (procName : String) : Except Nat proc_ptr :=
  match find_ptr procName with
  | some fn => Except.ok (proc_ptr.layer fn)
  | none => get_glx_proc_address env procName

end gl

/-! ## Swapchain destruction (`overlay.cpp`) -/

/-- The fields of `struct overlay_draw` released by `shutdown_swapchain_data`;
`ptr` is the address of the record. -/
structure draw_resources where
  ptr : Nat
  cross_engine_semaphore : Nat
  semaphore : Nat
  fence : Nat
  vertex_buffer : Nat
  vertex_buffer_mem : Nat
  index_buffer : Nat
  index_buffer_mem : Nat
  deriving DecidableEq, Repr

/-- The fields of `struct swapchain_data` read by `shutdown_swapchain_data` and
`destroy_swapchain_data` (`swapchain_data` above holds those of the present
path); `device` is the `VkDevice` of the device context. -/
structure swapchain_resources where
  device : Nat
  swapchain : Nat
  images : List Nat
  image_views : List Nat
  framebuffers : List Nat
  render_pass : Nat
  descriptor_pool : Nat
  descriptor_layout : Nat
  font_sampler : Nat
  pipeline_layout : Nat
  pipeline : Nat
  command_pool : Nat
  draws : List draw_resources
  font_image : Nat
  font_image_view : Nat
  font_mem : Nat
  upload_font_buffer : Nat
  upload_font_buffer_mem : Nat
  imgui_context : Nat
  deriving DecidableEq, Repr

/-- What the destruction of a swapchain does, in order: the driver calls (each
with its device and the handle released), the `delete` expressions, the ImGui
call and the registry update. -/
inductive shutdown_call where
  | DestroySemaphore (device semaphore : Nat)
  | DestroyFence (device fence : Nat)
  | DestroyBuffer (device buffer : Nat)
  | FreeMemory (device memory : Nat)
  | delete_draw (ptr : Nat)
  | DestroyImageView (device view : Nat)
  | DestroyFramebuffer (device framebuffer : Nat)
  | DestroyRenderPass (device render_pass : Nat)
  | DestroyCommandPool (device pool : Nat)
  | DestroyPipeline (device pipeline : Nat)
  | DestroyPipelineLayout (device layout : Nat)
  | DestroyDescriptorPool (device pool : Nat)
  | DestroyDescriptorSetLayout (device layout : Nat)
  | DestroySampler (device sampler : Nat)
  | DestroyImage (device image : Nat)
  | ImGui_DestroyContext (ctx : Nat)
  | DestroySwapchainKHR (device swapchain : Nat)
  | unmap_object (obj : Nat)
  | delete_swapchain_data (ptr : Nat)
  deriving DecidableEq, Repr

/-- The body of the first loop of `shutdown_swapchain_data` for one draw record. -/
def shutdown_draw (device : Nat) (draw : draw_resources) : List shutdown_call :=
  [shutdown_call.DestroySemaphore device draw.cross_engine_semaphore,
   shutdown_call.DestroySemaphore device draw.semaphore,
   shutdown_call.DestroyFence device draw.fence,
   shutdown_call.DestroyBuffer device draw.vertex_buffer,
   shutdown_call.DestroyBuffer device draw.index_buffer,
   shutdown_call.FreeMemory device draw.vertex_buffer_mem,
   shutdown_call.FreeMemory device draw.index_buffer_mem,
   shutdown_call.delete_draw draw.ptr]

/-- The second loop of `shutdown_swapchain_data` from index `i` on, for `n`
remaining images; `none` when `image_views[i]` or `framebuffers[i]` is read
past the end of its vector. -/
def shutdown_images (data : swapchain_resources) : Nat → Nat → Option (List shutdown_call)
  | 0, _ => some []
  | n + 1, i =>
    match data.image_views.get? i, data.framebuffers.get? i, shutdown_images data n (i + 1) with
    | some view, some framebuffer, some rest =>
      some (shutdown_call.DestroyImageView data.device view ::
        shutdown_call.DestroyFramebuffer data.device framebuffer :: rest)
    | _, _, _ => none

/-- `shutdown_swapchain_data(data)`. -/
def shutdown_swapchain_data (data : swapchain_resources) : Option (List shutdown_call) :=
  match shutdown_images data data.images.length 0 with
  | none => none
  | some views =>
    some (data.draws.flatMap (shutdown_draw data.device) ++ views ++
      [shutdown_call.DestroyRenderPass data.device data.render_pass,
       shutdown_call.DestroyCommandPool data.device data.command_pool,
       shutdown_call.DestroyPipeline data.device data.pipeline,
       shutdown_call.DestroyPipelineLayout data.device data.pipeline_layout,
       shutdown_call.DestroyDescriptorPool data.device data.descriptor_pool,
       shutdown_call.DestroyDescriptorSetLayout data.device data.descriptor_layout,
       shutdown_call.DestroySampler data.device data.font_sampler,
       shutdown_call.DestroyImageView data.device data.font_image_view,
       shutdown_call.DestroyImage data.device data.font_image,
       shutdown_call.FreeMemory data.device data.font_mem,
       shutdown_call.DestroyBuffer data.device data.upload_font_buffer,
       shutdown_call.FreeMemory data.device data.upload_font_buffer_mem,
       shutdown_call.ImGui_DestroyContext data.imgui_context])

/-- `destroy_swapchain_data(data)` for the object at address `ptr`. -/
def destroy_swapchain_data (ptr : Nat) (data : swapchain_resources) (m : object_map) :
    object_map × List shutdown_call :=
  (unmap_object data.swapchain m,
    [shutdown_call.unmap_object data.swapchain, shutdown_call.delete_swapchain_data ptr])

/-- `overlay_DestroySwapchainKHR(device, swapchain, pAllocator)`: `objects` gives
the `swapchain_data` living at an address; the registry afterwards and what was
done, or `none` when the context found is null or not live. -/
def overlay_DestroySwapchainKHR (device swapchain : Nat)
    (objects : Nat → Option swapchain_resources) (m : object_map) :
    Option (object_map × List shutdown_call) :=
  let f := find_object_data swapchain m
  if f.1 = 0 then none
  else
    match objects f.1 with
    | none => none
    | some data =>
      match shutdown_swapchain_data data with
      | none => none
      | some calls =>
        let d := destroy_swapchain_data f.1 data f.2
        some (d.1, calls ++ [shutdown_call.DestroySwapchainKHR device swapchain] ++ d.2)

/-- A swapchain with two images and one draw record, its context at address 5. -/
def sample_swapchain : swapchain_resources :=
  { device := 100, swapchain := 400, images := [1, 2], image_views := [11, 12],
    framebuffers := [21, 22], render_pass := 30, descriptor_pool := 31,
    descriptor_layout := 32, font_sampler := 33, pipeline_layout := 34, pipeline := 35,
    command_pool := 36,
    draws := [{ ptr := 6, cross_engine_semaphore := 41, semaphore := 42, fence := 43,
                vertex_buffer := 44, vertex_buffer_mem := 45, index_buffer := 46,
                index_buffer_mem := 47 }],
    font_image := 50, font_image_view := 51, font_mem := 52, upload_font_buffer := 53,
    upload_font_buffer_mem := 54, imgui_context := 60 }

/-- The characters of one line of the file, before its `endl`, as `create_file`
and `write_file` insert them; `show_double` is the stream's formatting of a `double`. -/
def line_text (show_double : fps_value → String) : log_line → String
  | log_line.header => "os," ++ "cpu," ++ "gpu," ++ "ram," ++ "kernel," ++ "driver"
  | log_line.sysinfo os cpu gpu ram kernel driver =>
    os ++ "," ++ cpu ++ "," ++ gpu ++ "," ++ ram ++ "," ++ kernel ++ "," ++ driver
  | log_line.row frametime fps cpu gpu previous =>
    toString frametime ++ "," ++ show_double fps ++ "," ++ toString cpu ++ "," ++
      toString gpu ++ "," ++ toString previous

/-- The line is a sample row. -/
def is_row : log_line → Bool
  | log_line.row _ _ _ _ _ => true
  | _ => false

/-- The layout of a log file, read from its description: nothing, or the header
line, then one environment line, then sample rows only. -/
def log_layout : List log_line → Bool
  | [] => true
  | log_line.header :: log_line.sysinfo _ _ _ _ _ _ :: rows => rows.all is_row
  | _ => false

/-- The file of a logger state is laid out, and holds its two first lines once
it is open. -/
def file_laid_out (g : logging_state) : Prop :=
  log_layout g.log_file.lines = true ∧ (g.log_file.lines = [] → g.log_file.is_open = false)

/-- The refresh condition of the rolling aggregates, read from its description:
`last_fps_update` is non-zero and `now - last_fps_update` (unsigned 64-bit) is
at least `fps_sampling_period`. -/
def refresh_due (params : overlay_params) (now : Nat) (sw : swapchain_stats) : Bool :=
  decide (sw.last_fps_update ≠ 0 ∧ params.fps_sampling_period ≤ sub_u64 now sw.last_fps_update)

/-! ## OpenGL display size (`gl/inject.cpp`) -/

/-- `struct GLVec`: four `GLint`; its `operator==` compares the four elements. -/
structure GLVec where
  v0 : Int
  v1 : Int
  v2 : Int
  v3 : Int
  deriving DecidableEq, Repr

/-- The statics `last_vp` and `last_sb`, and `ImGui::GetIO().DisplaySize` as the
pair of integers it was built from. -/
structure gl_display_state where
  last_vp : GLVec
  last_sb : GLVec
  DisplaySize : Int × Int
  deriving DecidableEq, Repr

/-- Lines 193-223 of `imgui_render`: `has_context` is whether
`ImGui::GetCurrentContext()` is non-null, `vp` and `sb` what `glGetIntegerv`
returns for `GL_VIEWPORT` and `GL_SCISSOR_BOX`. -/
def imgui_render (has_context : Bool) (vp sb : GLVec) (st : gl_display_state) :
    gl_display_state :=
  if has_context = false then st
  else
    let invalid_scissor := decide (sb.v2 = 1 ∧ sb.v3 = 1)
    let io : gl_display_state :=
      if vp ≠ st.last_vp ∨ invalid_scissor = true then
        { st with DisplaySize := (vp.v2, vp.v3) }
      else st
    let io : gl_display_state :=
      if invalid_scissor = false ∧ (sb ≠ st.last_sb ∨ st.last_vp = sb) then
        { io with DisplaySize := (sb.v2, sb.v3) }
      else io
    { io with last_vp := vp, last_sb := sb }

/-- A layer state with one queue (handle 10) and two swapchains (handles 20 and
21, contexts at addresses 2 and 3). -/
def two_swapchain_state : layer_state :=
  { vk_object_to_data := map_object 21 3 (map_object 20 2 (map_object 10 1 empty_object_map))
    swapchains := fun p =>
      if p = 2 then some empty_swapchain
      else if p = 3 then some { empty_swapchain with swapchain := 2 }
      else none
    queues := fun p => if p = 1 then some other_queue else none
    logging := initial_logging_state
    fps_limit_stats := ⟨0, 0, 0, 0, 0⟩ }

/-- The driver fails the first chained present with `VK_ERROR_DEVICE_LOST` (-4)
and succeeds in the others. -/
def first_present_fails (i : Nat) : present_env :=
  { quiet_env (1000 + i) 5 with chain_result := if i = 0 then -4 else VK_SUCCESS }

/-! ## Theorems -/

/-! ### The statistics ring -/

theorem hud_aggregates_n_frames (P : overlay_params) (inp : frame_input)
    (s : swapchain_stats × logging_state) :
    (hud_aggregates P inp s).1.n_frames = s.1.n_frames ∧
    (hud_aggregates P inp s).1.frames_stats = s.1.frames_stats ∧
    (hud_aggregates P inp s).1.stat_selector = s.1.stat_selector := by
  unfold hud_aggregates
  by_cases h1 : s.1.last_fps_update = 0
  · simp [h1]
  · by_cases h2 : P.fps_sampling_period ≤ sub_u64 inp.now s.1.last_fps_update <;> simp [h1, h2]

theorem update_hud_info_n_frames (P : overlay_params) (inp : frame_input)
    (s : swapchain_stats × logging_state) :
    (update_hud_info P inp s).1.n_frames = (s.1.n_frames + 1) % U64 := by
  simp only [update_hud_info, hud_count]
  rw [(hud_aggregates_n_frames P inp _).1]
  unfold hud_store_frame_time
  split_ifs <;> simp

theorem update_hud_info_last_present (P : overlay_params) (inp : frame_input)
    (s : swapchain_stats × logging_state) :
    (update_hud_info P inp s).1.last_present_time = inp.now := by
  simp only [update_hud_info, hud_count]

theorem update_hud_info_selector (P : overlay_params) (inp : frame_input)
    (s : swapchain_stats × logging_state) :
    (update_hud_info P inp s).1.stat_selector = s.1.stat_selector := by
  simp only [update_hud_info, hud_count]
  rw [(hud_aggregates_n_frames P inp _).2.2]
  unfold hud_store_frame_time
  split_ifs <;> simp

theorem update_hud_info_frames_stats (P : overlay_params) (inp : frame_input)
    (s : swapchain_stats × logging_state) :
    (update_hud_info P inp s).1.frames_stats =
      if s.1.last_present_time ≠ 0 then
        set_stat s.1.frames_stats (s.1.n_frames % FRAMES_STATS_SIZE)
          overlay_param_enabled.frame_timing
          (to_u64 (to_i64 (sub_u64 inp.now s.1.last_present_time)))
      else s.1.frames_stats := by
  simp only [update_hud_info, hud_count]
  rw [(hud_aggregates_n_frames P inp _).2.1]
  unfold hud_store_frame_time
  split_ifs <;> simp

theorem to_u64_to_i64 (x : Nat) : to_u64 (to_i64 x) = x % U64 := by
  unfold to_u64 to_i64 U64
  split_ifs with h <;> omega

theorem run_hud_n_frames (P : overlay_params) (ins : Nat → frame_input)
    (s : swapchain_stats × logging_state) (m : Nat) (h : s.1.n_frames + m < U64) :
    (run_hud P ins m s).1.n_frames = s.1.n_frames + m := by
  induction m with
  | zero => simp [run_hud]
  | succ m ih =>
    have h1 : s.1.n_frames + m < U64 := by omega
    simp only [run_hud, update_hud_info_n_frames, ih h1]
    rw [Nat.mod_eq_of_lt (by omega)]
    omega

theorem run_hud_selector (P : overlay_params) (ins : Nat → frame_input)
    (s : swapchain_stats × logging_state) (m : Nat) :
    (run_hud P ins m s).1.stat_selector = s.1.stat_selector := by
  induction m with
  | zero => simp [run_hud]
  | succ m ih => simp only [run_hud, update_hud_info_selector, ih]

theorem sub_u64_lt (a b : Nat) : sub_u64 a b < U64 := by
  unfold sub_u64 U64
  omega

theorem sub_u64_of_le (a b : Nat) (hab : b ≤ a) (ha : a < U64) : sub_u64 a b = a - b := by
  unfold sub_u64 U64 at *
  omega

theorem run_hud_ring (P : overlay_params) (ins : Nat → frame_input)
    (s : swapchain_stats × logging_state) (hs : s.1.n_frames = 0) (m : Nat) (hm : m < U64)
    (hpos : ∀ i, i < m → (ins i).now ≠ 0)
    (j : Nat) (hj1 : 1 ≤ j) (hjm : j < m) (hwin : m ≤ j + 200) :
    (run_hud P ins m s).1.frames_stats (j % 200) overlay_param_enabled.frame_timing =
      sub_u64 (ins j).now (ins (j - 1)).now := by
  induction m with
  | zero => omega
  | succ m ih =>
    have hn : (run_hud P ins m s).1.n_frames = m := by
      rw [run_hud_n_frames P ins s m (by omega), hs]; omega
    simp only [run_hud, update_hud_info_frames_stats, hn, FRAMES_STATS_SIZE]
    by_cases hjm' : j = m
    · subst hjm'
      obtain ⟨j', rfl⟩ : ∃ j', j = j' + 1 := ⟨j - 1, by omega⟩
      have hl : (run_hud P ins (j' + 1) s).1.last_present_time ≠ 0 := by
        simp only [run_hud, update_hud_info_last_present]
        exact hpos j' (by omega)
      rw [if_pos hl]
      simp only [set_stat, and_self, if_true, to_u64_to_i64]
      simp only [run_hud, update_hud_info_last_present]
      rw [Nat.mod_eq_of_lt (sub_u64_lt _ _)]
      simp
    · have hne : j % 200 ≠ m % 200 := by omega
      have ih' := ih (by omega) (fun i hi => hpos i (by omega)) (by omega) (by omega)
      split_ifs
      · simp only [set_stat, hne, false_and, if_false]
        exact ih'
      · exact ih'

theorem to_u64_ofNat (n : Nat) (h : n < U64) : to_u64 (n : Int) = n := by
  unfold to_u64 U64 at *
  omega

theorem to_i32_small (n : Nat) (h : n < 2147483648) : to_i32 n = (n : Int) := by
  unfold to_i32
  have : n % 4294967296 = n := Nat.mod_eq_of_lt (by omega)
  rw [this, if_pos h]

theorem get_time_stat_slot_range (data : swapchain_stats) (i idx : Int)
    (h : get_time_stat_slot data i = some idx) : 0 ≤ idx ∧ idx < 200 := by
  unfold get_time_stat_slot at h
  split_ifs at h with h1 h2
  all_goals
    simp only [Option.some.injEq, FRAMES_STATS_SIZE] at h
    rw [← h]
    rw [to_i32_small _ (by omega)]
    omega

theorem get_time_stat_slot_sentinel (data : swapchain_stats) (i : Int) (h0 : 0 ≤ i)
    (hn : data.n_frames < 200) (hi : i < 200 - (data.n_frames : Int)) :
    get_time_stat_slot data i = none := by
  unfold get_time_stat_slot
  have h1 : data.n_frames < sub_u64 FRAMES_STATS_SIZE (to_u64 i) := by
    unfold sub_u64 to_u64 U64 FRAMES_STATS_SIZE
    omega
  rw [if_pos h1]

theorem get_time_stat_slot_recent (data : swapchain_stats) (k : Nat) (hk : k < 200)
    (hm : k + 1 ≤ data.n_frames) (hsmall : data.n_frames + 199 < 2147483648) :
    get_time_stat_slot data (199 - (k : Int)) =
      some (((data.n_frames - 1 - k) % 200 : Nat) : Int) := by
  obtain ⟨i, hi⟩ : ∃ i : Nat, (199 - (k : Int)) = (i : Int) ∧ i + k = 199 :=
    ⟨199 - k, by omega, by omega⟩
  rw [hi.1]
  unfold get_time_stat_slot
  rw [to_u64_ofNat i (by unfold U64; omega)]
  have h1 : ¬ data.n_frames < sub_u64 FRAMES_STATS_SIZE i := by
    unfold sub_u64 U64 FRAMES_STATS_SIZE
    omega
  have h2 : ¬ (FRAMES_STATS_SIZE + data.n_frames) % U64 < FRAMES_STATS_SIZE := by
    unfold U64 FRAMES_STATS_SIZE
    omega
  rw [if_neg h1, if_neg h2]
  have h3 : (i + data.n_frames) % U64 = i + data.n_frames :=
    Nat.mod_eq_of_lt (by unfold U64; omega)
  simp only [h3, FRAMES_STATS_SIZE]
  rw [to_i32_small (i + data.n_frames) (by omega),
    to_u64_ofNat (i + data.n_frames) (by unfold U64; omega),
    to_i32_small _ (by omega)]
  congr 2
  omega

theorem get_time_stat_of_slot (data : swapchain_stats) (i idx : Int)
    (h : get_time_stat_slot data i = some idx) :
    get_time_stat data i = data.frames_stats idx.toNat data.stat_selector := by
  unfold get_time_stat
  rw [h]

/-- The statement of claim C1 for runs of fewer than `2^31 - 199` frames: plot index
`199 - k` reads slot `(m - 1 - k) mod 200`, which holds the frame time of call `m - 1 - k`. -/
theorem ring_recent_samples_bounded (P : overlay_params) (ins : Nat → frame_input)
    (g0 : logging_state) (m k : Nat) (hm : 200 ≤ m) (hsmall : m + 199 < 2147483648)
    (hpos : ∀ i, i < m → 0 < (ins i).now ∧ (ins i).now < U64)
    (hmono : ∀ i j, i < j → j < m → (ins i).now < (ins j).now)
    (hk : k < 200) (hk1 : 1 ≤ m - 1 - k) :
    get_time_stat_slot (run_hud P ins m (zero_swapchain_stats, g0)).1 (199 - (k : Int)) =
        some (((m - 1 - k) % 200 : Nat) : Int) ∧
      (run_hud P ins m (zero_swapchain_stats, g0)).1.frames_stats ((m - 1 - k) % 200)
        overlay_param_enabled.frame_timing = (ins (m - 1 - k)).now - (ins (m - 2 - k)).now ∧
      get_time_stat (run_hud P ins m (zero_swapchain_stats, g0)).1 (199 - (k : Int)) =
        (ins (m - 1 - k)).now - (ins (m - 2 - k)).now := by
  have hn : (run_hud P ins m (zero_swapchain_stats, g0)).1.n_frames = m := by
    rw [run_hud_n_frames P ins _ m (by simp [zero_swapchain_stats, U64]; omega)]
    simp [zero_swapchain_stats]
  have hslot := get_time_stat_slot_recent (run_hud P ins m (zero_swapchain_stats, g0)).1 k hk
    (by omega) (by omega)
  rw [hn] at hslot
  have hring := run_hud_ring P ins (zero_swapchain_stats, g0) rfl m (by unfold U64; omega)
    (fun i hi => by have := (hpos i hi).1; omega) (m - 1 - k) hk1 (by omega) (by omega)
  have hsub : sub_u64 (ins (m - 1 - k)).now (ins (m - 1 - k - 1)).now =
      (ins (m - 1 - k)).now - (ins (m - 2 - k)).now := by
    have e : m - 1 - k - 1 = m - 2 - k := by omega
    rw [e]
    exact sub_u64_of_le _ _ (le_of_lt (hmono _ _ (by omega) (by omega))) (hpos _ (by omega)).2
  rw [hsub] at hring
  refine ⟨hslot, hring, ?_⟩
  rw [get_time_stat_of_slot _ _ _ hslot, run_hud_selector, Int.toNat_ofNat]
  exact hring

/-- Claim C1, evaluated where the code leaves it: after 2147483648 presents at
the times `i * i + 1`, `get_time_stat` at plot index 199 computes slot 167,
not slot `(2147483648 - 1) mod 200 = 47`, and reads 4294967133, the frame time
of call 2147483567, while the newest frame time is 4294967293. The sum
`_idx + n_frames` no longer fits the `int idx` it is stored in. -/
theorem ring_newest_sample_after_2147483648_frames :
    get_time_stat_slot
        (run_hud test_params square_times 2147483648
          (zero_swapchain_stats, initial_logging_state)).1 199 = some 167 ∧
      (2147483648 - 1 - 0) % 200 = 47 ∧
      get_time_stat
        (run_hud test_params square_times 2147483648
          (zero_swapchain_stats, initial_logging_state)).1 199 = 4294967133 ∧
      (square_times 2147483647).now - (square_times 2147483646).now = 4294967293 := by
  have hn : (run_hud test_params square_times 2147483648
      (zero_swapchain_stats, initial_logging_state)).1.n_frames = 2147483648 := by
    rw [run_hud_n_frames _ _ _ _ (by simp [zero_swapchain_stats, U64])]
    simp [zero_swapchain_stats]
  have hslot : get_time_stat_slot
        (run_hud test_params square_times 2147483648
          (zero_swapchain_stats, initial_logging_state)).1 199 = some 167 := by
    unfold get_time_stat_slot
    rw [hn]
    decide
  have hring := run_hud_ring test_params square_times
    (zero_swapchain_stats, initial_logging_state) rfl 2147483648 (by unfold U64; omega)
    (fun i _ => by simp [square_times]) 2147483567 (by omega) (by omega) (by omega)
  have hval : sub_u64 (square_times 2147483567).now (square_times (2147483567 - 1)).now =
      4294967133 := by decide
  have hmod : 2147483567 % 200 = 167 := by decide
  rw [hval, hmod] at hring
  refine ⟨hslot, by decide, ?_, by decide⟩
  have e : (167 : Int).toNat = 167 := by decide
  have hsel : (zero_swapchain_stats, initial_logging_state).1.stat_selector =
      overlay_param_enabled.frame_timing := rfl
  rw [get_time_stat_of_slot _ _ _ hslot, run_hud_selector, e, hsel]
  exact hring

/-- Claim C2: for a plot index `i` in `0..199`, `get_time_stat` returns the sentinel 0
without reading the ring whenever `n_frames < 200` and `i < 200 - n_frames`, and every
slot index it computes lies in `0..199`. -/
theorem get_time_stat_sentinel_and_range (data : swapchain_stats) (i : Int)
    (h0 : 0 ≤ i) (_h199 : i ≤ 199) :
    (data.n_frames < 200 → i < 200 - (data.n_frames : Int) →
      get_time_stat_slot data i = none ∧ get_time_stat data i = 0) ∧
    (∀ idx, get_time_stat_slot data i = some idx → 0 ≤ idx ∧ idx < 200) := by
  constructor
  · intro hn hi
    have hs := get_time_stat_slot_sentinel data i h0 hn hi
    refine ⟨hs, ?_⟩
    unfold get_time_stat
    rw [hs]
  · intro idx h
    exact get_time_stat_slot_range data i idx h

/-- Claim C2 at `n_frames = 5`, plot index 10. -/
theorem get_time_stat_sentinel_and_range_witness :
    get_time_stat_slot { zero_swapchain_stats with n_frames := 5 } 10 = none ∧
    get_time_stat { zero_swapchain_stats with n_frames := 5 } 10 = 0 :=
  (get_time_stat_sentinel_and_range { zero_swapchain_stats with n_frames := 5 } 10
    (by decide) (by decide)).1 (by decide) (by decide)

/-! ### The object registry -/

theorem find_object_data_fst (k : Nat) (m : object_map) :
    (find_object_data k m).1 = (m k).getD 0 := by
  unfold find_object_data
  cases h : m k <;> simp

theorem lookup_apply_op (m : object_map) (op : registry_op) (k : Nat) :
    (find_object_data k (apply_op m op)).1 =
      if writes_key k op = true then
        (match op with
          | registry_op.map _ data => data
          | _ => 0)
      else (find_object_data k m).1 := by
  simp only [find_object_data_fst]
  cases op with
  | map obj data =>
    by_cases h : obj = k
    · simp [apply_op, map_object, writes_key, h]
    · have h' : ¬ k = obj := fun e => h e.symm
      simp [apply_op, map_object, writes_key, h, h']
  | unmap obj =>
    by_cases h : obj = k
    · simp [apply_op, unmap_object, writes_key, h]
    · have h' : ¬ k = obj := fun e => h e.symm
      simp [apply_op, unmap_object, writes_key, h, h']
  | find obj =>
    simp only [apply_op, writes_key, find_object_data]
    cases hm : m obj with
    | some d => simp
    | none =>
      by_cases h : k = obj
      · subst h
        simp [hm]
      · simp [h]

theorem run_ops_snoc (ops : List registry_op) (op : registry_op) (m : object_map) :
    run_ops (ops ++ [op]) m = apply_op (run_ops ops m) op := by
  simp [run_ops, List.foldl_append]

theorem last_write_snoc (k : Nat) (ops : List registry_op) (op : registry_op) :
    last_write k (ops ++ [op]) = if writes_key k op = true then some op else last_write k ops := by
  unfold last_write
  rw [List.filter_append]
  by_cases h : writes_key k op = true
  · simp [h, List.filter_cons]
  · simp [h, List.filter_cons]

theorem lookup_run_ops (k : Nat) (ops : List registry_op) (m : object_map) :
    (find_object_data k (run_ops ops m)).1 =
      match last_write k ops with
      | some (registry_op.map _ data) => data
      | some _ => 0
      | none => (find_object_data k m).1 := by
  induction ops using List.reverseRecOn with
  | nil => simp [run_ops, last_write]
  | append_singleton ops op ih =>
    rw [run_ops_snoc, lookup_apply_op, last_write_snoc]
    by_cases h : writes_key k op = true
    · simp only [h, if_true]
      cases op <;> simp_all [writes_key]
    · simp only [h, if_false]
      exact ih

/-- Claim C3: after any sequence of `map_object` / `unmap_object` / `find_object_data`
calls on the empty registry, `find_object_data(k)` returns null when `k` was never
written or when the most recent write on `k` is `unmap_object(k)`. -/
theorem find_returns_null_when_not_live (ops : List registry_op) (k : Nat)
    (h : last_write k ops = none ∨ last_write k ops = some (registry_op.unmap k)) :
    (find_object_data k (run_ops ops empty_object_map)).1 = 0 := by
  rw [lookup_run_ops]
  rcases h with h | h
  · rw [h]
    simp [find_object_data_fst, empty_object_map]
  · rw [h]

/-- Claim C3 on a sequence that maps, looks up and unmaps key 7. -/
theorem find_returns_null_when_not_live_witness :
    (last_write 7 [registry_op.map 7 41, registry_op.find 7, registry_op.map 9 5,
        registry_op.unmap 7, registry_op.find 9] = none ∨
      last_write 7 [registry_op.map 7 41, registry_op.find 7, registry_op.map 9 5,
        registry_op.unmap 7, registry_op.find 9] = some (registry_op.unmap 7)) ∧
    (find_object_data 7 (run_ops [registry_op.map 7 41, registry_op.find 7, registry_op.map 9 5,
        registry_op.unmap 7, registry_op.find 9] empty_object_map)).1 = 0 :=
  ⟨Or.inr (by decide), find_returns_null_when_not_live _ 7 (Or.inr (by decide))⟩

/-- Claim C4: after `map_object(k, p)`, `find_object_data(k)` returns `p` after any
sequence of calls that contains no `map_object(k, _)` and no `unmap_object(k)`. -/
theorem find_stable_until_next_write (m : object_map) (k p : Nat) (ops : List registry_op)
    (h : ∀ op, op ∈ ops → writes_key k op = false) :
    (find_object_data k (run_ops ops (map_object k p m))).1 = p := by
  have hl : last_write k ops = none := by
    unfold last_write
    have : ops.filter (writes_key k) = [] := by
      rw [List.filter_eq_nil_iff]
      intro op hop
      simp [h op hop]
    rw [this]
    rfl
  rw [lookup_run_ops, hl]
  simp [find_object_data_fst, map_object]

/-- Claim C4 on a sequence of lookups of key 7 and writes on keys 9 and 3. -/
theorem find_stable_until_next_write_witness :
    (∀ op, op ∈ [registry_op.find 7, registry_op.map 9 5, registry_op.unmap 3,
        registry_op.find 7, registry_op.find 9] → writes_key 7 op = false) ∧
    (find_object_data 7 (run_ops [registry_op.find 7, registry_op.map 9 5, registry_op.unmap 3,
        registry_op.find 7, registry_op.find 9] (map_object 7 41 empty_object_map))).1 = 41 :=
  ⟨by decide, find_stable_until_next_write _ 7 41 _ (by decide)⟩

/-! ### The draw pool -/

theorem get_overlay_draw_nil (env : draw_env) (data : swapchain_data) (hd : data.draws = []) :
    get_overlay_draw env data =
      (fresh_draw env data,
        { data with draws := [fresh_draw env data], draws_allocated := data.draws_allocated + 1 }) := by
  unfold get_overlay_draw
  rw [hd]

theorem get_overlay_draw_reuse (env : draw_env) (data : swapchain_data) (draw : overlay_draw)
    (rest : List overlay_draw) (hd : data.draws = draw :: rest)
    (hs : env.fence_signalled draw.fence = true) :
    get_overlay_draw env data = (draw, { data with draws := rest ++ [draw] }) := by
  unfold get_overlay_draw
  rw [hd]
  simp only [hs, if_true]

theorem get_overlay_draw_alloc (env : draw_env) (data : swapchain_data) (draw : overlay_draw)
    (rest : List overlay_draw) (hd : data.draws = draw :: rest)
    (hs : ¬ env.fence_signalled draw.fence = true) :
    get_overlay_draw env data =
      (fresh_draw env data,
        { data with draws := data.draws ++ [fresh_draw env data],
                    draws_allocated := data.draws_allocated + 1 }) := by
  unfold get_overlay_draw
  rw [hd]
  simp only [hs, if_false]
  simp

theorem take_of_reverse_cons {α : Type} (x : α) (rest log : List α)
    (h : (x :: rest).reverse = log.take (rest.length + 1)) :
    rest.reverse = log.take rest.length := by
  have h1 := congrArg (List.take rest.length) h
  rw [List.take_take, List.reverse_cons] at h1
  rw [List.take_append_of_le_length (by simp)] at h1
  rw [List.take_of_length_le (by simp)] at h1
  rw [h1]
  congr 1
  omega

theorem fresh_not_mem (env : draw_env) (data : swapchain_data)
    (hptr : ∀ d, d ∈ data.draws → d.ptr ≤ data.draws_allocated) :
    fresh_draw env data ∉ data.draws := by
  intro h
  have := hptr _ h
  simp [fresh_draw] at this

theorem pool_inv_step (env : draw_env) (data : swapchain_data) (log : List overlay_draw)
    (hinv : pool_inv data log)
    (hfl : ∀ d, d ∈ data.draws → d ∉ log.take 2 → env.fence_signalled d.fence = true) :
    pool_inv (get_overlay_draw env data).2 ((get_overlay_draw env data).1 :: log) := by
  obtain ⟨hrev, hnd, hlen, hptr, hal⟩ := hinv
  have hfresh := fresh_not_mem env data hptr
  cases hd : data.draws with
  | nil =>
    rw [get_overlay_draw_nil env data hd]
    rw [hd] at hal
    simp [pool_inv, hal, fresh_draw]
  | cons draw rest =>
    rw [hd] at hrev hnd hlen hptr hal hfresh
    have hrest := take_of_reverse_cons draw rest log hrev
    have hnotin : draw ∉ rest := (List.nodup_cons.mp hnd).1
    have hlen' : rest.length + 1 ≤ 3 := by simpa using hlen
    have hal' : data.draws_allocated = rest.length + 1 := by simpa using hal
    by_cases hs : env.fence_signalled draw.fence = true
    · rw [get_overlay_draw_reuse env data draw rest hd hs]
      refine ⟨?_, ?_, ?_, ?_, ?_⟩
      · simp [hrest]
      · show (rest ++ [draw]).Nodup
        rw [List.nodup_append]
        refine ⟨(List.nodup_cons.mp hnd).2, List.nodup_singleton _, ?_⟩
        intro a ha hb
        simp only [List.mem_singleton] at hb
        subst hb
        exact hnotin ha
      · show (rest ++ [draw]).length ≤ 3
        simpa using hlen'
      · intro d hdm
        apply hptr
        have hdm' : d ∈ rest ++ [draw] := hdm
        simp only [List.mem_append, List.mem_singleton] at hdm'
        rcases hdm' with h | h
        · exact List.mem_cons_of_mem _ h
        · rw [h]; exact List.mem_cons_self _ _
      · show data.draws_allocated = (rest ++ [draw]).length
        simpa using hal'
    · rw [get_overlay_draw_alloc env data draw rest hd hs, hd]
      have hlen2 : rest.length + 1 ≤ 2 := by
        by_contra hc
        have h2 : rest.length = 2 := by omega
        apply hs
        apply hfl draw (by rw [hd]; exact List.mem_cons_self _ _)
        rw [h2] at hrest
        rw [← hrest]
        simpa using hnotin
      refine ⟨?_, ?_, ?_, ?_, ?_⟩
      · show (draw :: rest ++ [fresh_draw env data]).reverse =
          List.take (draw :: rest ++ [fresh_draw env data]).length (fresh_draw env data :: log)
        simp only [List.reverse_append, List.reverse_cons, List.reverse_nil, List.nil_append,
          List.singleton_append, List.length_append, List.length_cons, List.length_nil,
          List.take_succ_cons]
        simp only [List.reverse_cons, List.length_cons] at hrev
        rw [hrev]
      · show (draw :: rest ++ [fresh_draw env data]).Nodup
        rw [List.nodup_append]
        refine ⟨hnd, List.nodup_singleton _, ?_⟩
        intro a ha hb
        simp only [List.mem_singleton] at hb
        rw [hb] at ha
        exact hfresh ha
      · show (draw :: rest ++ [fresh_draw env data]).length ≤ 3
        simp only [List.length_append, List.length_cons, List.length_nil]
        omega
      · intro d hdm
        have hdm' : d ∈ draw :: rest ++ [fresh_draw env data] := hdm
        show d.ptr ≤ data.draws_allocated + 1
        simp only [List.mem_append, List.mem_singleton] at hdm'
        rcases hdm' with h | h
        · have := hptr d h
          omega
        · rw [h]
          simp [fresh_draw]
      · show data.draws_allocated + 1 = (draw :: rest ++ [fresh_draw env data]).length
        simp only [List.length_append, List.length_cons, List.length_nil]
        omega

theorem pool_inv_run (envs : Nat → draw_env) (data : swapchain_data)
    (h0 : data.draws = []) (h1 : data.draws_allocated = 0) (n : Nat)
    (H : three_in_flight envs data n) :
    pool_inv (run_draws envs data n).1 (run_draws envs data n).2 := by
  induction n with
  | zero => simp [run_draws, pool_inv, h0, h1]
  | succ n ih =>
    have ih' := ih (fun j hj => H j (by omega))
    simp only [run_draws]
    exact pool_inv_step (envs n) _ _ ih' (H n (by omega))

/-- Claim C9: starting from an empty pool, when only three frames are in flight the
`draws` list never holds more than three records, every allocated record is in the
list, and a call that hands out a record of the list hands out its first element,
whose fence is signalled, and moves it to the back without allocating. -/
theorem draw_pool_never_exceeds_three (envs : Nat → draw_env) (data : swapchain_data)
    (h0 : data.draws = []) (h1 : data.draws_allocated = 0) (n : Nat)
    (H : three_in_flight envs data n) :
    (run_draws envs data n).1.draws.length ≤ 3 ∧
    (run_draws envs data n).1.draws_allocated ≤ 3 ∧
    (run_draws envs data n).1.draws_allocated = (run_draws envs data n).1.draws.length ∧
    ∀ env : draw_env,
      (get_overlay_draw env (run_draws envs data n).1).1 ∈ (run_draws envs data n).1.draws →
      ∃ rest,
        (run_draws envs data n).1.draws =
          (get_overlay_draw env (run_draws envs data n).1).1 :: rest ∧
        env.fence_signalled (get_overlay_draw env (run_draws envs data n).1).1.fence = true ∧
        (get_overlay_draw env (run_draws envs data n).1).2.draws =
          rest ++ [(get_overlay_draw env (run_draws envs data n).1).1] ∧
        (get_overlay_draw env (run_draws envs data n).1).2.draws_allocated =
          (run_draws envs data n).1.draws_allocated := by
  obtain ⟨_, _, hlen, hptr, hal⟩ := pool_inv_run envs data h0 h1 n H
  refine ⟨hlen, by omega, hal, ?_⟩
  intro env hmem
  have hfresh := fresh_not_mem env _ hptr
  cases hd : (run_draws envs data n).1.draws with
  | nil =>
    rw [hd] at hmem
    simp at hmem
  | cons draw rest =>
    by_cases hs : env.fence_signalled draw.fence = true
    · rw [get_overlay_draw_reuse env _ draw rest hd hs]
      exact ⟨rest, rfl, hs, rfl, rfl⟩
    · rw [get_overlay_draw_alloc env _ draw rest hd hs] at hmem
      exact absurd hmem hfresh

/-- Claim C9 on eight calls against `steady_driver`. -/
theorem draw_pool_never_exceeds_three_witness :
    three_in_flight steady_driver empty_swapchain 8 ∧
    (run_draws steady_driver empty_swapchain 8).1.draws.length ≤ 3 ∧
    (run_draws steady_driver empty_swapchain 8).1.draws_allocated ≤ 3 :=
  ⟨by unfold three_in_flight; decide,
   (draw_pool_never_exceeds_three steady_driver empty_swapchain rfl rfl 8
      (by unfold three_in_flight; decide)).1,
   (draw_pool_never_exceeds_three steady_driver empty_swapchain rfl rfl 8
      (by unfold three_in_flight; decide)).2.1⟩

/-! ### The present path -/

/-- Claim C5: with draw data, no wait semaphore and a graphics queue other than the
presenting queue, `render_swapchain_display` submits twice: an empty submission on
the presenting queue signalling the cross-engine semaphore without fence, then the
overlay command buffer on the graphics queue, waiting on the cross-engine semaphore
and signalling the completion semaphore and the fence of the draw record. -/
theorem cross_queue_two_submissions (total_vtx_count : Int) (env : draw_env)
    (data : swapchain_data) (present_queue : queue_data) (image_index : Nat)
    (hv : total_vtx_count ≠ 0)
    (hq : data.device.graphic_queue.queue ≠ present_queue.queue) :
    render_swapchain_display total_vtx_count env data present_queue [] image_index =
      (some (get_overlay_draw env data).1, (get_overlay_draw env data).2,
        [event.QueueSubmit present_queue.queue
            { pWaitSemaphores := [], pCommandBuffers := [],
              pSignalSemaphores := [(get_overlay_draw env data).1.cross_engine_semaphore] }
            VK_NULL_HANDLE,
         event.QueueSubmit data.device.graphic_queue.queue
            { pWaitSemaphores := [(get_overlay_draw env data).1.cross_engine_semaphore],
              pCommandBuffers := [(get_overlay_draw env data).1.command_buffer],
              pSignalSemaphores := [(get_overlay_draw env data).1.semaphore] }
            (get_overlay_draw env data).1.fence]) := by
  unfold render_swapchain_display
  simp [hv, hq]

/-- Claim C5 on `empty_swapchain` presented on `other_queue`. -/
theorem cross_queue_two_submissions_witness :
    (5 : Int) ≠ 0 ∧ empty_swapchain.device.graphic_queue.queue ≠ other_queue.queue ∧
    render_swapchain_display 5 (steady_driver 7) empty_swapchain other_queue [] 0 =
      (some (get_overlay_draw (steady_driver 7) empty_swapchain).1,
        (get_overlay_draw (steady_driver 7) empty_swapchain).2,
        [event.QueueSubmit other_queue.queue
            { pWaitSemaphores := [], pCommandBuffers := [],
              pSignalSemaphores :=
                [(get_overlay_draw (steady_driver 7) empty_swapchain).1.cross_engine_semaphore] }
            VK_NULL_HANDLE,
         event.QueueSubmit empty_swapchain.device.graphic_queue.queue
            { pWaitSemaphores :=
                [(get_overlay_draw (steady_driver 7) empty_swapchain).1.cross_engine_semaphore],
              pCommandBuffers := [(get_overlay_draw (steady_driver 7) empty_swapchain).1.command_buffer],
              pSignalSemaphores := [(get_overlay_draw (steady_driver 7) empty_swapchain).1.semaphore] }
            (get_overlay_draw (steady_driver 7) empty_swapchain).1.fence]) :=
  ⟨by decide, by decide,
    cross_queue_two_submissions 5 (steady_driver 7) empty_swapchain other_queue 0
      (by decide) (by decide)⟩

/-- Claim C6: with draw data, and the graphics queue presenting or at least one wait
semaphore supplied, `render_swapchain_display` submits once, on the graphics queue:
the overlay command buffer, waiting on the caller's semaphores in order, signalling
the completion semaphore and the fence of the draw record. -/
theorem same_queue_or_semaphores_one_submission (total_vtx_count : Int) (env : draw_env)
    (data : swapchain_data) (present_queue : queue_data) (wait_semaphores : List Nat)
    (image_index : Nat) (hv : total_vtx_count ≠ 0)
    (h : data.device.graphic_queue.queue = present_queue.queue ∨ 1 ≤ wait_semaphores.length) :
    render_swapchain_display total_vtx_count env data present_queue wait_semaphores image_index =
      (some (get_overlay_draw env data).1, (get_overlay_draw env data).2,
        [event.QueueSubmit data.device.graphic_queue.queue
            { pWaitSemaphores := wait_semaphores,
              pCommandBuffers := [(get_overlay_draw env data).1.command_buffer],
              pSignalSemaphores := [(get_overlay_draw env data).1.semaphore] }
            (get_overlay_draw env data).1.fence]) := by
  unfold render_swapchain_display
  have hc : ¬ (wait_semaphores.length = 0 ∧
      data.device.graphic_queue.queue ≠ present_queue.queue) := by
    rintro ⟨h1, h2⟩
    rcases h with h | h
    · exact h2 h
    · omega
  rw [if_neg hv]
  simp only [hc, if_false]

/-- Claim C6 with two caller semaphores. -/
theorem same_queue_or_semaphores_one_submission_witness :
    (5 : Int) ≠ 0 ∧
    (empty_swapchain.device.graphic_queue.queue = other_queue.queue ∨ 1 ≤ [31, 32].length) ∧
    render_swapchain_display 5 (steady_driver 7) empty_swapchain other_queue [31, 32] 0 =
      (some (get_overlay_draw (steady_driver 7) empty_swapchain).1,
        (get_overlay_draw (steady_driver 7) empty_swapchain).2,
        [event.QueueSubmit empty_swapchain.device.graphic_queue.queue
            { pWaitSemaphores := [31, 32],
              pCommandBuffers := [(get_overlay_draw (steady_driver 7) empty_swapchain).1.command_buffer],
              pSignalSemaphores := [(get_overlay_draw (steady_driver 7) empty_swapchain).1.semaphore] }
            (get_overlay_draw (steady_driver 7) empty_swapchain).1.fence]) :=
  ⟨by decide, Or.inr (by decide),
    same_queue_or_semaphores_one_submission 5 (steady_driver 7) empty_swapchain other_queue
      [31, 32] 0 (by decide) (Or.inr (by decide))⟩

/-- Claim C8, evaluated where the code leaves it: on the first present of a swapchain
(`n_frames = 0` on entry, draw data present) `before_present` counts the frame and then
calls `compute_swapchain_display` and `render_swapchain_display`, submits the overlay
and returns a draw record. The test `n_frames > 0` runs after the increment. -/
theorem first_present_is_rendered :
    empty_swapchain.sw_stats.n_frames = 0 ∧
    (before_present test_params (quiet_env 1000 5) empty_swapchain initial_logging_state
        other_queue [] 0).data.sw_stats.n_frames = 1 ∧
    (before_present test_params (quiet_env 1000 5) empty_swapchain initial_logging_state
        other_queue [] 0).events =
      [event.compute_swapchain_display 1, event.render_swapchain_display 1,
       event.QueueSubmit 2 { pWaitSemaphores := [], pCommandBuffers := [],
                             pSignalSemaphores := [104] } 0,
       event.QueueSubmit 1 { pWaitSemaphores := [104], pCommandBuffers := [101],
                             pSignalSemaphores := [103] } 102] ∧
    (before_present test_params (quiet_env 1000 5) empty_swapchain initial_logging_state
        other_queue [] 0).draw =
      some { ptr := 1, command_buffer := 101, cross_engine_semaphore := 104, semaphore := 103,
             fence := 102 } := by
  refine ⟨rfl, ?_, ?_, ?_⟩ <;> decide

theorem snapshot_n_frames (params : overlay_params) (inp : frame_input) (keys : keybind_input)
    (s : swapchain_stats × logging_state) :
    (snapshot_swapchain_frame params inp keys s).1.n_frames = (s.1.n_frames + 1) % U64 := by
  simp only [snapshot_swapchain_frame, update_hud_info_n_frames]

/-- The test `n_frames > 0` of `before_present` holds on every present whose frame
counter does not wrap: both display stages are entered. -/
theorem before_present_always_renders (params : overlay_params) (env : present_env)
    (sd : swapchain_data) (g : logging_state) (present_queue : queue_data)
    (wait_semaphores : List Nat) (imageIndex : Nat) (h : sd.sw_stats.n_frames + 1 < U64) :
    ∃ rest, (before_present params env sd g present_queue wait_semaphores imageIndex).events =
      event.compute_swapchain_display sd.swapchain ::
        event.render_swapchain_display sd.swapchain :: rest := by
  unfold before_present
  have hn : 0 < (snapshot_swapchain_frame params env.frame env.keys (sd.sw_stats, g)).1.n_frames := by
    rw [snapshot_n_frames, Nat.mod_eq_of_lt h]
    omega
  simp only [hn, if_true]
  exact ⟨_, rfl⟩

theorem render_nonempty (total_vtx_count : Int) (env : draw_env) (data : swapchain_data)
    (present_queue : queue_data) (wait_semaphores : List Nat) (image_index : Nat)
    (hv : total_vtx_count ≠ 0) :
    render_swapchain_display total_vtx_count env data present_queue wait_semaphores image_index =
      (some (get_overlay_draw env data).1, (get_overlay_draw env data).2,
        if wait_semaphores.length = 0 ∧ data.device.graphic_queue.queue ≠ present_queue.queue then
          [event.QueueSubmit present_queue.queue
              { pWaitSemaphores := [], pCommandBuffers := [],
                pSignalSemaphores := [(get_overlay_draw env data).1.cross_engine_semaphore] }
              VK_NULL_HANDLE,
           event.QueueSubmit data.device.graphic_queue.queue
              { pWaitSemaphores := [(get_overlay_draw env data).1.cross_engine_semaphore],
                pCommandBuffers := [(get_overlay_draw env data).1.command_buffer],
                pSignalSemaphores := [(get_overlay_draw env data).1.semaphore] }
              (get_overlay_draw env data).1.fence]
        else
          [event.QueueSubmit data.device.graphic_queue.queue
              { pWaitSemaphores := wait_semaphores,
                pCommandBuffers := [(get_overlay_draw env data).1.command_buffer],
                pSignalSemaphores := [(get_overlay_draw env data).1.semaphore] }
              (get_overlay_draw env data).1.fence]) := by
  unfold render_swapchain_display
  rw [if_neg hv]
  by_cases hc : wait_semaphores.length = 0 ∧
      data.device.graphic_queue.queue ≠ present_queue.queue
  · simp only [if_pos hc]
  · simp only [if_neg hc]

theorem render_empty (env : draw_env) (data : swapchain_data)
    (present_queue : queue_data) (wait_semaphores : List Nat) (image_index : Nat) :
    render_swapchain_display 0 env data present_queue wait_semaphores image_index =
      (none, data, []) := by
  unfold render_swapchain_display
  rw [if_pos rfl]

theorem render_draw_some (total_vtx_count : Int) (env : draw_env) (data : swapchain_data)
    (present_queue : queue_data) (wait_semaphores : List Nat) (image_index : Nat)
    (d : overlay_draw)
    (h : (render_swapchain_display total_vtx_count env data present_queue wait_semaphores
      image_index).1 = some d) :
    ∃ q w, (render_swapchain_display total_vtx_count env data present_queue wait_semaphores
      image_index).2.2.getLast? =
        some (event.QueueSubmit q
          { pWaitSemaphores := w, pCommandBuffers := [d.command_buffer],
            pSignalSemaphores := [d.semaphore] } d.fence) := by
  by_cases hv : total_vtx_count = 0
  · subst hv
    rw [render_empty] at h
    cases h
  · rw [render_nonempty _ _ _ _ _ _ hv] at h ⊢
    simp only [Option.some.injEq] at h
    subst h
    by_cases hc : wait_semaphores.length = 0 ∧
        data.device.graphic_queue.queue ≠ present_queue.queue
    · simp only [if_pos hc]
      exact ⟨_, _, rfl⟩
    · simp only [if_neg hc]
      exact ⟨_, _, rfl⟩

theorem render_draw_none (total_vtx_count : Int) (env : draw_env) (data : swapchain_data)
    (present_queue : queue_data) (wait_semaphores : List Nat) (image_index : Nat)
    (h : (render_swapchain_display total_vtx_count env data present_queue wait_semaphores
      image_index).1 = none) :
    (render_swapchain_display total_vtx_count env data present_queue wait_semaphores
      image_index).2.2 = [] := by
  by_cases hv : total_vtx_count = 0
  · subst hv
    rw [render_empty]
  · rw [render_nonempty _ _ _ _ _ _ hv] at h
    cases h

theorem before_present_draw_some (params : overlay_params) (env : present_env)
    (sd : swapchain_data) (g : logging_state) (present_queue : queue_data)
    (wait_semaphores : List Nat) (imageIndex : Nat) (d : overlay_draw)
    (h : (before_present params env sd g present_queue wait_semaphores imageIndex).draw = some d) :
    ∃ q w, (before_present params env sd g present_queue wait_semaphores imageIndex).events.getLast? =
      some (event.QueueSubmit q
        { pWaitSemaphores := w, pCommandBuffers := [d.command_buffer],
          pSignalSemaphores := [d.semaphore] } d.fence) := by
  unfold before_present at h ⊢
  by_cases hn : 0 < (snapshot_swapchain_frame params env.frame env.keys (sd.sw_stats, g)).1.n_frames
  · simp only [hn, if_true] at h ⊢
    obtain ⟨q, w, hl⟩ := render_draw_some _ _ _ _ _ _ d h
    refine ⟨q, w, ?_⟩
    rw [List.getLast?_append, hl]
    rfl
  · simp [hn] at h

theorem before_present_draw_none (params : overlay_params) (env : present_env)
    (sd : swapchain_data) (g : logging_state) (present_queue : queue_data)
    (wait_semaphores : List Nat) (imageIndex : Nat)
    (h : (before_present params env sd g present_queue wait_semaphores imageIndex).draw = none) :
    ∀ e, e ∈ (before_present params env sd g present_queue wait_semaphores imageIndex).events →
      is_submit e = false := by
  unfold before_present at h ⊢
  by_cases hn : 0 < (snapshot_swapchain_frame params env.frame env.keys (sd.sw_stats, g)).1.n_frames
  · simp only [hn, if_true] at h ⊢
    rw [render_draw_none _ _ _ _ _ _ h]
    intro e he
    simp only [List.append_nil, List.mem_cons, List.mem_singleton, List.not_mem_nil,
      or_false] at he
    rcases he with he | he <;> rw [he] <;> rfl
  · simp [hn]

theorem FIND_swapchain_data_registered (st : layer_state) (h p : Nat) (sd : swapchain_data)
    (h1 : st.vk_object_to_data h = some p) (h2 : p ≠ 0) (h3 : st.swapchains p = some sd) :
    FIND_swapchain_data h st = (some (p, sd), st) := by
  unfold FIND_swapchain_data find_object_data
  simp only [h1]
  rw [if_neg h2]
  simp only [h3]

theorem FIND_queue_data_registered (st : layer_state) (h p : Nat) (qd : queue_data)
    (h1 : st.vk_object_to_data h = some p) (h2 : p ≠ 0) (h3 : st.queues p = some qd) :
    FIND_queue_data h st = (some qd, st) := by
  unfold FIND_queue_data find_object_data
  simp only [h1]
  rw [if_neg h2]
  simp only [h3]

theorem present_loop_spec (params : overlay_params) (envs : Nat → present_env)
    (queue_data : queue_data) (info : VkPresentInfoKHR) :
    ∀ (items : List (Nat × Nat)) (i : Nat) (st : layer_state) (result : Int)
      (results : Option (List Int)),
      (∀ x, x ∈ items → swapchain_registered st x.1) →
      ∃ st' res results' its,
        present_loop params envs queue_data info items i st result results =
          some (st', res, results', its) ∧
        its.map (fun it => (it.present_info.pSwapchains, it.present_info.pImageIndices)) =
          items.map (fun x => ([x.1], [x.2])) ∧
        ∀ it, it ∈ its → iteration_ok info it := by
  intro items
  induction items with
  | nil =>
    intro i st result results _
    exact ⟨st, result, results, [], rfl, rfl, by simp⟩
  | cons x rest ih =>
    intro i st result results hreg
    obtain ⟨swapchain, image_index⟩ := x
    obtain ⟨p, h1, h2, h3⟩ := hreg (swapchain, image_index) (List.mem_cons_self _ _)
    obtain ⟨sd, hsd⟩ := Option.isSome_iff_exists.mp h3
    have hfind := FIND_swapchain_data_registered st swapchain p sd h1 h2 hsd
    have hreg' : ∀ y, y ∈ rest → swapchain_registered
        { st with
          swapchains := fun q => if q = p then
              some (before_present params (envs i) sd st.logging queue_data
                info.pWaitSemaphores image_index).data
            else st.swapchains q,
          logging := (before_present params (envs i) sd st.logging queue_data
                info.pWaitSemaphores image_index).logging } y.1 := by
      intro y hy
      obtain ⟨p', g1, g2, g3⟩ := hreg y (List.mem_cons_of_mem _ hy)
      refine ⟨p', g1, g2, ?_⟩
      by_cases hp : p' = p
      · simp [hp]
      · simpa [hp] using g3
    obtain ⟨st', res, results', its, hloop, hmap, hok⟩ := ih (i + 1) _
      (if (envs i).chain_result ≠ VK_SUCCESS ∧ result = VK_SUCCESS then (envs i).chain_result
        else result)
      (Option.map (fun a => a.set i (envs i).chain_result)
        (Option.map (fun a => a.set 0 (envs i).chain_result) results)) hreg'
    refine ⟨st', res, results',
      { draw := (before_present params (envs i) sd st.logging queue_data
          info.pWaitSemaphores image_index).draw
        events := (before_present params (envs i) sd st.logging queue_data
          info.pWaitSemaphores image_index).events
        present_info :=
          { info with
            pSwapchains := [swapchain]
            pImageIndices := [image_index]
            pResults := results
            pWaitSemaphores :=
              match (before_present params (envs i) sd st.logging queue_data
                info.pWaitSemaphores image_index).draw with
              | some draw => [draw.semaphore]
              | none => info.pWaitSemaphores }
        chain_result := (envs i).chain_result } :: its, ?_, ?_, ?_⟩
    · simp only [present_loop, hfind, hloop]
    · simp only [List.map_cons, hmap]
    · intro it hit
      rcases List.mem_cons.mp hit with hit | hit
      · subst hit
        constructor
        · intro d hd
          simp only at hd
          refine ⟨by simp only [hd], ?_⟩
          exact before_present_draw_some _ _ _ _ _ _ _ d hd
        · intro hd
          simp only at hd
          refine ⟨by simp only [hd], ?_⟩
          exact before_present_draw_none _ _ _ _ _ _ _ hd
      · exact hok it hit

/-- Claim C7: for a present naming `k` registered swapchains on a registered queue,
`overlay_QueuePresentKHR` returns and forwards `k` presents, the `i`-th naming the
`i`-th swapchain and image index alone; a forwarded present for which a draw was
submitted waits on the completion semaphore of the draw record alone. -/
theorem present_forwards_one_patched_call_per_swapchain (params : overlay_params)
    (envs : Nat → present_env) (lim : limiter_env) (queue : Nat)
    (pPresentInfo : VkPresentInfoKHR) (st : layer_state)
    (hlen : pPresentInfo.pImageIndices.length = pPresentInfo.pSwapchains.length)
    (hq : queue_registered st queue)
    (hs : ∀ h, h ∈ pPresentInfo.pSwapchains → swapchain_registered st h) :
    ∃ out, overlay_QueuePresentKHR params envs lim queue pPresentInfo st = some out ∧
      out.iterations.length = pPresentInfo.pSwapchains.length ∧
      out.iterations.map (fun it => it.present_info.pSwapchains) =
        pPresentInfo.pSwapchains.map (fun s => [s]) ∧
      out.iterations.map (fun it => it.present_info.pImageIndices) =
        pPresentInfo.pImageIndices.map (fun s => [s]) ∧
      ∀ it, it ∈ out.iterations → iteration_ok pPresentInfo it := by
  obtain ⟨p, h1, h2, h3⟩ := hq
  obtain ⟨qd, hqd⟩ := Option.isSome_iff_exists.mp h3
  have hfind := FIND_queue_data_registered st queue p qd h1 h2 hqd
  obtain ⟨st', res, results', its, hloop, hmap, hok⟩ :=
    present_loop_spec params envs qd pPresentInfo
      (List.zip pPresentInfo.pSwapchains pPresentInfo.pImageIndices) 0 st VK_SUCCESS
      pPresentInfo.pResults (fun x hx => hs x.1 (List.of_mem_zip hx).1)
  have hsw : its.map (fun it => it.present_info.pSwapchains) =
      pPresentInfo.pSwapchains.map (fun s => [s]) := by
    have := congrArg (List.map Prod.fst) hmap
    simp only [List.map_map] at this
    have e1 : (Prod.fst ∘ fun (it : present_iteration) =>
        (it.present_info.pSwapchains, it.present_info.pImageIndices)) =
        fun it => it.present_info.pSwapchains := rfl
    have e2 : (Prod.fst ∘ fun (x : Nat × Nat) => ([x.1], [x.2])) =
        (fun s => [s]) ∘ Prod.fst := rfl
    rw [e1, e2, ← List.map_map, List.map_fst_zip _ _ (by omega)] at this
    exact this
  have hix : its.map (fun it => it.present_info.pImageIndices) =
      pPresentInfo.pImageIndices.map (fun s => [s]) := by
    have := congrArg (List.map Prod.snd) hmap
    simp only [List.map_map] at this
    have e1 : (Prod.snd ∘ fun (it : present_iteration) =>
        (it.present_info.pSwapchains, it.present_info.pImageIndices)) =
        fun it => it.present_info.pImageIndices := rfl
    have e2 : (Prod.snd ∘ fun (x : Nat × Nat) => ([x.1], [x.2])) =
        (fun s => [s]) ∘ Prod.snd := rfl
    rw [e1, e2, ← List.map_map, List.map_snd_zip _ _ (by omega)] at this
    exact this
  have hl : its.length = pPresentInfo.pSwapchains.length := by
    have := congrArg List.length hsw
    simpa using this
  unfold overlay_QueuePresentKHR
  simp only [hfind, hloop]
  by_cases ht : 0 < st'.fps_limit_stats.targetFrameTime
  · simp only [ht, if_true]
    exact ⟨_, rfl, hl, hsw, hix, hok⟩
  · simp only [ht, if_false]
    exact ⟨_, rfl, hl, hsw, hix, hok⟩

/-- Claim C7 on a present of one swapchain with one caller semaphore. -/
theorem present_forwards_one_patched_call_per_swapchain_witness :
    ∃ out, overlay_QueuePresentKHR test_params (fun _ => quiet_env 1000 5) exact_limiter 10
        { pWaitSemaphores := [31], pSwapchains := [20], pImageIndices := [3], pResults := some [7] }
        one_swapchain_state = some out ∧
      out.iterations.length = 1 ∧
      out.iterations.map (fun it => it.present_info.pSwapchains) = [[20]] ∧
      out.iterations.map (fun it => it.present_info.pImageIndices) = [[3]] ∧
      ∀ it, it ∈ out.iterations →
        iteration_ok
          { pWaitSemaphores := [31], pSwapchains := [20], pImageIndices := [3],
            pResults := some [7] } it :=
  present_forwards_one_patched_call_per_swapchain test_params (fun _ => quiet_env 1000 5)
    exact_limiter 10
    { pWaitSemaphores := [31], pSwapchains := [20], pImageIndices := [3], pResults := some [7] }
    one_swapchain_state rfl ⟨1, by decide, by decide, by decide⟩
    (fun h hh => by
      have e : h = 20 := by simpa using hh
      subst e
      exact ⟨2, by decide, by decide, by decide⟩)

/-! ### The session logger -/

theorem sample_rows_put_rows (f : ofstream) (h : f.is_open = true) (n : Nat)
    (r : Nat → logData) :
    sample_rows (put_lines f ((List.range n).map (fun i => row_of (r i)))) = sample_rows f + n := by
  unfold put_lines sample_rows
  rw [if_pos h]
  simp only [List.filter_append, List.length_append]
  congr 1
  rw [List.filter_eq_self.mpr]
  · simp
  · intro a ha
    simp only [List.mem_map] at ha
    obtain ⟨i, _, rfl⟩ := ha
    rfl

theorem store_fields (g : logging_state) (p : buffer_id) (i : Nat) (d : logData) :
    (store g p i d).loggingOn = g.loggingOn ∧ (store g p i d).log_i = g.log_i ∧
    (store g p i d).log_size = g.log_size ∧ (store g p i d).log_file = g.log_file ∧
    (store g p i d).log_start = g.log_start ∧ (store g p i d).write_buffer = g.write_buffer ∧
    (store g p i d).read_buffer = g.read_buffer := by
  cases p <;> simp [store]

theorem log_sample_fields (frame_time : Int) (g : logging_state) :
    (log_sample frame_time g).loggingOn = g.loggingOn ∧
    (log_sample frame_time g).log_i = (g.log_i + 1) % U32 ∧
    (log_sample frame_time g).log_size = g.log_size ∧
    (log_sample frame_time g).log_file = g.log_file ∧
    (log_sample frame_time g).log_start = g.log_start := by
  obtain ⟨h1, h2, h3, h4, h5, _, _⟩ := store_fields g g.write_buffer g.log_i
    { fps := g.fps, frametime := frame_time, cpu := g.cpuLoadLog, gpu := g.gpuLoadLog,
      previous := g.elapsedLog }
  unfold log_sample
  simp only [h1, h2, h3, h4, h5, and_self]

theorem log_rotate_idle (g : logging_state) (h : g.log_i ≠ BUF_SIZE) : log_rotate g = g := by
  unfold log_rotate
  rw [if_neg h]

theorem log_rotate_full (g : logging_state) (h : g.log_i = BUF_SIZE)
    (hopen : g.log_file.is_open = true) :
    (log_rotate g).loggingOn = g.loggingOn ∧ (log_rotate g).log_i = 0 ∧
    (log_rotate g).log_size = 0 ∧ (log_rotate g).log_start = g.log_start ∧
    (log_rotate g).log_file.is_open = true ∧ (log_rotate g).log_file.path = g.log_file.path ∧
    sample_rows (log_rotate g).log_file = sample_rows g.log_file + BUF_SIZE := by
  unfold log_rotate
  rw [if_pos h]
  unfold write_file swap_array
  simp only [h, true_and]
  refine ⟨?_, ?_, ?_⟩
  · simp [put_lines, hopen]
  · simp [put_lines, hopen]
  · exact sample_rows_put_rows g.log_file hopen BUF_SIZE _

theorem hud_log_running (P : overlay_params) (now : Nat) (frame_time : Int) (g : logging_state)
    (hon : g.loggingOn = true)
    (hdur : log_duration_reached P (to_i32 (sub_u64 now g.log_start)) = false) :
    hud_log P now frame_time g =
      log_rotate (log_sample frame_time
        { g with elapsedLog := to_i32 (sub_u64 now g.log_start) }) := by
  unfold hud_log
  rw [if_pos hon]
  simp only [hdur, Bool.false_eq_true, if_false]

theorem hud_log_store (P : overlay_params) (now : Nat) (frame_time : Int) (g : logging_state)
    (i : Nat) (file : ofstream) (start : Nat) (hs : session_at g i file start)
    (hi : i + 1 < BUF_SIZE)
    (hdur : log_duration_reached P (to_i32 (sub_u64 now start)) = false) :
    session_at (hud_log P now frame_time g) (i + 1) file start := by
  obtain ⟨hon, hli, hsz, hf, hst⟩ := hs
  rw [← hst] at hdur
  rw [hud_log_running P now frame_time g hon hdur]
  obtain ⟨h1, h2, h3, h4, h5⟩ := log_sample_fields frame_time
    { g with elapsedLog := to_i32 (sub_u64 now g.log_start) }
  simp only at h1 h2 h3 h4 h5
  have hmod : (g.log_i + 1) % U32 = i + 1 := by
    unfold BUF_SIZE at hi
    unfold U32
    omega
  rw [hmod] at h2
  rw [log_rotate_idle _ (by rw [h2]; unfold BUF_SIZE at *; omega)]
  exact ⟨h1.trans hon, h2, h3.trans hsz, h4.trans hf, h5.trans hst⟩

theorem hud_log_rotate (P : overlay_params) (now : Nat) (frame_time : Int) (g : logging_state)
    (file : ofstream) (start : Nat) (hs : session_at g (BUF_SIZE - 1) file start)
    (hopen : file.is_open = true)
    (hdur : log_duration_reached P (to_i32 (sub_u64 now start)) = false) :
    (hud_log P now frame_time g).loggingOn = true ∧
    (hud_log P now frame_time g).log_i = 0 ∧
    (hud_log P now frame_time g).log_size = 0 ∧
    (hud_log P now frame_time g).log_start = start ∧
    (hud_log P now frame_time g).log_file.is_open = true ∧
    (hud_log P now frame_time g).log_file.path = file.path ∧
    sample_rows (hud_log P now frame_time g).log_file = sample_rows file + BUF_SIZE := by
  obtain ⟨hon, hli, hsz, hf, hst⟩ := hs
  rw [← hst] at hdur
  rw [hud_log_running P now frame_time g hon hdur]
  obtain ⟨h1, h2, h3, h4, h5⟩ := log_sample_fields frame_time
    { g with elapsedLog := to_i32 (sub_u64 now g.log_start) }
  simp only at h1 h2 h3 h4 h5
  have hmod : (g.log_i + 1) % U32 = BUF_SIZE := by
    rw [hli]
    decide
  rw [hmod] at h2
  obtain ⟨r1, r2, r3, r4, r5, r6, r7⟩ := log_rotate_full _ h2 (by rw [h4, hf]; exact hopen)
  have h4' := h4.trans hf
  exact ⟨r1.trans (h1.trans hon), r2, r3, r4.trans (h5.trans hst), r5,
    r6.trans (congrArg ofstream.path h4'), r7.trans (by rw [h4'])⟩

theorem update_hud_info_log (P : overlay_params) (inp : frame_input)
    (s : swapchain_stats × logging_state) :
    ∃ g' : logging_state, ∃ ft : Int,
      (update_hud_info P inp s).2 = hud_log P inp.now ft g' ∧
      g'.loggingOn = s.2.loggingOn ∧ g'.log_i = s.2.log_i ∧ g'.log_size = s.2.log_size ∧
      g'.log_file = s.2.log_file ∧ g'.log_start = s.2.log_start := by
  refine ⟨_, _, rfl, ?_⟩
  unfold hud_aggregates
  by_cases h1 : (hud_store_frame_time inp.now s.1).last_fps_update = 0
  · simp [h1]
  · by_cases h2 : P.fps_sampling_period ≤
        sub_u64 inp.now (hud_store_frame_time inp.now s.1).last_fps_update <;> simp [h1, h2]

theorem update_hud_info_session_step (P : overlay_params) (inp : frame_input)
    (s : swapchain_stats × logging_state) (i : Nat) (file : ofstream) (start : Nat)
    (hs : session_at s.2 i file start) (hi : i + 1 < BUF_SIZE)
    (hdur : log_duration_reached P (to_i32 (sub_u64 inp.now start)) = false) :
    session_at (update_hud_info P inp s).2 (i + 1) file start := by
  obtain ⟨g', ft, he, h1, h2, h3, h4, h5⟩ := update_hud_info_log P inp s
  rw [he]
  obtain ⟨a1, a2, a3, a4, a5⟩ := hs
  exact hud_log_store P inp.now ft g' i file start
    ⟨h1.trans a1, h2.trans a2, h3.trans a3, h4.trans a4, h5.trans a5⟩ hi hdur

theorem run_hud_session (P : overlay_params) (ins : Nat → frame_input)
    (s : swapchain_stats × logging_state) (file : ofstream) (start : Nat)
    (hs : session_at s.2 0 file start) (n : Nat) (hn : n < BUF_SIZE)
    (hdur : ∀ i, i < n → log_duration_reached P (to_i32 (sub_u64 (ins i).now start)) = false) :
    session_at (run_hud P ins n s).2 n file start := by
  induction n with
  | zero => exact hs
  | succ n ih =>
    have ih' := ih (by omega) (fun i hi => hdur i (by omega))
    simp only [run_hud]
    exact update_hud_info_session_step P (ins n) _ n file start ih' hn (hdur n (by omega))

theorem create_file_fst (filename : String) (lt : tm) (now : Nat) (g : logging_state) :
    (create_file filename lt now g).1 = session_file filename lt g := by
  simp [create_file, session_file, put_lines]

theorem check_keybinds_start (P : overlay_params) (k : keybind_input) (g : logging_state)
    (hfile : P.output_file ≠ "") (hp : k.pressed = true)
    (hd : 500000 ≤ sub_u64 k.now g.last_f2_press)
    (hoff : g.loggingOn = false) (hi : g.log_i = 0) (hs : g.log_size = 0) :
    session_at (check_keybinds P k g) 0 (session_file P.output_file k.local_time g) k.create_now ∧
    (check_keybinds P k g).last_f2_press = k.now := by
  unfold check_keybinds
  rw [if_pos ⟨hd, hfile⟩]
  simp only [hp, if_true, hoff, Bool.not_false]
  simp only [create_file_fst]
  simp [session_at, create_file, hi, hs, session_file]

theorem put_lines_nil (f : ofstream) : put_lines f [] = f := by
  unfold put_lines
  split_ifs <;> simp

theorem check_keybinds_stop (P : overlay_params) (k : keybind_input) (g : logging_state)
    (hfile : P.output_file ≠ "") (hp : k.pressed = true)
    (hd : 500000 ≤ sub_u64 k.now g.last_f2_press)
    (hon : g.loggingOn = true) (hs : g.log_size = 0) :
    (check_keybinds P k g).loggingOn = false ∧
    (check_keybinds P k g).log_file = close g.log_file := by
  unfold check_keybinds
  rw [if_pos ⟨hd, hfile⟩]
  simp only [hp, if_true, hon, Bool.not_true, Bool.false_eq_true, if_false]
  simp [stop_logging, write_file, swap_array, hs, put_lines_nil]

theorem store_last_f2 (g : logging_state) (p : buffer_id) (i : Nat) (d : logData) :
    (store g p i d).last_f2_press = g.last_f2_press := by
  cases p <;> rfl

theorem log_rotate_last_f2 (g : logging_state) :
    (log_rotate g).last_f2_press = g.last_f2_press := by
  unfold log_rotate
  by_cases h : g.log_i = BUF_SIZE
  · rw [if_pos h]
    rfl
  · rw [if_neg h]

theorem hud_log_last_f2 (P : overlay_params) (now : Nat) (frame_time : Int) (g : logging_state) :
    (hud_log P now frame_time g).last_f2_press = g.last_f2_press := by
  unfold hud_log
  by_cases hon : g.loggingOn = true
  · rw [if_pos hon]
    simp only [log_rotate_last_f2]
    by_cases hr : log_duration_reached P (to_i32 (sub_u64 now g.log_start)) = true
    · simp only [hr, if_true]
      rfl
    · rw [Bool.not_eq_true] at hr
      simp only [hr, Bool.false_eq_true, if_false]
      unfold log_sample
      simp only [store_last_f2]
  · rw [if_neg hon]

theorem update_hud_info_last_f2 (P : overlay_params) (inp : frame_input)
    (s : swapchain_stats × logging_state) :
    (update_hud_info P inp s).2.last_f2_press = s.2.last_f2_press := by
  unfold update_hud_info
  simp only [hud_log_last_f2]
  unfold hud_aggregates
  by_cases h1 : (hud_store_frame_time inp.now s.1).last_fps_update = 0
  · simp [h1]
  · by_cases h2 : P.fps_sampling_period ≤
        sub_u64 inp.now (hud_store_frame_time inp.now s.1).last_fps_update <;> simp [h1, h2]

theorem run_hud_last_f2 (P : overlay_params) (ins : Nat → frame_input)
    (s : swapchain_stats × logging_state) (n : Nat) :
    (run_hud P ins n s).2.last_f2_press = s.2.last_f2_press := by
  induction n with
  | zero => rfl
  | succ n ih => simp only [run_hud, update_hud_info_last_f2, ih]

theorem update_hud_info_session_rotate (P : overlay_params) (inp : frame_input)
    (s : swapchain_stats × logging_state) (file : ofstream) (start : Nat)
    (hs : session_at s.2 (BUF_SIZE - 1) file start) (hopen : file.is_open = true)
    (hdur : log_duration_reached P (to_i32 (sub_u64 inp.now start)) = false) :
    (update_hud_info P inp s).2.loggingOn = true ∧
    (update_hud_info P inp s).2.log_size = 0 ∧
    (update_hud_info P inp s).2.log_file.path = file.path ∧
    sample_rows (update_hud_info P inp s).2.log_file = sample_rows file + BUF_SIZE := by
  obtain ⟨g', ft, he, h1, h2, h3, h4, h5⟩ := update_hud_info_log P inp s
  rw [he]
  obtain ⟨a1, a2, a3, a4, a5⟩ := hs
  obtain ⟨r1, _, r3, _, _, r6, r7⟩ := hud_log_rotate P inp.now ft g' file start
    ⟨h1.trans a1, h2.trans a2, h3.trans a3, h4.trans a4, h5.trans a5⟩ hopen hdur
  exact ⟨r1, r3, r6, r7⟩

/-- Claim C10: from a logger state with `log_i = 0`, `log_size = 0` and logging off,
a session started by the toggle, run for `BUF_SIZE` frames of `update_hud_info` that
do not reach the maximum duration, and stopped by the toggle, leaves exactly
`BUF_SIZE` sample rows in the session file. -/
theorem session_of_buf_size_frames_writes_buf_size_rows (P : overlay_params)
    (k0 k1 : keybind_input) (ins : Nat → frame_input) (sw : swapchain_stats)
    (g0 : logging_state)
    (hi : g0.log_i = 0) (hs : g0.log_size = 0) (hoff : g0.loggingOn = false)
    (hfile : P.output_file ≠ "")
    (hp0 : k0.pressed = true) (hd0 : 500000 ≤ sub_u64 k0.now g0.last_f2_press)
    (hp1 : k1.pressed = true) (hd1 : 500000 ≤ sub_u64 k1.now k0.now)
    (hdur : ∀ i, i < BUF_SIZE →
      log_duration_reached P (to_i32 (sub_u64 (ins i).now k0.create_now)) = false) :
    (check_keybinds P k0 g0).loggingOn = true ∧
    (check_keybinds P k0 g0).log_file = session_file P.output_file k0.local_time g0 ∧
    (run_hud P ins BUF_SIZE (sw, check_keybinds P k0 g0)).2.loggingOn = true ∧
    (check_keybinds P k1
      (run_hud P ins BUF_SIZE (sw, check_keybinds P k0 g0)).2).loggingOn = false ∧
    (check_keybinds P k1
      (run_hud P ins BUF_SIZE (sw, check_keybinds P k0 g0)).2).log_file.path =
        P.output_file ++ date_string k0.local_time ∧
    sample_rows (check_keybinds P k1
      (run_hud P ins BUF_SIZE (sw, check_keybinds P k0 g0)).2).log_file = BUF_SIZE := by
  obtain ⟨hstart, hf2⟩ := check_keybinds_start P k0 g0 hfile hp0 hd0 hoff hi hs
  have hrun := run_hud_session P ins (sw, check_keybinds P k0 g0) _ _ hstart (BUF_SIZE - 1)
    (by decide) (fun i hi => hdur i (by unfold BUF_SIZE at *; omega))
  have hsplit : run_hud P ins BUF_SIZE (sw, check_keybinds P k0 g0) =
      update_hud_info P (ins (BUF_SIZE - 1))
        (run_hud P ins (BUF_SIZE - 1) (sw, check_keybinds P k0 g0)) := rfl
  obtain ⟨r1, r2, r3, r4⟩ := update_hud_info_session_rotate P (ins (BUF_SIZE - 1)) _ _ _ hrun rfl
    (hdur _ (by decide))
  rw [← hsplit] at r1 r2 r3 r4
  have hl : (run_hud P ins BUF_SIZE (sw, check_keybinds P k0 g0)).2.last_f2_press = k0.now := by
    rw [run_hud_last_f2]
    exact hf2
  obtain ⟨s1, s2⟩ := check_keybinds_stop P k1 _ hfile hp1 (by rw [hl]; exact hd1) r1 r2
  refine ⟨hstart.1, hstart.2.2.2.1, r1, s1, ?_, ?_⟩
  · rw [s2]
    exact r3
  · rw [s2]
    have : sample_rows (session_file P.output_file k0.local_time g0) = 0 := rfl
    rw [this] at r4
    simpa [close, sample_rows] using r4

/-- Claim C10 on the initial logger state with frames 16.667 ms apart. -/
theorem session_of_buf_size_frames_writes_buf_size_rows_witness :
    sample_rows (check_keybinds test_params (toggle_at 3000000)
      (run_hud test_params steady_frames BUF_SIZE
        (zero_swapchain_stats,
          check_keybinds test_params (toggle_at 1000000) initial_logging_state)).2).log_file =
      BUF_SIZE :=
  (session_of_buf_size_frames_writes_buf_size_rows test_params (toggle_at 1000000)
    (toggle_at 3000000) steady_frames zero_swapchain_stats initial_logging_state rfl rfl rfl
    (by decide) rfl (by decide) rfl (by decide) (fun _ _ => by rfl)).2.2.2.2.2

/-! ### The session logger: rotation and session end -/

theorem hud_log_store_pending (P : overlay_params) (now : Nat) (frame_time : Int)
    (g : logging_state) (i size : Nat) (file : ofstream) (start : Nat)
    (hs : logging_with g true i size file start) (hi : i + 1 < BUF_SIZE)
    (hdur : log_duration_reached P (to_i32 (sub_u64 now start)) = false) :
    logging_with (hud_log P now frame_time g) true (i + 1) size file start := by
  obtain ⟨hon, hli, hsz, hf, hst⟩ := hs
  rw [← hst] at hdur
  rw [hud_log_running P now frame_time g hon hdur]
  obtain ⟨h1, h2, h3, h4, h5⟩ := log_sample_fields frame_time
    { g with elapsedLog := to_i32 (sub_u64 now g.log_start) }
  simp only at h1 h2 h3 h4 h5
  have hmod : (g.log_i + 1) % U32 = i + 1 := by
    unfold BUF_SIZE at hi
    unfold U32
    omega
  rw [hmod] at h2
  rw [log_rotate_idle _ (by rw [h2]; unfold BUF_SIZE at *; omega)]
  exact ⟨h1.trans hon, h2, h3.trans hsz, h4.trans hf, h5.trans hst⟩

theorem update_hud_info_store_pending (P : overlay_params) (inp : frame_input)
    (s : swapchain_stats × logging_state) (i size : Nat) (file : ofstream) (start : Nat)
    (hs : logging_with s.2 true i size file start) (hi : i + 1 < BUF_SIZE)
    (hdur : log_duration_reached P (to_i32 (sub_u64 inp.now start)) = false) :
    logging_with (update_hud_info P inp s).2 true (i + 1) size file start := by
  obtain ⟨g', ft, he, h1, h2, h3, h4, h5⟩ := update_hud_info_log P inp s
  rw [he]
  obtain ⟨a1, a2, a3, a4, a5⟩ := hs
  exact hud_log_store_pending P inp.now ft g' i size file start
    ⟨h1.trans a1, h2.trans a2, h3.trans a3, h4.trans a4, h5.trans a5⟩ hi hdur

theorem run_hud_store_pending (P : overlay_params) (ins : Nat → frame_input)
    (s : swapchain_stats × logging_state) (size : Nat) (file : ofstream) (start : Nat)
    (hs : logging_with s.2 true 0 size file start) (n : Nat) (hn : n < BUF_SIZE)
    (hdur : ∀ i, i < n → log_duration_reached P (to_i32 (sub_u64 (ins i).now start)) = false) :
    logging_with (run_hud P ins n s).2 true n size file start := by
  induction n with
  | zero => exact hs
  | succ n ih =>
    have ih' := ih (by omega) (fun i hi => hdur i (by omega))
    simp only [run_hud]
    exact update_hud_info_store_pending P (ins n) _ n size file start ih' hn (hdur n (by omega))

theorem update_hud_info_rotate_pending (P : overlay_params) (inp : frame_input)
    (s : swapchain_stats × logging_state) (file : ofstream) (start : Nat)
    (hs : logging_with s.2 true (BUF_SIZE - 1) 0 file start) (hopen : file.is_open = true)
    (hdur : log_duration_reached P (to_i32 (sub_u64 inp.now start)) = false) :
    logging_with (update_hud_info P inp s).2 true 0 0 (update_hud_info P inp s).2.log_file start ∧
    (update_hud_info P inp s).2.log_file.is_open = true ∧
    (update_hud_info P inp s).2.log_file.path = file.path ∧
    sample_rows (update_hud_info P inp s).2.log_file = sample_rows file + BUF_SIZE := by
  obtain ⟨g', ft, he, h1, h2, h3, h4, h5⟩ := update_hud_info_log P inp s
  rw [he]
  obtain ⟨a1, a2, a3, a4, a5⟩ := hs
  obtain ⟨r1, r2, r3, r4, r5, r6, r7⟩ := hud_log_rotate P inp.now ft g' file start
    ⟨h1.trans a1, h2.trans a2, h3.trans a3, h4.trans a4, h5.trans a5⟩ hopen hdur
  exact ⟨⟨r1, r2, r3, rfl, r4⟩, r5, r6, r7⟩

theorem check_keybinds_start_pending (P : overlay_params) (k : keybind_input)
    (g : logging_state) (hfile : P.output_file ≠ "") (hp : k.pressed = true)
    (hd : 500000 ≤ sub_u64 k.now g.last_f2_press) (hoff : g.loggingOn = false) :
    logging_with (check_keybinds P k g) true g.log_i g.log_size
      (session_file P.output_file k.local_time g) k.create_now ∧
    (check_keybinds P k g).last_f2_press = k.now := by
  unfold check_keybinds
  rw [if_pos ⟨hd, hfile⟩]
  simp only [hp, if_true, hoff, Bool.not_false]
  simp only [create_file_fst]
  simp [logging_with, create_file, session_file]

theorem sample_rows_close (f : ofstream) : sample_rows (close f) = sample_rows f := rfl

theorem stop_logging_fields (g : logging_state) (hopen : g.log_file.is_open = true) :
    (stop_logging g).loggingOn = g.loggingOn ∧ (stop_logging g).log_i = 0 ∧
    (stop_logging g).log_size = g.log_i ∧
    (stop_logging g).log_file.is_open = false ∧
    (stop_logging g).log_file.path = g.log_file.path ∧
    sample_rows (stop_logging g).log_file = sample_rows g.log_file + g.log_size ∧
    (stop_logging g).write_buffer = g.read_buffer ∧
    (stop_logging g).read_buffer = g.write_buffer ∧
    (stop_logging g).last_f2_press = g.last_f2_press := by
  unfold stop_logging write_file swap_array
  refine ⟨rfl, rfl, rfl, rfl, ?_, ?_, rfl, rfl, rfl⟩
  · simp [close, put_lines, hopen]
  · rw [sample_rows_close]
    exact sample_rows_put_rows g.log_file hopen g.log_size _

theorem check_keybinds_stop_pending (P : overlay_params) (k : keybind_input)
    (g : logging_state) (hfile : P.output_file ≠ "") (hp : k.pressed = true)
    (hd : 500000 ≤ sub_u64 k.now g.last_f2_press)
    (hon : g.loggingOn = true) (hopen : g.log_file.is_open = true) :
    (check_keybinds P k g).loggingOn = false ∧ (check_keybinds P k g).log_i = 0 ∧
    (check_keybinds P k g).log_size = g.log_i ∧
    (check_keybinds P k g).log_file.path = g.log_file.path ∧
    sample_rows (check_keybinds P k g).log_file = sample_rows g.log_file + g.log_size ∧
    (check_keybinds P k g).last_f2_press = k.now := by
  unfold check_keybinds
  rw [if_pos ⟨hd, hfile⟩]
  simp only [hp, if_true, hon, Bool.not_true, Bool.false_eq_true, if_false]
  obtain ⟨s1, s2, s3, _, s5, s6, _, _, s9⟩ := stop_logging_fields
    { g with last_f2_press := k.now, log_start := k.now, loggingOn := false } hopen
  exact ⟨s1, s2, s3, s5, s6, s9⟩

theorem hud_log_duration_stop (P : overlay_params) (now : Nat) (frame_time : Int)
    (g : logging_state) (hon : g.loggingOn = true) (hopen : g.log_file.is_open = true)
    (hdur : log_duration_reached P (to_i32 (sub_u64 now g.log_start)) = true) :
    (hud_log P now frame_time g).loggingOn = false ∧
    (hud_log P now frame_time g).log_i = 0 ∧
    (hud_log P now frame_time g).log_size = g.log_i ∧
    sample_rows (hud_log P now frame_time g).log_file = sample_rows g.log_file + g.log_size := by
  unfold hud_log
  rw [if_pos hon]
  simp only [hdur, if_true]
  obtain ⟨s1, s2, s3, _, _, s6, _, _, _⟩ := stop_logging_fields
    { g with elapsedLog := to_i32 (sub_u64 now g.log_start), loggingOn := false } hopen
  rw [log_rotate_idle _ (by rw [s2]; decide)]
  exact ⟨s1, s2, s3, s6⟩

theorem update_hud_info_duration_stop (P : overlay_params) (inp : frame_input)
    (s : swapchain_stats × logging_state) (i size : Nat) (file : ofstream) (start : Nat)
    (hs : logging_with s.2 true i size file start) (hopen : file.is_open = true)
    (hdur : log_duration_reached P (to_i32 (sub_u64 inp.now start)) = true) :
    (update_hud_info P inp s).2.loggingOn = false ∧
    (update_hud_info P inp s).2.log_size = i ∧
    sample_rows (update_hud_info P inp s).2.log_file = sample_rows file + size := by
  obtain ⟨g', ft, he, h1, h2, h3, h4, h5⟩ := update_hud_info_log P inp s
  rw [he]
  obtain ⟨a1, a2, a3, a4, a5⟩ := hs
  obtain ⟨r1, _, r3, r4⟩ := hud_log_duration_stop P inp.now ft g' (h1.trans a1)
    (by rw [h4, a4]; exact hopen) (by rw [h5, a5]; exact hdur)
  refine ⟨r1, ?_, ?_⟩
  · rw [r3, h2, a2]
  · rw [r4, h4, a4, h3, a3]

theorem session_below_buf_size (P : overlay_params) (k0 k1 : keybind_input)
    (ins : Nat → frame_input) (sw : swapchain_stats) (g0 : logging_state) (k : Nat)
    (hk : k < BUF_SIZE) (hi : g0.log_i = 0) (hoff : g0.loggingOn = false)
    (hfile : P.output_file ≠ "")
    (hp0 : k0.pressed = true) (hd0 : 500000 ≤ sub_u64 k0.now g0.last_f2_press)
    (hp1 : k1.pressed = true) (hd1 : 500000 ≤ sub_u64 k1.now k0.now)
    (hdur : ∀ i, i < k →
      log_duration_reached P (to_i32 (sub_u64 (ins i).now k0.create_now)) = false) :
    (check_keybinds P k1 (run_hud P ins k (sw, check_keybinds P k0 g0)).2).loggingOn = false ∧
    (check_keybinds P k1 (run_hud P ins k (sw, check_keybinds P k0 g0)).2).log_i = 0 ∧
    (check_keybinds P k1 (run_hud P ins k (sw, check_keybinds P k0 g0)).2).log_size = k ∧
    sample_rows (check_keybinds P k1
      (run_hud P ins k (sw, check_keybinds P k0 g0)).2).log_file = g0.log_size ∧
    (check_keybinds P k1 (run_hud P ins k (sw, check_keybinds P k0 g0)).2).last_f2_press =
      k1.now := by
  obtain ⟨hstart, hf2⟩ := check_keybinds_start_pending P k0 g0 hfile hp0 hd0 hoff
  rw [hi] at hstart
  obtain ⟨r1, r2, r3, r4, r5⟩ := run_hud_store_pending P ins (sw, check_keybinds P k0 g0) _ _ _
    hstart k hk hdur
  have hl : (run_hud P ins k (sw, check_keybinds P k0 g0)).2.last_f2_press = k0.now := by
    rw [run_hud_last_f2]
    exact hf2
  obtain ⟨s1, s2, s3, _, s5, s6⟩ := check_keybinds_stop_pending P k1 _ hfile hp1
    (by rw [hl]; exact hd1) r1 (by rw [r4]; rfl)
  refine ⟨s1, s2, s3.trans r2, ?_, s6⟩
  rw [s5, r4, r3]
  show 0 + g0.log_size = g0.log_size
  omega

theorem session_above_buf_size (P : overlay_params) (k0 k1 : keybind_input)
    (ins : Nat → frame_input) (sw : swapchain_stats) (g0 : logging_state)
    (hi : g0.log_i = 0) (hs : g0.log_size = 0) (hoff : g0.loggingOn = false)
    (hfile : P.output_file ≠ "")
    (hp0 : k0.pressed = true) (hd0 : 500000 ≤ sub_u64 k0.now g0.last_f2_press)
    (hp1 : k1.pressed = true) (hd1 : 500000 ≤ sub_u64 k1.now k0.now)
    (hdur : ∀ i, i < BUF_SIZE + 1 →
      log_duration_reached P (to_i32 (sub_u64 (ins i).now k0.create_now)) = false) :
    sample_rows (check_keybinds P k1
      (run_hud P ins (BUF_SIZE + 1) (sw, check_keybinds P k0 g0)).2).log_file = BUF_SIZE ∧
    (check_keybinds P k1
      (run_hud P ins (BUF_SIZE + 1) (sw, check_keybinds P k0 g0)).2).log_size = 1 := by
  obtain ⟨hstart, hf2⟩ := check_keybinds_start_pending P k0 g0 hfile hp0 hd0 hoff
  rw [hi, hs] at hstart
  have hrun := run_hud_store_pending P ins (sw, check_keybinds P k0 g0) _ _ _ hstart
    (BUF_SIZE - 1) (by decide) (fun i hi => hdur i (by unfold BUF_SIZE at *; omega))
  have hsplit : run_hud P ins (BUF_SIZE + 1) (sw, check_keybinds P k0 g0) =
      update_hud_info P (ins BUF_SIZE) (update_hud_info P (ins (BUF_SIZE - 1))
        (run_hud P ins (BUF_SIZE - 1) (sw, check_keybinds P k0 g0))) := rfl
  obtain ⟨r1, r2, _, r4⟩ := update_hud_info_rotate_pending P (ins (BUF_SIZE - 1)) _ _ _ hrun rfl
    (hdur _ (by decide))
  have hlast := update_hud_info_store_pending P (ins BUF_SIZE) _ 0 0 _ _ r1 (by decide)
    (hdur _ (by decide))
  rw [← hsplit] at hlast
  obtain ⟨l1, l2, l3, l4, _⟩ := hlast
  have hl : (run_hud P ins (BUF_SIZE + 1) (sw, check_keybinds P k0 g0)).2.last_f2_press =
      k0.now := by
    rw [run_hud_last_f2]
    exact hf2
  obtain ⟨_, _, s3, _, s5, _⟩ := check_keybinds_stop_pending P k1 _ hfile hp1
    (by rw [hl]; exact hd1) l1 (by rw [l4]; exact r2)
  refine ⟨?_, s3.trans l2⟩
  rw [s5, l3, l4, r4]
  rfl

theorem first_session_end_fields :
    first_session_end.loggingOn = false ∧ first_session_end.log_i = 0 ∧
    first_session_end.log_size = 50 ∧ sample_rows first_session_end.log_file = 0 ∧
    first_session_end.last_f2_press = 3000000 :=
  session_below_buf_size test_params (toggle_at 1000000) (toggle_at 3000000) steady_frames
    zero_swapchain_stats initial_logging_state 50 (by decide) rfl rfl (by decide) rfl
    (by decide) rfl (by decide) (fun _ _ => rfl)

/-- Claim C11, evaluated where the code leaves it: a session of `BUF_SIZE + 1` frames
on the initial logger state leaves `BUF_SIZE` sample rows in the file, not
`BUF_SIZE + 1`. The stop path runs `write_file` before it sets `log_size = log_i`,
so the flush at the stop writes nothing and the last sample stays behind in the
read buffer (`log_size = 1` afterwards). -/
theorem session_of_buf_size_plus_one_frames_loses_a_sample :
    sample_rows (check_keybinds test_params (toggle_at 3000000)
      (run_hud test_params steady_frames (BUF_SIZE + 1)
        (zero_swapchain_stats,
          check_keybinds test_params (toggle_at 1000000) initial_logging_state)).2).log_file =
      BUF_SIZE ∧
    (check_keybinds test_params (toggle_at 3000000)
      (run_hud test_params steady_frames (BUF_SIZE + 1)
        (zero_swapchain_stats,
          check_keybinds test_params (toggle_at 1000000) initial_logging_state)).2).log_size =
      1 :=
  session_above_buf_size test_params (toggle_at 1000000) (toggle_at 3000000) steady_frames
    zero_swapchain_stats initial_logging_state rfl rfl rfl (by decide) rfl (by decide) rfl
    (by decide) (fun _ _ => rfl)

theorem timed_session_end_fields :
    timed_session_end.loggingOn = false ∧ timed_session_end.log_size = 59 ∧
    sample_rows timed_session_end.log_file = 0 := by
  obtain ⟨hstart, _⟩ := check_keybinds_start_pending timed_params (toggle_at 1000000)
    initial_logging_state (by decide) rfl (by decide) rfl
  have hrun := run_hud_store_pending timed_params steady_frames
    (zero_swapchain_stats,
      check_keybinds timed_params (toggle_at 1000000) initial_logging_state) _ _ _ hstart 59
    (by decide) (by decide)
  have hsplit : timed_session_end =
      (update_hud_info timed_params (steady_frames 59)
        (run_hud timed_params steady_frames 59
          (zero_swapchain_stats,
            check_keybinds timed_params (toggle_at 1000000) initial_logging_state))).2 := rfl
  rw [hsplit]
  exact update_hud_info_duration_stop timed_params (steady_frames 59) _ 59 _ _ _ hrun rfl
    (by decide)

/-- Claim C12, evaluated where the code leaves it. A session of 50 samples ended
by the toggle writes no row and leaves `log_size = 50`; the next session, of 20
samples, then writes 50 rows; a session of 59 samples ended by the maximum
duration writes no row either. `write_file` takes its row count from `log_size`,
which both stop paths only set after the flush. -/
theorem session_end_flushes_the_previous_size :
    sample_rows first_session_end.log_file = 0 ∧ first_session_end.log_size = 50 ∧
    sample_rows second_session_end.log_file = 50 ∧ second_session_end.log_size = 20 ∧
    sample_rows timed_session_end.log_file = 0 ∧ timed_session_end.log_size = 59 := by
  obtain ⟨f1, f2, f3, f4, f5⟩ := first_session_end_fields
  obtain ⟨_, _, s3, s4, _⟩ := session_below_buf_size test_params (toggle_at 5000000)
    (toggle_at 7000000) steady_frames zero_swapchain_stats first_session_end 20 (by decide)
    f2 f1 (by decide) rfl (by rw [f5]; decide) rfl (by decide) (fun _ _ => rfl)
  obtain ⟨_, t2, t3⟩ := timed_session_end_fields
  exact ⟨f4, f3, s4.trans f3, s3, t3, t2⟩

theorem update_hud_info_log_buffers (P : overlay_params) (inp : frame_input)
    (s : swapchain_stats × logging_state) :
    ∃ g' : logging_state, ∃ ft : Int,
      (update_hud_info P inp s).2 = hud_log P inp.now ft g' ∧
      g'.loggingOn = s.2.loggingOn ∧ g'.log_i = s.2.log_i ∧ g'.log_size = s.2.log_size ∧
      g'.log_file = s.2.log_file ∧ g'.log_start = s.2.log_start ∧
      g'.write_buffer = s.2.write_buffer ∧ g'.read_buffer = s.2.read_buffer ∧
      g'.buffer1 = s.2.buffer1 ∧ g'.buffer2 = s.2.buffer2 := by
  refine ⟨_, _, rfl, ?_⟩
  unfold hud_aggregates
  by_cases h1 : (hud_store_frame_time inp.now s.1).last_fps_update = 0
  · simp [h1]
  · by_cases h2 : P.fps_sampling_period ≤
        sub_u64 inp.now (hud_store_frame_time inp.now s.1).last_fps_update <;> simp [h1, h2]

theorem deref_store_same (g : logging_state) (p : buffer_id) (i : Nat) (d : logData) :
    deref (store g p i d) p = fun j => if j = i then d else deref g p j := by
  cases p <;> rfl

theorem deref_store_other (g : logging_state) (p q : buffer_id) (i : Nat) (d : logData)
    (h : q ≠ p) : deref (store g p i d) q = deref g q := by
  cases p <;> cases q <;> first | rfl | exact absurd rfl h

theorem deref_congr (g1 g2 : logging_state) (h1 : g1.buffer1 = g2.buffer1)
    (h2 : g1.buffer2 = g2.buffer2) (p : buffer_id) : deref g1 p = deref g2 p := by
  cases p
  · exact h1
  · exact h2

theorem log_sample_effect (frame_time : Int) (g : logging_state)
    (hne : g.write_buffer ≠ g.read_buffer) :
    deref (log_sample frame_time g) g.write_buffer =
      (fun j => if j = g.log_i then
          { fps := g.fps, frametime := frame_time, cpu := g.cpuLoadLog, gpu := g.gpuLoadLog,
            previous := g.elapsedLog }
        else deref g g.write_buffer j) ∧
    deref (log_sample frame_time g) g.read_buffer = deref g g.read_buffer ∧
    (log_sample frame_time g).write_buffer = g.write_buffer ∧
    (log_sample frame_time g).read_buffer = g.read_buffer := by
  obtain ⟨_, _, _, _, _, h6, h7⟩ := store_fields g g.write_buffer g.log_i
    { fps := g.fps, frametime := frame_time, cpu := g.cpuLoadLog, gpu := g.gpuLoadLog,
      previous := g.elapsedLog }
  refine ⟨?_, ?_, h6, h7⟩
  · exact deref_store_same g g.write_buffer g.log_i _
  · exact deref_store_other g g.write_buffer g.read_buffer g.log_i _ (fun e => hne e.symm)

theorem log_rotate_effect (g : logging_state) (h : g.log_i = BUF_SIZE)
    (hopen : g.log_file.is_open = true) :
    log_rotate g = write_file { swap_array g with log_size := BUF_SIZE, log_i := 0 } ∧
    (log_rotate g).write_buffer = g.read_buffer ∧
    (log_rotate g).read_buffer = g.write_buffer ∧
    (∀ p, deref (log_rotate g) p = deref g p) ∧
    (log_rotate g).log_file.lines =
      g.log_file.lines ++ (List.range BUF_SIZE).map (fun j => row_of (deref g g.write_buffer j)) := by
  have hs : (swap_array g).log_i = BUF_SIZE := h
  have he : log_rotate g = write_file { swap_array g with log_size := BUF_SIZE, log_i := 0 } := by
    unfold log_rotate
    rw [if_pos h]
    show write_file { swap_array g with log_size := (swap_array g).log_i, log_i := 0 } = _
    rw [hs]
  rw [he]
  refine ⟨rfl, rfl, rfl, fun p => by cases p <;> rfl, ?_⟩
  show (put_lines g.log_file
    ((List.range BUF_SIZE).map (fun j => row_of (deref g g.write_buffer j)))).lines = _
  unfold put_lines
  rw [if_pos hopen]

theorem hud_log_store_effect (P : overlay_params) (now : Nat) (frame_time : Int)
    (g : logging_state) (hon : g.loggingOn = true) (hi : g.log_i + 1 < BUF_SIZE)
    (hne : g.write_buffer ≠ g.read_buffer)
    (hdur : log_duration_reached P (to_i32 (sub_u64 now g.log_start)) = false) :
    (∃ d, deref (hud_log P now frame_time g) g.write_buffer =
      fun j => if j = g.log_i then d else deref g g.write_buffer j) ∧
    (hud_log P now frame_time g).log_i = g.log_i + 1 ∧
    (hud_log P now frame_time g).write_buffer = g.write_buffer := by
  rw [hud_log_running P now frame_time g hon hdur]
  obtain ⟨_, h2, _, _, _⟩ := log_sample_fields frame_time
    { g with elapsedLog := to_i32 (sub_u64 now g.log_start) }
  obtain ⟨e1, _, e3, _⟩ := log_sample_effect frame_time
    { g with elapsedLog := to_i32 (sub_u64 now g.log_start) } hne
  have hmod : (g.log_i + 1) % U32 = g.log_i + 1 := by
    unfold BUF_SIZE at hi
    unfold U32
    omega
  simp only at h2
  rw [hmod] at h2
  rw [log_rotate_idle _ (by rw [h2]; unfold BUF_SIZE at *; omega)]
  exact ⟨⟨_, e1⟩, h2, e3⟩

theorem rotate_sample_effect (frame_time : Int) (g : logging_state)
    (hi : g.log_i = BUF_SIZE - 1) (hopen : g.log_file.is_open = true)
    (hne : g.write_buffer ≠ g.read_buffer) :
    (∃ d, deref (log_rotate (log_sample frame_time g)) g.write_buffer =
      fun j => if j = BUF_SIZE - 1 then d else deref g g.write_buffer j) ∧
    deref (log_rotate (log_sample frame_time g)) g.read_buffer = deref g g.read_buffer ∧
    (log_rotate (log_sample frame_time g)).write_buffer = g.read_buffer ∧
    (log_rotate (log_sample frame_time g)).read_buffer = g.write_buffer ∧
    (log_rotate (log_sample frame_time g)).loggingOn = g.loggingOn ∧
    (log_rotate (log_sample frame_time g)).log_start = g.log_start ∧
    (log_rotate (log_sample frame_time g)).log_i = 0 ∧
    (∃ mid, log_rotate (log_sample frame_time g) = write_file mid ∧ mid.log_size = BUF_SIZE ∧
      mid.log_i = 0 ∧ mid.read_buffer = g.write_buffer ∧ mid.write_buffer = g.read_buffer) ∧
    (log_rotate (log_sample frame_time g)).log_file.lines =
      g.log_file.lines ++ (List.range BUF_SIZE).map
        (fun j => row_of (deref (log_rotate (log_sample frame_time g)) g.write_buffer j)) := by
  obtain ⟨h1, h2, _, h4, h5⟩ := log_sample_fields frame_time g
  obtain ⟨e1, e2, e3, e4⟩ := log_sample_effect frame_time g hne
  have hmod : (g.log_i + 1) % U32 = BUF_SIZE := by
    rw [hi]
    decide
  rw [hmod] at h2
  obtain ⟨r1, r2, r3, r4, r5⟩ := log_rotate_effect _ h2 (by rw [h4]; exact hopen)
  have e1' : deref (log_sample frame_time g) g.write_buffer =
      fun j => if j = BUF_SIZE - 1 then
          { fps := g.fps, frametime := frame_time, cpu := g.cpuLoadLog, gpu := g.gpuLoadLog,
            previous := g.elapsedLog }
        else deref g g.write_buffer j := by
    rw [e1]
    funext j
    rw [hi]
  refine ⟨⟨_, (r4 _).trans e1'⟩, (r4 _).trans e2, r2.trans e4, r3.trans e3, ?_, ?_, ?_, ?_, ?_⟩
  · rw [r1]; exact h1
  · rw [r1]; exact h5
  · rw [r1]; rfl
  · exact ⟨_, r1, rfl, rfl, e3, e4⟩
  · rw [r5, h4, r4, e3]

theorem hud_log_rotation_effect (P : overlay_params) (now : Nat) (frame_time : Int)
    (g : logging_state) (hon : g.loggingOn = true) (hi : g.log_i = BUF_SIZE - 1)
    (hopen : g.log_file.is_open = true) (hne : g.write_buffer ≠ g.read_buffer)
    (hdur : log_duration_reached P (to_i32 (sub_u64 now g.log_start)) = false) :
    (∃ d, deref (hud_log P now frame_time g) g.write_buffer =
      fun j => if j = BUF_SIZE - 1 then d else deref g g.write_buffer j) ∧
    deref (hud_log P now frame_time g) g.read_buffer = deref g g.read_buffer ∧
    (hud_log P now frame_time g).write_buffer = g.read_buffer ∧
    (hud_log P now frame_time g).read_buffer = g.write_buffer ∧
    (hud_log P now frame_time g).loggingOn = g.loggingOn ∧
    (hud_log P now frame_time g).log_start = g.log_start ∧
    (hud_log P now frame_time g).log_i = 0 ∧
    (∃ mid, hud_log P now frame_time g = write_file mid ∧ mid.log_size = BUF_SIZE ∧
      mid.log_i = 0 ∧ mid.read_buffer = g.write_buffer ∧ mid.write_buffer = g.read_buffer) ∧
    (hud_log P now frame_time g).log_file.lines =
      g.log_file.lines ++ (List.range BUF_SIZE).map
        (fun j => row_of (deref (hud_log P now frame_time g) g.write_buffer j)) := by
  rw [hud_log_running P now frame_time g hon hdur]
  exact rotate_sample_effect frame_time
    { g with elapsedLog := to_i32 (sub_u64 now g.log_start) } hi hopen hne

theorem update_hud_info_store_effect (P : overlay_params) (inp : frame_input)
    (s : swapchain_stats × logging_state) (hon : s.2.loggingOn = true)
    (hi : s.2.log_i + 1 < BUF_SIZE) (hne : s.2.write_buffer ≠ s.2.read_buffer)
    (hdur : log_duration_reached P (to_i32 (sub_u64 inp.now s.2.log_start)) = false) :
    (∃ d, deref (update_hud_info P inp s).2 s.2.write_buffer =
      fun j => if j = s.2.log_i then d else deref s.2 s.2.write_buffer j) ∧
    (update_hud_info P inp s).2.log_i = s.2.log_i + 1 ∧
    (update_hud_info P inp s).2.write_buffer = s.2.write_buffer := by
  obtain ⟨g', ft, he, c1, c2, _, _, c5, c6, c7, c8, c9⟩ := update_hud_info_log_buffers P inp s
  have hd : deref g' = deref s.2 := funext (deref_congr g' s.2 c8 c9)
  obtain ⟨⟨d, q1⟩, q2, q3⟩ := hud_log_store_effect P inp.now ft g' (c1.trans hon)
    (by rw [c2]; exact hi) (by rw [c6, c7]; exact hne) (by rw [c5]; exact hdur)
  rw [he]
  rw [c6, c2, hd] at q1
  rw [c2] at q2
  rw [c6] at q3
  exact ⟨⟨d, q1⟩, q2, q3⟩

theorem update_hud_info_rotation_effect (P : overlay_params) (inp : frame_input)
    (s : swapchain_stats × logging_state) (hon : s.2.loggingOn = true)
    (hi : s.2.log_i = BUF_SIZE - 1) (hopen : s.2.log_file.is_open = true)
    (hne : s.2.write_buffer ≠ s.2.read_buffer)
    (hdur : log_duration_reached P (to_i32 (sub_u64 inp.now s.2.log_start)) = false) :
    (∃ d, deref (update_hud_info P inp s).2 s.2.write_buffer =
      fun j => if j = BUF_SIZE - 1 then d else deref s.2 s.2.write_buffer j) ∧
    deref (update_hud_info P inp s).2 s.2.read_buffer = deref s.2 s.2.read_buffer ∧
    (update_hud_info P inp s).2.write_buffer = s.2.read_buffer ∧
    (update_hud_info P inp s).2.read_buffer = s.2.write_buffer ∧
    (update_hud_info P inp s).2.loggingOn = true ∧
    (update_hud_info P inp s).2.log_start = s.2.log_start ∧
    (update_hud_info P inp s).2.log_i = 0 ∧
    (∃ mid, (update_hud_info P inp s).2 = write_file mid ∧ mid.log_size = BUF_SIZE ∧
      mid.log_i = 0 ∧ mid.read_buffer = s.2.write_buffer ∧
      mid.write_buffer = s.2.read_buffer) ∧
    (update_hud_info P inp s).2.log_file.lines =
      s.2.log_file.lines ++ (List.range BUF_SIZE).map
        (fun j => row_of (deref (update_hud_info P inp s).2 s.2.write_buffer j)) := by
  obtain ⟨g', ft, he, c1, c2, _, c4, c5, c6, c7, c8, c9⟩ := update_hud_info_log_buffers P inp s
  have hd : deref g' = deref s.2 := funext (deref_congr g' s.2 c8 c9)
  obtain ⟨⟨d, q1⟩, q2, q3, q4, q5, q6, q7, ⟨mid, m1, m2, m3, m4, m5⟩, q9⟩ :=
    hud_log_rotation_effect P inp.now ft g' (c1.trans hon)
      (c2.trans hi) (by rw [c4]; exact hopen) (by rw [c6, c7]; exact hne)
      (by rw [c5]; exact hdur)
  rw [he]
  rw [c6, hd] at q1
  rw [c7, hd] at q2
  rw [c7] at q3
  rw [c6] at q4 m4
  rw [c7] at m5
  rw [c1, hon] at q5
  rw [c5] at q6
  rw [c4, c6] at q9
  exact ⟨⟨d, q1⟩, q2, q3, q4, q5, q6, q7, ⟨mid, m1, m2, m3, m4, m5⟩, q9⟩

theorem FpsLimiter_sleeps (clock : Int → Int) (stats : fps_limit)
    (h : stats.frameOverhead < stats.targetFrameTime - (stats.frameStart - stats.frameEnd)) :
    (FpsLimiter clock stats).2 =
      some (stats.targetFrameTime - (stats.frameStart - stats.frameEnd) - stats.frameOverhead) ∧
    (FpsLimiter clock stats).1.targetFrameTime = stats.targetFrameTime ∧
    (FpsLimiter clock stats).1.frameStart = stats.frameStart ∧
    (FpsLimiter clock stats).1.frameEnd = stats.frameEnd ∧
    (FpsLimiter clock stats).1.sleepTime =
      stats.targetFrameTime - (stats.frameStart - stats.frameEnd) ∧
    (FpsLimiter clock stats).1.frameOverhead =
      (if stats.targetFrameTime <
          clock (stats.targetFrameTime - (stats.frameStart - stats.frameEnd) -
            stats.frameOverhead) - stats.frameStart -
          (stats.targetFrameTime - (stats.frameStart - stats.frameEnd) - stats.frameOverhead)
        then 0
        else clock (stats.targetFrameTime - (stats.frameStart - stats.frameEnd) -
            stats.frameOverhead) - stats.frameStart -
          (stats.targetFrameTime - (stats.frameStart - stats.frameEnd) -
            stats.frameOverhead)) := by
  unfold FpsLimiter
  simp only [if_pos h]
  split_ifs with h2 <;> exact ⟨rfl, rfl, rfl, rfl, rfl, rfl⟩

theorem FpsLimiter_skips (clock : Int → Int) (stats : fps_limit)
    (h : stats.targetFrameTime - (stats.frameStart - stats.frameEnd) ≤ stats.frameOverhead) :
    FpsLimiter clock stats =
      ({ stats with
          sleepTime := stats.targetFrameTime - (stats.frameStart - stats.frameEnd) }, none) := by
  unfold FpsLimiter
  simp only [if_neg (not_lt.mpr h)]

/-- Claim C14: `FpsLimiter` sets `sleepTime` to `targetFrameTime - (frameStart -
frameEnd)` (16,666,667 when the target is 16,666,667 ns and `frameStart =
frameEnd`); it sleeps exactly when `sleepTime` exceeds the `frameOverhead` it
was entered with, the sleep requested is then `sleepTime - frameOverhead`, which
is strictly positive; otherwise it does not sleep and leaves `frameOverhead`
unchanged. The fields are mathematical integers: 64-bit overflow is not modelled. -/
theorem FpsLimiter_sleep_computation (clock : Int → Int) (stats : fps_limit) :
    (FpsLimiter clock stats).1.sleepTime =
      stats.targetFrameTime - (stats.frameStart - stats.frameEnd) ∧
    (stats.targetFrameTime = 16666667 → stats.frameStart = stats.frameEnd →
      (FpsLimiter clock stats).1.sleepTime = 16666667) ∧
    ((FpsLimiter clock stats).2.isSome = true ↔
      stats.frameOverhead < (FpsLimiter clock stats).1.sleepTime) ∧
    (∀ d, (FpsLimiter clock stats).2 = some d →
      d = (FpsLimiter clock stats).1.sleepTime - stats.frameOverhead ∧ 0 < d) ∧
    ((FpsLimiter clock stats).1.sleepTime ≤ stats.frameOverhead →
      (FpsLimiter clock stats).2 = none ∧
      (FpsLimiter clock stats).1.frameOverhead = stats.frameOverhead) := by
  by_cases h : stats.frameOverhead <
      stats.targetFrameTime - (stats.frameStart - stats.frameEnd)
  · obtain ⟨h1, _, _, _, h5, _⟩ := FpsLimiter_sleeps clock stats h
    rw [h5, h1]
    refine ⟨rfl, ?_, ?_, ?_, ?_⟩
    · intro ht he
      rw [ht, he]
      omega
    · simp only [Option.isSome_some, true_iff]
      exact h
    · intro d hd
      have hd2 := Option.some.inj hd
      constructor
      · exact hd2.symm
      · omega
    · intro hle
      omega
  · have h2 := FpsLimiter_skips clock stats (not_lt.mp h)
    rw [h2]
    refine ⟨rfl, ?_, ?_, ?_, ?_⟩
    · intro ht he
      show stats.targetFrameTime - (stats.frameStart - stats.frameEnd) = 16666667
      rw [ht, he]
      omega
    · simp only [Option.isSome_none, Bool.false_eq_true, false_iff]
      exact h
    · intro d hd
      exact absurd hd (by simp)
    · intro _
      exact ⟨rfl, rfl⟩

/-- Witness for C14: target 16,666,667 ns, `frameStart = frameEnd`, no overhead. -/
theorem FpsLimiter_sleep_computation_witness :
    (FpsLimiter (fun d => d) sixty_fps_stats).1.sleepTime = 16666667 ∧
    ((FpsLimiter (fun d => d) sixty_fps_stats).2.isSome = true ↔
      sixty_fps_stats.frameOverhead < (FpsLimiter (fun d => d) sixty_fps_stats).1.sleepTime) :=
  ⟨(FpsLimiter_sleep_computation (fun d => d) sixty_fps_stats).2.1 rfl rfl,
    (FpsLimiter_sleep_computation (fun d => d) sixty_fps_stats).2.2.1⟩

theorem zero_interval_call_sleeps (c t : Int) (stats : fps_limit)
    (h : stats.frameOverhead < stats.targetFrameTime) :
    (zero_interval_call c t stats).2 = some (stats.targetFrameTime - stats.frameOverhead) ∧
    (zero_interval_call c t stats).1.targetFrameTime = stats.targetFrameTime ∧
    (zero_interval_call c t stats).1.frameOverhead =
      (if stats.targetFrameTime < c then 0 else c) := by
  have h0 : ({ stats with frameStart := t, frameEnd := t } : fps_limit).frameOverhead <
      ({ stats with frameStart := t, frameEnd := t } : fps_limit).targetFrameTime -
        (({ stats with frameStart := t, frameEnd := t } : fps_limit).frameStart -
          ({ stats with frameStart := t, frameEnd := t } : fps_limit).frameEnd) := by
    show stats.frameOverhead < stats.targetFrameTime - (t - t)
    omega
  obtain ⟨h1, h2, _, _, _, h6⟩ :=
    FpsLimiter_sleeps (fun d => t + d + c) { stats with frameStart := t, frameEnd := t } h0
  unfold zero_interval_call
  refine ⟨?_, h2, ?_⟩
  · rw [h1]
    show some (stats.targetFrameTime - (t - t) - stats.frameOverhead) = _
    congr 1
    omega
  · rw [h6]
    show (if stats.targetFrameTime <
        t + (stats.targetFrameTime - (t - t) - stats.frameOverhead) + c - t -
          (stats.targetFrameTime - (t - t) - stats.frameOverhead) then 0
      else t + (stats.targetFrameTime - (t - t) - stats.frameOverhead) + c - t -
          (stats.targetFrameTime - (t - t) - stats.frameOverhead)) = _
    have e : t + (stats.targetFrameTime - (t - t) - stats.frameOverhead) + c - t -
          (stats.targetFrameTime - (t - t) - stats.frameOverhead) = c := by omega
    rw [e]

theorem zero_interval_call_skips (c t : Int) (stats : fps_limit)
    (h : stats.targetFrameTime ≤ stats.frameOverhead) :
    (zero_interval_call c t stats).2 = none ∧
    (zero_interval_call c t stats).1.targetFrameTime = stats.targetFrameTime ∧
    (zero_interval_call c t stats).1.frameOverhead = stats.frameOverhead := by
  have h0 : ({ stats with frameStart := t, frameEnd := t } : fps_limit).targetFrameTime -
        (({ stats with frameStart := t, frameEnd := t } : fps_limit).frameStart -
          ({ stats with frameStart := t, frameEnd := t } : fps_limit).frameEnd) ≤
      ({ stats with frameStart := t, frameEnd := t } : fps_limit).frameOverhead := by
    show stats.targetFrameTime - (t - t) ≤ stats.frameOverhead
    omega
  unfold zero_interval_call
  rw [FpsLimiter_skips _ _ h0]
  exact ⟨rfl, rfl, rfl⟩

/-- After the first call of a run entered with no overhead, the overhead is the
overshoot `c`, or 0 when `c` exceeds the target, and the target is unchanged. -/
theorem pace_state_settled (c : Int) (start : Nat → Int) (stats : fps_limit)
    (hT : 0 < stats.targetFrameTime) (h0 : stats.frameOverhead = 0) (n : Nat) :
    (pace_state c start stats (n + 1)).targetFrameTime = stats.targetFrameTime ∧
    (pace_state c start stats (n + 1)).frameOverhead =
      (if stats.targetFrameTime < c then 0 else c) := by
  induction n with
  | zero =>
    obtain ⟨_, h2, h3⟩ := zero_interval_call_sleeps c (start 0) stats (by rw [h0]; exact hT)
    exact ⟨h2, h3⟩
  | succ n ih =>
    obtain ⟨i1, i2⟩ := ih
    show (zero_interval_call c (start (n + 1)) (pace_state c start stats (n + 1))).1.targetFrameTime
        = _ ∧
      (zero_interval_call c (start (n + 1)) (pace_state c start stats (n + 1))).1.frameOverhead
        = _
    by_cases hs : (pace_state c start stats (n + 1)).frameOverhead <
        (pace_state c start stats (n + 1)).targetFrameTime
    · obtain ⟨_, h2, h3⟩ := zero_interval_call_sleeps c (start (n + 1)) _ hs
      rw [h2, h3, i1]
      exact ⟨rfl, rfl⟩
    · obtain ⟨_, h2, h3⟩ := zero_interval_call_skips c (start (n + 1)) _ (not_lt.mp hs)
      rw [h2, h3]
      exact ⟨i1, i2⟩

/-- Sleep requested by every call after the first. -/
theorem pace_sleep_settled (c : Int) (start : Nat → Int) (stats : fps_limit)
    (hT : 0 < stats.targetFrameTime) (h0 : stats.frameOverhead = 0) (n : Nat) :
    pace_sleep c start stats (n + 1) =
      (if stats.targetFrameTime < c then some stats.targetFrameTime
        else if c < stats.targetFrameTime then some (stats.targetFrameTime - c) else none) := by
  obtain ⟨i1, i2⟩ := pace_state_settled c start stats hT h0 n
  unfold pace_sleep
  by_cases h1 : stats.targetFrameTime < c
  · rw [if_pos h1] at i2 ⊢
    obtain ⟨q, _, _⟩ := zero_interval_call_sleeps c (start (n + 1))
      (pace_state c start stats (n + 1)) (by rw [i1, i2]; exact hT)
    rw [q, i1, i2]
    congr 1
    omega
  · rw [if_neg h1] at i2 ⊢
    by_cases h2 : c < stats.targetFrameTime
    · rw [if_pos h2]
      obtain ⟨q, _, _⟩ := zero_interval_call_sleeps c (start (n + 1))
        (pace_state c start stats (n + 1)) (by rw [i1, i2]; exact h2)
      rw [q, i1, i2]
    · rw [if_neg h2]
      obtain ⟨q, _, _⟩ := zero_interval_call_skips c (start (n + 1))
        (pace_state c start stats (n + 1)) (by rw [i1, i2]; omega)
      exact q

theorem pace_sleep_first (c : Int) (start : Nat → Int) (stats : fps_limit)
    (hT : 0 < stats.targetFrameTime) (h0 : stats.frameOverhead = 0) :
    pace_sleep c start stats 0 = some stats.targetFrameTime := by
  obtain ⟨q, _, _⟩ := zero_interval_call_sleeps c (start 0) stats (by rw [h0]; exact hT)
  unfold pace_sleep
  show (zero_interval_call c (start 0) stats).2 = _
  rw [q, h0]
  congr 1
  omega

/-- Claim C15: in a run of `FpsLimiter` calls with one positive target, a zero
measured frame interval at each call, no overhead on entry and a clock on which
a sleep of `d` ns is measured as `d + c` ns with `c ≥ 0`, the effective sleep
durations (0 when no sleep is made) never increase from one call to the next,
are the same from the second call on, and are never negative; the first one is
the target. -/
theorem pacer_sleeps_decrease_then_stay (c : Int) (start : Nat → Int) (stats : fps_limit)
    (hT : 0 < stats.targetFrameTime) (hc : 0 ≤ c) (h0 : stats.frameOverhead = 0) :
    (∀ n, effective_sleep (pace_sleep c start stats (n + 1)) ≤
      effective_sleep (pace_sleep c start stats n)) ∧
    (∀ n, 1 ≤ n → pace_sleep c start stats n = pace_sleep c start stats 1) ∧
    (∀ n, 0 ≤ effective_sleep (pace_sleep c start stats n)) ∧
    effective_sleep (pace_sleep c start stats 0) = stats.targetFrameTime := by
  have hfirst := pace_sleep_first c start stats hT h0
  have hlater := pace_sleep_settled c start stats hT h0
  have hval : ∀ n, 0 ≤ effective_sleep (pace_sleep c start stats (n + 1)) ∧
      effective_sleep (pace_sleep c start stats (n + 1)) ≤ stats.targetFrameTime := by
    intro n
    rw [hlater n]
    by_cases h1 : stats.targetFrameTime < c
    · rw [if_pos h1]
      show 0 ≤ stats.targetFrameTime ∧ stats.targetFrameTime ≤ stats.targetFrameTime
      omega
    · rw [if_neg h1]
      by_cases h2 : c < stats.targetFrameTime
      · rw [if_pos h2]
        show 0 ≤ stats.targetFrameTime - c ∧ stats.targetFrameTime - c ≤ stats.targetFrameTime
        omega
      · rw [if_neg h2]
        show (0 : Int) ≤ 0 ∧ 0 ≤ stats.targetFrameTime
        omega
  refine ⟨?_, ?_, ?_, ?_⟩
  · intro n
    cases n with
    | zero =>
      rw [hfirst]
      exact (hval 0).2
    | succ n =>
      rw [hlater (n + 1), hlater n]
  · intro n hn
    obtain ⟨k, rfl⟩ : ∃ k, n = k + 1 := ⟨n - 1, by omega⟩
    rw [hlater k, hlater 0]
  · intro n
    cases n with
    | zero =>
      rw [hfirst]
      exact le_of_lt hT
    | succ n => exact (hval n).1
  · rw [hfirst]
    rfl

/-- Witness for C15: 60 frames per second and an overshoot of 50 µs per sleep;
the first call sleeps the whole target and no later call sleeps longer. -/
theorem pacer_sleeps_decrease_then_stay_witness :
    (0 : Int) < sixty_fps_stats.targetFrameTime ∧ (0 : Int) ≤ 50000 ∧
    sixty_fps_stats.frameOverhead = 0 ∧
    effective_sleep (pace_sleep 50000 (fun n => 16716667 * n) sixty_fps_stats 0) =
      sixty_fps_stats.targetFrameTime ∧
    effective_sleep (pace_sleep 50000 (fun n => 16716667 * n) sixty_fps_stats 1) ≤
      effective_sleep (pace_sleep 50000 (fun n => 16716667 * n) sixty_fps_stats 0) :=
  ⟨by decide, by decide, rfl,
    (pacer_sleeps_decrease_then_stay 50000 (fun n => 16716667 * n) sixty_fps_stats
      (by decide) (by decide) rfl).2.2.2,
    (pacer_sleeps_decrease_then_stay 50000 (fun n => 16716667 * n) sixty_fps_stats
      (by decide) (by decide) rfl).1 0⟩

/-- Counterexample to claim C16 as stated: at 60 frames per second, with no
overhead on entry and a clock on which each sleep overshoots by exactly the
target, the first call measures an overhead equal to the target, which the
strict test does not reset; no later call with a zero measured frame interval
sleeps, and the overhead stays at the target. A call entered with an overhead
above the target does not sleep and does not reset it either. -/
theorem overhead_at_target_suppresses_every_later_sleep :
    pace_sleep 16666667 (fun _ => 0) sixty_fps_stats 0 = some 16666667 ∧
    (∀ n, pace_sleep 16666667 (fun _ => 0) sixty_fps_stats (n + 1) = none ∧
      (pace_state 16666667 (fun _ => 0) sixty_fps_stats (n + 1)).frameOverhead = 16666667 ∧
      (pace_state 16666667 (fun _ => 0) sixty_fps_stats (n + 1)).targetFrameTime = 16666667) ∧
    (∀ clock : Int → Int,
      FpsLimiter clock { sixty_fps_stats with frameOverhead := 20000000 } =
        ({ sixty_fps_stats with frameOverhead := 20000000, sleepTime := 16666667 }, none)) := by
  refine ⟨?_, ?_, ?_⟩
  · exact pace_sleep_first 16666667 (fun _ => 0) sixty_fps_stats (by decide) rfl
  · intro n
    obtain ⟨i1, i2⟩ := pace_state_settled 16666667 (fun _ => 0) sixty_fps_stats (by decide) rfl n
    refine ⟨?_, ?_, ?_⟩
    · rw [pace_sleep_settled 16666667 (fun _ => 0) sixty_fps_stats (by decide) rfl n]
      rfl
    · rw [i2]
      rfl
    · rw [i1]
      rfl
  · intro clock
    rfl

theorem pace_state_suppressed (c : Int) (start : Nat → Int) (stats : fps_limit)
    (h : stats.targetFrameTime ≤ stats.frameOverhead) (n : Nat) :
    (pace_state c start stats n).targetFrameTime = stats.targetFrameTime ∧
    (pace_state c start stats n).frameOverhead = stats.frameOverhead := by
  induction n with
  | zero => exact ⟨rfl, rfl⟩
  | succ n ih =>
    obtain ⟨i1, i2⟩ := ih
    obtain ⟨_, h2, h3⟩ := zero_interval_call_skips c (start n) (pace_state c start stats n)
      (by rw [i1, i2]; exact h)
    show (zero_interval_call c (start n) (pace_state c start stats n)).1.targetFrameTime = _ ∧
      (zero_interval_call c (start n) (pace_state c start stats n)).1.frameOverhead = _
    rw [h2, h3]
    exact ⟨i1, i2⟩

/-- Claim C16 as amended: with a positive target, a call of `FpsLimiter` that
sleeps leaves an overhead that does not exceed the target, having reset it to
zero when the overhead it measured did; a call that does not sleep leaves the
overhead unchanged. With a zero measured frame interval a call sleeps when the
overhead on entry is below the target, and from a state whose overhead has
reached the target no call of a run sleeps and the overhead stays as it is. -/
theorem overhead_reset_only_after_a_sleep (clock : Int → Int) (c : Int) (start : Nat → Int)
    (stats : fps_limit) (hT : 0 < stats.targetFrameTime) :
    (∀ d, (FpsLimiter clock stats).2 = some d →
      (FpsLimiter clock stats).1.frameOverhead ≤ stats.targetFrameTime ∧
      (stats.targetFrameTime < clock d - stats.frameStart - d →
        (FpsLimiter clock stats).1.frameOverhead = 0)) ∧
    ((FpsLimiter clock stats).2 = none →
      (FpsLimiter clock stats).1.frameOverhead = stats.frameOverhead) ∧
    (stats.frameOverhead < stats.targetFrameTime →
      pace_sleep c start stats 0 = some (stats.targetFrameTime - stats.frameOverhead)) ∧
    (stats.targetFrameTime ≤ stats.frameOverhead →
      ∀ n, pace_sleep c start stats n = none ∧
        (pace_state c start stats n).frameOverhead = stats.frameOverhead) := by
  refine ⟨?_, ?_, ?_, ?_⟩
  · intro d hd
    by_cases h : stats.frameOverhead <
        stats.targetFrameTime - (stats.frameStart - stats.frameEnd)
    · obtain ⟨h1, _, _, _, _, h6⟩ := FpsLimiter_sleeps clock stats h
      rw [h1] at hd
      have hd2 := Option.some.inj hd
      rw [h6, hd2]
      constructor
      · split_ifs with hm
        · exact le_of_lt hT
        · exact not_lt.mp hm
      · intro hm
        rw [if_pos hm]
    · rw [FpsLimiter_skips clock stats (not_lt.mp h)] at hd
      exact absurd hd (by simp)
  · intro hn
    by_cases h : stats.frameOverhead <
        stats.targetFrameTime - (stats.frameStart - stats.frameEnd)
    · obtain ⟨h1, _⟩ := FpsLimiter_sleeps clock stats h
      rw [h1] at hn
      exact absurd hn (by simp)
    · rw [FpsLimiter_skips clock stats (not_lt.mp h)]
  · intro h
    exact (zero_interval_call_sleeps c (start 0) stats h).1
  · intro h n
    obtain ⟨i1, i2⟩ := pace_state_suppressed c start stats h n
    refine ⟨?_, i2⟩
    exact (zero_interval_call_skips c (start n) (pace_state c start stats n)
      (by rw [i1, i2]; exact h)).1

/-- Witness for C16: a limiter at 60 frames per second with no overhead sleeps
the whole target at its first call. -/
theorem overhead_reset_only_after_a_sleep_witness :
    (0 : Int) < sixty_fps_stats.targetFrameTime ∧
    pace_sleep 50000 (fun _ => 0) sixty_fps_stats 0 =
      some (sixty_fps_stats.targetFrameTime - sixty_fps_stats.frameOverhead) :=
  ⟨by decide,
    (overhead_reset_only_after_a_sleep (fun d => d) 50000 (fun _ => 0) sixty_fps_stats
      (by decide)).2.2.1 (by decide)⟩

/-! ### Context lifecycle -/

theorem find_object_data_snd (k : Nat) (m : object_map) (j : Nat) :
    (find_object_data k m).2 j = if j = k ∧ m j = none then some 0 else m j := by
  unfold find_object_data
  cases h : m k with
  | some d =>
    by_cases e : j = k
    · subst e
      simp [h]
    · simp [e]
  | none =>
    by_cases e : j = k
    · subst e
      simp [h]
    · simp [e]

theorem find_object_data_snd_fst (k j : Nat) (m : object_map) :
    (find_object_data j (find_object_data k m).2).1 = (find_object_data j m).1 := by
  rw [find_object_data_fst, find_object_data_fst, find_object_data_snd]
  by_cases e : j = k ∧ m j = none
  · rw [if_pos e, e.2]
    rfl
  · rw [if_neg e]

theorem find_object_data_registered (k a : Nat) (m : object_map) (h : m k = some a) :
    find_object_data k m = (a, m) := by
  unfold find_object_data
  rw [h]

/-- Freeing handles that have no registered context destroys nothing; the
lookups insert a null entry for each handle that had no entry. -/
theorem free_command_buffers_absent (bufs : List Nat) :
    ∀ st : object_heap, (∀ cb ∈ bufs, (find_object_data cb st.vk_object_to_data).1 = 0) →
      ∃ st', free_command_buffers bufs st = some (st', []) ∧
        st'.devices = st.devices ∧ st'.queue_objects = st.queue_objects ∧
        st'.command_buffers = st.command_buffers ∧ st'.allocated = st.allocated ∧
        (∀ k, st'.vk_object_to_data k =
          if k ∈ bufs ∧ st.vk_object_to_data k = none then some 0
          else st.vk_object_to_data k) := by
  induction bufs with
  | nil =>
    intro st _
    exact ⟨st, rfl, rfl, rfl, rfl, rfl, fun k => by simp⟩
  | cons cb rest ih =>
    intro st hun
    have h0 : (FIND cb st).1 = 0 := hun cb (List.mem_cons_self cb rest)
    have hrest : ∀ c ∈ rest, (find_object_data c (FIND cb st).2.vk_object_to_data).1 = 0 := by
      intro c hc
      show (find_object_data c (find_object_data cb st.vk_object_to_data).2).1 = 0
      rw [find_object_data_snd_fst]
      exact hun c (List.mem_cons_of_mem cb hc)
    obtain ⟨st', e1, e2, e3, e4, e5, e6⟩ := ih (FIND cb st).2 hrest
    refine ⟨st', ?_, e2, e3, e4, e5, ?_⟩
    · show (if (FIND cb st).1 = 0 then free_command_buffers rest (FIND cb st).2 else _) = _
      rw [if_pos h0]
      exact e1
    · intro k
      rw [e6 k]
      show (if k ∈ rest ∧ (find_object_data cb st.vk_object_to_data).2 k = none then some 0
        else (find_object_data cb st.vk_object_to_data).2 k) = _
      rw [find_object_data_snd]
      by_cases hk : k = cb
      · subst hk
        by_cases hn : st.vk_object_to_data k = none
        · simp [hn]
        · simp [hn]
      · simp [hk]

theorem overlay_FreeCommandBuffers_absent (device commandPool a0 : Nat) (bufs : List Nat)
    (st : object_heap) (hreg : st.vk_object_to_data device = some a0) (hnz : a0 ≠ 0)
    (hlive : (st.devices a0).isSome = true)
    (hun : ∀ cb ∈ bufs, (find_object_data cb st.vk_object_to_data).1 = 0) :
    ∃ st', overlay_FreeCommandBuffers device commandPool bufs st =
        some (st', [lifecycle_event.FreeCommandBuffers device commandPool bufs]) ∧
      st'.devices = st.devices ∧ st'.queue_objects = st.queue_objects ∧
      st'.command_buffers = st.command_buffers ∧ st'.allocated = st.allocated ∧
      (∀ k, st'.vk_object_to_data k =
        if k ∈ bufs ∧ st.vk_object_to_data k = none then some 0
        else st.vk_object_to_data k) := by
  have hf : FIND device st = (a0, st) := by
    unfold FIND
    rw [find_object_data_registered device a0 _ hreg]
  obtain ⟨st', e1, e2, e3, e4, e5, e6⟩ := free_command_buffers_absent bufs st hun
  refine ⟨st', ?_, e2, e3, e4, e5, e6⟩
  unfold overlay_FreeCommandBuffers
  rw [hf]
  simp only [e1, List.nil_append, if_neg hnz]
  rw [e2]
  cases hd : st.devices a0 with
  | none => rw [hd] at hlive; exact absurd hlive (by simp)
  | some dd => rfl

theorem free_command_buffers_registered (cb a : Nat) (cbd : command_buffer_data)
    (st : object_heap) (hreg : st.vk_object_to_data cb = some a) (hnz : a ≠ 0)
    (hcb : st.command_buffers a = some cbd) (hh : cbd.cmd_buffer = cb) :
    free_command_buffers [cb] st =
      some ({ st with
              vk_object_to_data := unmap_object cb st.vk_object_to_data
              command_buffers := fun k => if k = a then none else st.command_buffers k },
            [lifecycle_event.delete_command_buffer_data a]) := by
  have hf : FIND cb st = (a, st) := by
    unfold FIND
    rw [find_object_data_registered cb a _ hreg]
  unfold free_command_buffers
  rw [hf]
  simp only [if_neg hnz]
  unfold destroy_command_buffer_data
  rw [hcb]
  simp only [hh]
  unfold free_command_buffers
  rfl

/-- Counterexample to claim C17 as stated: with the device 100 registered and
the handle 300 never allocated, `overlay_FreeCommandBuffers` on 300 forwards
the free and destroys nothing, but the registry, which had no entry for 300,
has a null entry for it afterwards. -/
theorem free_of_unknown_handle_changes_the_registry :
    one_device_heap.vk_object_to_data 300 = none ∧
    (overlay_FreeCommandBuffers 100 7 [300] one_device_heap).map
        (fun r => (r.1.vk_object_to_data 300, r.2)) =
      some (some 0, [lifecycle_event.FreeCommandBuffers 100 7 [300]]) := by
  constructor
  · rfl
  · rfl

/-- Claim C17 as amended: with a live device context, `overlay_FreeCommandBuffers`
on handles without a registered context destroys no context, forwards the free
to the driver, leaves every live object and the result of every lookup as they
were, and changes the registry only by a null entry for each such handle that
had no entry; and freeing a registered command buffer twice destroys its
context exactly once. -/
theorem free_of_absent_context_destroys_nothing (device commandPool a0 : Nat)
    (st : object_heap) (hreg : st.vk_object_to_data device = some a0) (hnz : a0 ≠ 0)
    (hlive : (st.devices a0).isSome = true) :
    (∀ bufs : List Nat, (∀ cb ∈ bufs, (find_object_data cb st.vk_object_to_data).1 = 0) →
      ∃ st', overlay_FreeCommandBuffers device commandPool bufs st =
          some (st', [lifecycle_event.FreeCommandBuffers device commandPool bufs]) ∧
        st'.devices = st.devices ∧ st'.queue_objects = st.queue_objects ∧
        st'.command_buffers = st.command_buffers ∧
        (∀ k, (find_object_data k st'.vk_object_to_data).1 =
          (find_object_data k st.vk_object_to_data).1) ∧
        (∀ k, st'.vk_object_to_data k =
          if k ∈ bufs ∧ st.vk_object_to_data k = none then some 0
          else st.vk_object_to_data k)) ∧
    (∀ (cb a : Nat) (cbd : command_buffer_data), cb ≠ device →
      st.vk_object_to_data cb = some a → a ≠ 0 → st.command_buffers a = some cbd →
      cbd.cmd_buffer = cb →
      ∃ st1 st2,
        overlay_FreeCommandBuffers device commandPool [cb] st =
          some (st1, [lifecycle_event.delete_command_buffer_data a,
            lifecycle_event.FreeCommandBuffers device commandPool [cb]]) ∧
        overlay_FreeCommandBuffers device commandPool [cb] st1 =
          some (st2, [lifecycle_event.FreeCommandBuffers device commandPool [cb]]) ∧
        st1.command_buffers a = none ∧ st2.command_buffers = st1.command_buffers) := by
  constructor
  · intro bufs hun
    obtain ⟨st', e1, e2, e3, e4, _, e6⟩ :=
      overlay_FreeCommandBuffers_absent device commandPool a0 bufs st hreg hnz hlive hun
    refine ⟨st', e1, e2, e3, e4, ?_, e6⟩
    intro k
    rw [find_object_data_fst, find_object_data_fst, e6 k]
    by_cases hk : k ∈ bufs ∧ st.vk_object_to_data k = none
    · rw [if_pos hk, hk.2]
      rfl
    · rw [if_neg hk]
  · intro cb a cbd hne hcreg hanz hcb hh
    have hf : FIND device st = (a0, st) := by
      unfold FIND
      rw [find_object_data_registered device a0 _ hreg]
    have h1 : overlay_FreeCommandBuffers device commandPool [cb] st =
        some ({ st with
                vk_object_to_data := unmap_object cb st.vk_object_to_data
                command_buffers := fun k => if k = a then none else st.command_buffers k },
              [lifecycle_event.delete_command_buffer_data a,
                lifecycle_event.FreeCommandBuffers device commandPool [cb]]) := by
      unfold overlay_FreeCommandBuffers
      rw [hf]
      simp only [free_command_buffers_registered cb a cbd st hcreg hanz hcb hh, if_neg hnz]
      cases hd : st.devices a0 with
      | none => rw [hd] at hlive; exact absurd hlive (by simp)
      | some dd => rfl
    have hreg1 : unmap_object cb st.vk_object_to_data device = some a0 := by
      unfold unmap_object
      rw [if_neg (fun e => hne e.symm)]
      exact hreg
    have hun1 : ∀ c ∈ [cb],
        (find_object_data c (unmap_object cb st.vk_object_to_data)).1 = 0 := by
      intro c hc
      rw [List.mem_singleton] at hc
      subst hc
      rw [find_object_data_fst]
      unfold unmap_object
      rw [if_pos rfl]
      rfl
    obtain ⟨st2, e1, _, _, e4, _, _⟩ :=
      overlay_FreeCommandBuffers_absent device commandPool a0 [cb]
        { st with
          vk_object_to_data := unmap_object cb st.vk_object_to_data
          command_buffers := fun k => if k = a then none else st.command_buffers k }
        hreg1 hnz hlive hun1
    exact ⟨_, st2, h1, e1, if_pos rfl, e4⟩

/-- Witness for C17: the device 100 with the command buffer 300 allocated; the
handle 301 was never allocated, and 300 is freed twice. -/
theorem free_of_absent_context_destroys_nothing_witness :
    (∃ st', overlay_FreeCommandBuffers 100 7 [301] one_command_buffer_heap =
        some (st', [lifecycle_event.FreeCommandBuffers 100 7 [301]]) ∧
      st'.command_buffers = one_command_buffer_heap.command_buffers) ∧
    (∃ st1 st2,
      overlay_FreeCommandBuffers 100 7 [300] one_command_buffer_heap =
        some (st1, [lifecycle_event.delete_command_buffer_data 4,
          lifecycle_event.FreeCommandBuffers 100 7 [300]]) ∧
      overlay_FreeCommandBuffers 100 7 [300] st1 =
        some (st2, [lifecycle_event.FreeCommandBuffers 100 7 [300]])) :=
  have h := free_of_absent_context_destroys_nothing 100 7 2 one_command_buffer_heap
    rfl (by decide) rfl
  ⟨(h.1 [301] (by decide)).imp (fun _ e => ⟨e.1, e.2.2.2.1⟩),
    (h.2 300 4 { device := 2, level := 0, cmd_buffer := 300, queue_data := 0 }
      (by decide) rfl (by decide) rfl rfl).imp
      (fun _ e => e.imp (fun _ e2 => ⟨e2.1, e2.2.1⟩))⟩

/-- The loop of `device_unmap_queues` over distinct live queue contexts:
each one is deleted, its handle is unmapped, and nothing else changes. -/
theorem destroy_queues_effect (qs : List Nat) :
    ∀ st : object_heap, qs.Nodup → (∀ q ∈ qs, (st.queue_objects q).isSome = true) →
      ∃ st', destroy_queues qs st = some (st', qs.map lifecycle_event.delete_queue_data) ∧
        st'.devices = st.devices ∧ st'.command_buffers = st.command_buffers ∧
        (∀ a, st'.queue_objects a = if a ∈ qs then none else st.queue_objects a) ∧
        (∀ q ∈ qs, ∀ qd, st.queue_objects q = some qd → st'.vk_object_to_data qd.queue = none) ∧
        (∀ k, st.vk_object_to_data k = none → st'.vk_object_to_data k = none) ∧
        (∀ k, (∀ q ∈ qs, ∀ qd, st.queue_objects q = some qd → qd.queue ≠ k) →
          st'.vk_object_to_data k = st.vk_object_to_data k) := by
  induction qs with
  | nil =>
    intro st _ _
    exact ⟨st, rfl, rfl, rfl, fun a => by simp,
      fun q hq => absurd hq (List.not_mem_nil q), fun _ h => h, fun _ _ => rfl⟩
  | cons q rest ih =>
    intro st hnd hl
    obtain ⟨hq, hnd'⟩ := List.nodup_cons.mp hnd
    cases hqd : st.queue_objects q with
    | none =>
      have := hl q (List.mem_cons_self q rest)
      rw [hqd] at this
      exact absurd this (by simp)
    | some qd0 =>
      have hstep : destroy_queue q st =
          some ({ st with
                  vk_object_to_data := unmap_object qd0.queue st.vk_object_to_data
                  queue_objects := fun a => if a = q then none else st.queue_objects a },
                [lifecycle_event.delete_queue_data q]) := by
        unfold destroy_queue
        rw [hqd]
      have hother : ∀ r ∈ rest, (if r = q then none else st.queue_objects r) =
          st.queue_objects r := by
        intro r hr
        rw [if_neg (fun e : r = q => hq (e ▸ hr))]
      obtain ⟨st', e1, e2, e3, e4, e5, e6, e7⟩ := ih
        { st with
          vk_object_to_data := unmap_object qd0.queue st.vk_object_to_data
          queue_objects := fun a => if a = q then none else st.queue_objects a } hnd'
        (fun r hr => by
          show (if r = q then none else st.queue_objects r).isSome = true
          rw [hother r hr]
          exact hl r (List.mem_cons_of_mem q hr))
      have hgone : st'.vk_object_to_data qd0.queue = none :=
        e6 qd0.queue (by
          show unmap_object qd0.queue st.vk_object_to_data qd0.queue = none
          unfold unmap_object
          rw [if_pos rfl])
      refine ⟨st', ?_, e2, e3, ?_, ?_, ?_, ?_⟩
      · unfold destroy_queues
        rw [hstep]
        simp only [e1]
        rfl
      · intro a
        rw [e4 a]
        show (if a ∈ rest then none else if a = q then none else st.queue_objects a) = _
        by_cases h1 : a = q
        · subst h1
          simp
        · by_cases h2 : a ∈ rest
          · simp [h2]
          · simp [h1, h2]
      · intro r hr qd hrq
        rcases List.mem_cons.mp hr with rfl | hr'
        · rw [hqd] at hrq
          rw [← Option.some.inj hrq]
          exact hgone
        · exact e5 r hr' qd (by
            show (if r = q then none else st.queue_objects r) = some qd
            rw [hother r hr']
            exact hrq)
      · intro k hk
        exact e6 k (by
          show unmap_object qd0.queue st.vk_object_to_data k = none
          unfold unmap_object
          by_cases e : k = qd0.queue
          · rw [if_pos e]
          · rw [if_neg e]
            exact hk)
      · intro k hk
        have hk0 : qd0.queue ≠ k := hk q (List.mem_cons_self q rest) qd0 hqd
        rw [e7 k (fun r hr qd hrq => hk r (List.mem_cons_of_mem q hr) qd (by
          have : (if r = q then none else st.queue_objects r) = some qd := hrq
          rw [hother r hr] at this
          exact this))]
        show unmap_object qd0.queue st.vk_object_to_data k = _
        unfold unmap_object
        rw [if_neg (fun e => hk0 e.symm)]

/-- Counterexample to claim C18 as stated: the device 100 (context at address 2)
with one queue and the allocated command buffer 300, whose context at address 4
refers back to address 2. After `overlay_DestroyDevice` the queue context and
the device context are deleted, but the registry still maps 300 to address 4
and that command-buffer context is still there. -/
theorem destroy_device_keeps_command_buffer_contexts :
    one_command_buffer_heap.vk_object_to_data 100 = some 2 ∧
    one_command_buffer_heap.command_buffers 4 =
      some { device := 2, level := 0, cmd_buffer := 300, queue_data := 0 } ∧
    (overlay_DestroyDevice false 100 one_command_buffer_heap).map
        (fun r => (r.1.vk_object_to_data 300, r.1.command_buffers 4, r.2)) =
      some (some 4, some { device := 2, level := 0, cmd_buffer := 300, queue_data := 0 },
        [lifecycle_event.delete_queue_data 3, lifecycle_event.DestroyDevice 100,
          lifecycle_event.delete_device_data 2]) := by
  refine ⟨rfl, rfl, rfl⟩

/-- Claim C18 as amended: for a device `d` registered with a live context whose
`queues` are distinct live queue contexts, `overlay_DestroyDevice(d)` returns;
afterwards the registry has no entry for `d` nor, when the layer is not
blacklisted, for any queue of `queues`; the queue contexts are deleted first,
then the driver is called, then the device context is deleted. Command-buffer
contexts are not touched: they and every registry entry for a handle other
than `d` and those queues are left as they were. -/
theorem destroy_device_releases_queues_then_device (is_blacklisted : Bool)
    (device a0 : Nat) (dd : device_record) (st : object_heap)
    (hreg : st.vk_object_to_data device = some a0) (hnz : a0 ≠ 0)
    (hlive : st.devices a0 = some dd) (hdev : dd.device = device)
    (hnd : dd.queues.Nodup) (hq : ∀ q ∈ dd.queues, (st.queue_objects q).isSome = true) :
    ∃ st', overlay_DestroyDevice is_blacklisted device st =
        some (st', (if is_blacklisted = true then []
            else dd.queues.map lifecycle_event.delete_queue_data) ++
          [lifecycle_event.DestroyDevice device, lifecycle_event.delete_device_data a0]) ∧
      st'.vk_object_to_data device = none ∧ st'.devices a0 = none ∧
      (is_blacklisted = false → ∀ q ∈ dd.queues, ∀ qd, st.queue_objects q = some qd →
        st'.vk_object_to_data qd.queue = none ∧ st'.queue_objects q = none) ∧
      st'.command_buffers = st.command_buffers ∧
      (∀ k, k ≠ device →
        (∀ q ∈ dd.queues, ∀ qd, st.queue_objects q = some qd → qd.queue ≠ k) →
        st'.vk_object_to_data k = st.vk_object_to_data k) := by
  have hf : FIND device st = (a0, st) := by
    unfold FIND
    rw [find_object_data_registered device a0 _ hreg]
  have hdd : ∀ s : object_heap, s.devices = st.devices →
      destroy_device_data a0 s =
        some ({ s with
                vk_object_to_data := unmap_object device s.vk_object_to_data
                devices := fun a => if a = a0 then none else s.devices a },
              [lifecycle_event.delete_device_data a0]) := by
    intro s hs
    unfold destroy_device_data
    rw [hs, hlive]
    simp only [hdev]
  cases is_blacklisted with
  | true =>
    refine ⟨{ st with
              vk_object_to_data := unmap_object device st.vk_object_to_data
              devices := fun a => if a = a0 then none else st.devices a }, ?_, ?_, ?_, ?_, rfl, ?_⟩
    · unfold overlay_DestroyDevice
      rw [hf]
      simp only [if_neg hnz, if_true, hlive, hdd st rfl]
      rfl
    · show unmap_object device st.vk_object_to_data device = none
      unfold unmap_object
      rw [if_pos rfl]
    · exact if_pos rfl
    · intro h
      exact absurd h (by decide)
    · intro k hk _
      show unmap_object device st.vk_object_to_data k = _
      unfold unmap_object
      rw [if_neg hk]
  | false =>
    obtain ⟨s1, e1, e2, e3, e4, e5, e6, e7⟩ := destroy_queues_effect dd.queues st hnd hq
    refine ⟨{ s1 with
              vk_object_to_data := unmap_object device s1.vk_object_to_data
              devices := fun a => if a = a0 then none else s1.devices a }, ?_, ?_, ?_, ?_, e3, ?_⟩
    · unfold overlay_DestroyDevice device_unmap_queues
      rw [hf]
      simp only [if_neg hnz, Bool.false_eq_true, if_false, hlive, e1, e2, hdd s1 e2]
      simp
    · show unmap_object device s1.vk_object_to_data device = none
      unfold unmap_object
      rw [if_pos rfl]
    · exact if_pos rfl
    · intro _ q hqm qd hqd
      constructor
      · show unmap_object device s1.vk_object_to_data qd.queue = none
        unfold unmap_object
        by_cases e : qd.queue = device
        · rw [if_pos e]
        · rw [if_neg e]
          exact e5 q hqm qd hqd
      · show s1.queue_objects q = none
        rw [e4 q, if_pos hqm]
    · intro k hk hkq
      show unmap_object device s1.vk_object_to_data k = _
      unfold unmap_object
      rw [if_neg hk]
      exact e7 k hkq

/-- Witness for C18: the device 100 with its queue 200 and the command buffer 300. -/
theorem destroy_device_releases_queues_then_device_witness :
    ∃ st', overlay_DestroyDevice false 100 one_command_buffer_heap =
        some (st', [lifecycle_event.delete_queue_data 3,
          lifecycle_event.DestroyDevice 100, lifecycle_event.delete_device_data 2]) ∧
      st'.vk_object_to_data 100 = none ∧ st'.vk_object_to_data 200 = none :=
  (destroy_device_releases_queues_then_device false 100 2
    { instance_ptr := 1, physical_device := 50, device := 100, graphic_queue := 3,
      queues := [3] }
    one_command_buffer_heap rfl (by decide) rfl rfl (by decide)
    (by intro q hq; rw [List.mem_singleton] at hq; subst hq; rfl)).imp
    (fun _ e => ⟨e.1, e.2.1,
      (e.2.2.2.1 rfl 3 (List.mem_singleton.mpr rfl)
        { device := 2, queue := 200, flags := 1, family_index := 0 } rfl).1⟩)

/-! ### The control protocol -/

theorem open_frame_body_colon (w : List Char) : open_frame_body (w ++ [':']) = some [] := by
  unfold open_frame_body
  rw [if_pos (by simp)]
  simp

theorem open_frame_body_snoc (w : List Char) (c : Char) (hc : c ≠ ':') :
    open_frame_body (w ++ [c]) = (open_frame_body w).map (fun body => body ++ [c]) := by
  unfold open_frame_body
  by_cases h : ':' ∈ w
  · rw [if_pos h, if_pos (by simp [h])]
    simp [List.takeWhile, hc]
  · rw [if_neg h, if_neg (by simp [h, Ne.symm hc])]
    rfl

theorem frame_cmd_of_no_eq (body : List Char) (h : '=' ∉ body) : frame_cmd body = body := by
  unfold frame_cmd
  induction body with
  | nil => rfl
  | cons x xs ih =>
    have hx : x ≠ '=' := fun e => h (by simp [e])
    have hxs : '=' ∉ xs := fun e => h (List.mem_cons_of_mem x e)
    simp only [List.takeWhile, hx, ne_eq, not_false_eq_true, decide_True]
    exact congrArg (List.cons x) (ih hxs)

theorem frame_param_of_no_eq (body : List Char) (h : '=' ∉ body) : frame_param body = [] := by
  unfold frame_param
  induction body with
  | nil => rfl
  | cons x xs ih =>
    have hx : x ≠ '=' := fun e => h (by simp [e])
    have hxs : '=' ∉ xs := fun e => h (List.mem_cons_of_mem x e)
    simp only [List.dropWhile, hx, ne_eq, not_false_eq_true, decide_True]
    exact ih hxs

theorem frame_cmd_snoc_of_eq (body : List Char) (c : Char) (h : '=' ∈ body) :
    frame_cmd (body ++ [c]) = frame_cmd body := by
  unfold frame_cmd
  induction body with
  | nil => exact absurd h (List.not_mem_nil _)
  | cons x xs ih =>
    by_cases hx : x = '='
    · simp [List.takeWhile, hx]
    · have hxs : '=' ∈ xs := by
        rcases List.mem_cons.mp h with e | e
        · exact absurd e.symm hx
        · exact e
      simp only [List.cons_append, List.takeWhile, hx, ne_eq, not_false_eq_true, decide_True]
      exact congrArg (List.cons x) (ih hxs)

theorem frame_param_snoc_of_eq (body : List Char) (c : Char) (h : '=' ∈ body) :
    frame_param (body ++ [c]) = frame_param body ++ (if c = '=' then [] else [c]) := by
  unfold frame_param
  induction body with
  | nil => exact absurd h (List.not_mem_nil _)
  | cons x xs ih =>
    by_cases hx : x = '='
    · subst hx
      by_cases hc : c = '=' <;> simp [List.dropWhile, List.filter_append, hc]
    · have hxs : '=' ∈ xs := by
        rcases List.mem_cons.mp h with e | e
        · exact absurd e.symm hx
        · exact e
      simp only [List.cons_append, List.dropWhile, hx, ne_eq, not_false_eq_true, decide_True]
      exact ih hxs

theorem frame_cmd_snoc_eq (body : List Char) (h : '=' ∉ body) :
    frame_cmd (body ++ ['=']) = body := by
  unfold frame_cmd
  induction body with
  | nil => rfl
  | cons x xs ih =>
    have hx : x ≠ '=' := fun e => h (by simp [e])
    have hxs : '=' ∉ xs := fun e => h (List.mem_cons_of_mem x e)
    simp only [List.cons_append, List.takeWhile, hx, ne_eq, not_false_eq_true, decide_True]
    exact congrArg (List.cons x) (ih hxs)

theorem frame_param_snoc_eq (body : List Char) (h : '=' ∉ body) :
    frame_param (body ++ ['=']) = [] := by
  unfold frame_param
  induction body with
  | nil => rfl
  | cons x xs ih =>
    have hx : x ≠ '=' := fun e => h (by simp [e])
    have hxs : '=' ∉ xs := fun e => h (List.mem_cons_of_mem x e)
    simp only [List.cons_append, List.dropWhile, hx, ne_eq, not_false_eq_true, decide_True]
    exact ih hxs

theorem in_frame_iff (w : List Char) :
    in_frame w = true ↔ ∃ body, open_frame_body w = some body ∧ ';' ∉ body ∧
      (frame_cmd body).length ≤ BUFSIZE - 1 ∧ (frame_param body).length ≤ BUFSIZE - 1 := by
  unfold in_frame
  cases h : open_frame_body w with
  | none => simp
  | some body => simp

theorem frame_snoc (body : List Char) (c : Char) :
    ('=' ∈ body → frame_cmd (body ++ [c]) = frame_cmd body ∧
      frame_param (body ++ [c]) = frame_param body ++ (if c = '=' then [] else [c])) ∧
    ('=' ∉ body → c = '=' → frame_cmd (body ++ [c]) = frame_cmd body ∧
      frame_param (body ++ [c]) = frame_param body) ∧
    ('=' ∉ body → c ≠ '=' → frame_cmd (body ++ [c]) = frame_cmd body ++ [c] ∧
      frame_param (body ++ [c]) = frame_param body) := by
  refine ⟨fun h => ⟨frame_cmd_snoc_of_eq body c h, frame_param_snoc_of_eq body c h⟩, ?_, ?_⟩
  · intro h hc
    subst hc
    rw [frame_cmd_snoc_eq body h, frame_param_snoc_eq body h, frame_cmd_of_no_eq body h,
      frame_param_of_no_eq body h]
    exact ⟨rfl, rfl⟩
  · intro h hc
    have h' : '=' ∉ body ++ [c] := by
      intro e
      rcases List.mem_append.mp e with e | e
      · exact h e
      · exact hc (List.mem_singleton.mp e).symm
    rw [frame_cmd_of_no_eq _ h', frame_param_of_no_eq _ h', frame_cmd_of_no_eq body h,
      frame_param_of_no_eq body h]
    exact ⟨rfl, rfl⟩

theorem frame_snoc_length (body : List Char) (c : Char) :
    (frame_cmd body).length ≤ (frame_cmd (body ++ [c])).length ∧
    (frame_param body).length ≤ (frame_param (body ++ [c])).length := by
  obtain ⟨h1, h2, h3⟩ := frame_snoc body c
  by_cases he : '=' ∈ body
  · obtain ⟨a, b⟩ := h1 he
    rw [a, b, List.length_append]
    omega
  · by_cases hc : c = '='
    · obtain ⟨a, b⟩ := h2 he hc
      rw [a, b]
      omega
    · obtain ⟨a, b⟩ := h3 he hc
      rw [a, b, List.length_append]
      omega

/-- A frame that is not open is not opened by a character other than `:`. -/
theorem in_frame_snoc_closed (w : List Char) (c : Char) (hc : c ≠ ':')
    (h : in_frame w = false) : in_frame (w ++ [c]) = false := by
  rw [← Bool.not_eq_true] at h ⊢
  intro h2
  apply h
  rw [in_frame_iff] at h2 ⊢
  obtain ⟨body', e1, e2, e3, e4⟩ := h2
  rw [open_frame_body_snoc w c hc] at e1
  cases hb : open_frame_body w with
  | none => rw [hb] at e1; exact absurd e1 (by simp)
  | some body =>
    rw [hb] at e1
    have e : body ++ [c] = body' := Option.some.inj e1
    subst e
    obtain ⟨l1, l2⟩ := frame_snoc_length body c
    exact ⟨body, rfl, fun m => e2 (List.mem_append_left _ m), le_trans l1 e3, le_trans l2 e4⟩

/-- A `;` leaves no frame open. -/
theorem in_frame_snoc_semicolon (w : List Char) : in_frame (w ++ [';']) = false := by
  rw [← Bool.not_eq_true, in_frame_iff]
  rintro ⟨body', e1, e2, _, _⟩
  rw [open_frame_body_snoc w ';' (by decide)] at e1
  cases hb : open_frame_body w with
  | none => rw [hb] at e1; exact absurd e1 (by simp)
  | some body =>
    rw [hb] at e1
    have e : body ++ [';'] = body' := Option.some.inj e1
    subst e
    exact e2 (by simp)

theorem getD_snoc (l : List Char) (c d : Char) :
    ∀ i, (l ++ [c]).getD i d =
      if i < l.length then l.getD i d else if i = l.length then c else d := by
  induction l with
  | nil =>
    intro i
    cases i with
    | zero => rfl
    | succ n => simp
  | cons x xs ih =>
    intro i
    cases i with
    | zero => simp
    | succ n =>
      have := ih n
      simp only [List.cons_append, List.getD_cons_succ, List.length_cons,
        Nat.add_lt_add_iff_right, Nat.add_right_cancel_iff]
      exact this

theorem control_agrees_bounds (w : List Char) (s : control_state) (h : control_agrees w s)
    (hr : s.reading_cmd = true) : s.cmdpos ≤ BUFSIZE - 1 ∧ s.parampos ≤ BUFSIZE - 1 := by
  obtain ⟨h1, h2⟩ := h
  obtain ⟨body, b1, b2, b3, _⟩ := h2 hr
  rw [hr] at h1
  obtain ⟨body', c1, _, c3, c4⟩ := (in_frame_iff w).mp h1.symm
  rw [b1] at c1
  have e : body = body' := Option.some.inj c1
  subst e
  rw [b2, b3]
  exact ⟨c3, c4⟩

theorem process_char_colon (s : control_state) (inst : instance_data) :
    process_char s inst ':' =
      ({ s with cmdpos := 0, parampos := 0, reading_cmd := true, reading_param := false },
        inst, []) := by
  unfold process_char
  rw [if_pos rfl]

theorem process_char_idle (s : control_state) (inst : instance_data) (c : Char)
    (hc : c ≠ ':') (hr : s.reading_cmd = false) : process_char s inst c = (s, inst, []) := by
  unfold process_char
  rw [if_neg hc]
  by_cases h1 : c = ';'
  · rw [if_pos h1, if_pos hr]
  · rw [if_neg h1]
    by_cases h2 : c = '='
    · rw [if_pos h2, if_pos hr]
    · rw [if_neg h2, if_pos hr]

theorem process_char_semicolon (s : control_state) (inst : instance_data)
    (hr : s.reading_cmd = true) :
    process_char s inst ';' =
      ({ s with
          cmd := fun i => if i = s.cmdpos then Char.ofNat 0 else s.cmd i
          param := fun i => if i = s.parampos then Char.ofNat 0 else s.param i
          cmdpos := (s.cmdpos + 1) % U32, parampos := (s.parampos + 1) % U32
          reading_cmd := false, reading_param := false },
        parse_command inst (fun i => if i = s.cmdpos then Char.ofNat 0 else s.cmd i)
          ((s.cmdpos + 1) % U32)
          (fun i => if i = s.parampos then Char.ofNat 0 else s.param i)
          ((s.parampos + 1) % U32),
        [control_event.write_cmd s.cmdpos (Char.ofNat 0),
          control_event.write_param s.parampos (Char.ofNat 0),
          control_event.parse_command ((s.cmdpos + 1) % U32) ((s.parampos + 1) % U32)]) := by
  unfold process_char
  rw [if_neg (by decide), if_pos rfl, if_neg (by rw [hr]; decide)]

theorem process_char_equals (s : control_state) (inst : instance_data)
    (hr : s.reading_cmd = true) :
    process_char s inst '=' = ({ s with reading_param := true }, inst, []) := by
  unfold process_char
  rw [if_neg (by decide), if_neg (by decide), if_pos rfl, if_neg (by rw [hr]; decide)]

theorem process_char_store (s : control_state) (inst : instance_data) (c : Char)
    (h1 : c ≠ ':') (h2 : c ≠ ';') (h3 : c ≠ '=') (hr : s.reading_cmd = true) :
    process_char s inst c =
      if s.reading_param = true then
        if BUFSIZE - 1 ≤ s.parampos then
          ({ s with reading_cmd := false, reading_param := false }, inst, [])
        else
          ({ s with param := fun i => if i = s.parampos then c else s.param i,
                    parampos := (s.parampos + 1) % U32 },
            inst, [control_event.write_param s.parampos c])
      else
        if BUFSIZE - 1 ≤ s.cmdpos then ({ s with reading_cmd := false }, inst, [])
        else
          ({ s with cmd := fun i => if i = s.cmdpos then c else s.cmd i,
                    cmdpos := (s.cmdpos + 1) % U32 },
            inst, [control_event.write_cmd s.cmdpos c]) := by
  unfold process_char
  rw [if_neg h1, if_neg h2, if_neg h3, if_neg (by rw [hr]; decide)]

theorem small_mod_U32 (n : Nat) (h : n ≤ BUFSIZE - 1) : (n + 1) % U32 = n + 1 := by
  unfold BUFSIZE at h
  unfold U32
  omega

/-- The statics of `process_char` follow the grammar: one more character. -/
theorem process_char_agrees (w : List Char) (s : control_state) (inst : instance_data)
    (c : Char) (h : control_agrees w s) :
    control_agrees (w ++ [c]) (process_char s inst c).1 := by
  by_cases h1 : c = ':'
  · subst h1
    rw [process_char_colon]
    have hin : in_frame (w ++ [':']) = true :=
      (in_frame_iff _).mpr ⟨[], open_frame_body_colon w, by simp, by decide, by decide⟩
    refine ⟨hin.symm, fun _ => ⟨[], open_frame_body_colon w, rfl, rfl, by simp, ?_, ?_⟩⟩
    · intro i hi
      exact absurd hi (Nat.not_lt_zero i)
    · intro i hi
      exact absurd hi (Nat.not_lt_zero i)
  · cases hr : s.reading_cmd with
    | false =>
      rw [process_char_idle s inst c h1 hr]
      have hw : in_frame w = false := by rw [← h.1]; exact hr
      refine ⟨by rw [hr]; exact (in_frame_snoc_closed w c h1 hw).symm, fun ht => ?_⟩
      rw [hr] at ht
      exact absurd ht (by decide)
    | true =>
      obtain ⟨body, b1, b2, b3, b4, b5, b6⟩ := h.2 hr
      obtain ⟨body', c1, c2, c3, c4⟩ := (in_frame_iff w).mp (by rw [← h.1]; exact hr)
      rw [b1] at c1
      have e : body = body' := Option.some.inj c1
      subst e
      have hb' : open_frame_body (w ++ [c]) = some (body ++ [c]) := by
        rw [open_frame_body_snoc w c h1, b1]
        rfl
      obtain ⟨f1, f2, f3⟩ := frame_snoc body c
      by_cases h2 : c = ';'
      · subst h2
        rw [process_char_semicolon s inst hr]
        refine ⟨(in_frame_snoc_semicolon w).symm, fun ht => absurd ht (by simp)⟩
      · by_cases h3 : c = '='
        · subst h3
          rw [process_char_equals s inst hr]
          have hlen : frame_cmd (body ++ ['=']) = frame_cmd body ∧
              frame_param (body ++ ['=']) = frame_param body := by
            by_cases he : '=' ∈ body
            · obtain ⟨a, b⟩ := f1 he
              exact ⟨a, by rw [b]; simp⟩
            · exact f2 he rfl
          have hin : in_frame (w ++ ['=']) = true :=
            (in_frame_iff _).mpr ⟨body ++ ['='], hb', by simpa using c2,
              by rw [hlen.1]; exact c3, by rw [hlen.2]; exact c4⟩
          refine ⟨hr.trans hin.symm, fun _ => ⟨body ++ ['='], hb', ?_, ?_, by simp, ?_, ?_⟩⟩
          · rw [hlen.1]; exact b2
          · rw [hlen.2]; exact b3
          · rw [hlen.1]; exact b5
          · rw [hlen.2]; exact b6
        · rw [process_char_store s inst c h1 h2 h3 hr]
          have hsemi : ';' ∉ body ++ [c] := by
            intro m
            rcases List.mem_append.mp m with m | m
            · exact c2 m
            · exact h2 (List.mem_singleton.mp m).symm
          by_cases hp : s.reading_param = true
          · have he : '=' ∈ body := b4.mp hp
            obtain ⟨a, b⟩ := f1 he
            rw [if_neg h3] at b
            rw [if_pos hp]
            by_cases hov : BUFSIZE - 1 ≤ s.parampos
            · rw [if_pos hov]
              refine ⟨?_, fun ht => absurd ht (by simp)⟩
              show false = in_frame (w ++ [c])
              symm
              rw [← Bool.not_eq_true, in_frame_iff]
              rintro ⟨body2, d1, _, _, d4⟩
              rw [hb'] at d1
              have e2 : body ++ [c] = body2 := Option.some.inj d1
              subst e2
              rw [b, List.length_append, ← b3] at d4
              simp only [List.length_singleton] at d4
              omega
            · rw [if_neg hov]
              have hlt : s.parampos < BUFSIZE - 1 := Nat.lt_of_not_le hov
              have hin : in_frame (w ++ [c]) = true :=
                (in_frame_iff _).mpr ⟨body ++ [c], hb', hsemi, by rw [a]; exact c3, by
                  rw [b, List.length_append, ← b3]
                  simp only [List.length_singleton]
                  omega⟩
              refine ⟨by rw [hin]; exact hr, fun _ => ⟨body ++ [c], hb', ?_, ?_, ?_, ?_, ?_⟩⟩
              · rw [a]; exact b2
              · show (s.parampos + 1) % U32 = _
                rw [small_mod_U32 _ (le_of_lt hlt), b, List.length_append, ← b3]
                rfl
              · exact ⟨fun _ => List.mem_append_left _ he, fun _ => hp⟩
              · rw [a]; exact b5
              · intro i hi
                rw [b, List.length_append, ← b3] at hi
                simp only [List.length_singleton] at hi
                show (if i = s.parampos then c else s.param i) = _
                rw [b, getD_snoc, ← b3]
                by_cases hi2 : i = s.parampos
                · rw [if_pos hi2, if_neg (by omega), if_pos hi2]
                · rw [if_neg hi2, if_pos (by omega)]
                  exact b6 i (by rw [← b3]; omega)
          · have he : '=' ∉ body := fun m => hp (b4.mpr m)
            obtain ⟨a, b⟩ := f3 he h3
            rw [if_neg hp]
            by_cases hov : BUFSIZE - 1 ≤ s.cmdpos
            · rw [if_pos hov]
              refine ⟨?_, fun ht => absurd ht (by simp)⟩
              show false = in_frame (w ++ [c])
              symm
              rw [← Bool.not_eq_true, in_frame_iff]
              rintro ⟨body2, d1, _, d3, _⟩
              rw [hb'] at d1
              have e2 : body ++ [c] = body2 := Option.some.inj d1
              subst e2
              rw [a, List.length_append, ← b2] at d3
              simp only [List.length_singleton] at d3
              omega
            · rw [if_neg hov]
              have hlt : s.cmdpos < BUFSIZE - 1 := Nat.lt_of_not_le hov
              have hin : in_frame (w ++ [c]) = true :=
                (in_frame_iff _).mpr ⟨body ++ [c], hb', hsemi, by
                  rw [a, List.length_append, ← b2]
                  simp only [List.length_singleton]
                  omega, by rw [b]; exact c4⟩
              refine ⟨by rw [hin]; exact hr, fun _ => ⟨body ++ [c], hb', ?_, ?_, ?_, ?_, ?_⟩⟩
              · show (s.cmdpos + 1) % U32 = _
                rw [small_mod_U32 _ (le_of_lt hlt), a, List.length_append, ← b2]
                rfl
              · rw [b]; exact b3
              · constructor
                · intro ht
                  exact absurd ht hp
                · intro m
                  rcases List.mem_append.mp m with m | m
                  · exact absurd m he
                  · exact absurd (List.mem_singleton.mp m).symm h3
              · intro i hi
                rw [a, List.length_append, ← b2] at hi
                simp only [List.length_singleton] at hi
                show (if i = s.cmdpos then c else s.cmd i) = _
                rw [a, getD_snoc, ← b2]
                by_cases hi2 : i = s.cmdpos
                · rw [if_pos hi2, if_neg (by omega), if_pos hi2]
                · rw [if_neg hi2, if_pos (by omega)]
                  exact b5 i (by rw [← b2]; omega)
              · rw [b]; exact b6

theorem process_chars_snoc (w : List Char) (c : Char) (s : control_state)
    (inst : instance_data) :
    process_chars (w ++ [c]) s inst =
      ((process_char (process_chars w s inst).1 (process_chars w s inst).2.1 c).1,
        (process_char (process_chars w s inst).1 (process_chars w s inst).2.1 c).2.1,
        (process_chars w s inst).2.2 ++
          (process_char (process_chars w s inst).1 (process_chars w s inst).2.1 c).2.2) := by
  unfold process_chars
  rw [List.foldl_append]
  rfl

theorem control_agrees_initial : control_agrees [] initial_control_state :=
  ⟨rfl, fun h => absurd h (by decide)⟩

/-- The statics follow the grammar along a whole input. -/
theorem process_chars_agrees (w0 : List Char) (s : control_state) (inst : instance_data)
    (h : control_agrees w0 s) (w : List Char) :
    control_agrees (w0 ++ w) (process_chars w s inst).1 := by
  induction w using List.reverseRecOn with
  | nil =>
    rw [List.append_nil]
    exact h
  | append_singleton w c ih =>
    rw [process_chars_snoc, ← List.append_assoc]
    exact process_char_agrees (w0 ++ w) _ _ c ih

theorem process_char_dispatches (s : control_state) (inst : instance_data) (c : Char) :
    (dispatches (process_char s inst c).2.2 = true ↔ c = ';' ∧ s.reading_cmd = true) ∧
    (¬ (c = ';' ∧ s.reading_cmd = true) → (process_char s inst c).2.1 = inst) := by
  by_cases h1 : c = ':'
  · subst h1
    rw [process_char_colon]
    exact ⟨⟨fun h => absurd h (by simp [dispatches]), fun h => absurd h.1 (by decide)⟩, fun _ => rfl⟩
  · cases hr : s.reading_cmd with
    | false =>
      rw [process_char_idle s inst c h1 hr]
      exact ⟨⟨fun h => absurd h (by simp [dispatches]), fun h => absurd h.2 (by decide)⟩, fun _ => rfl⟩
    | true =>
      by_cases h2 : c = ';'
      · subst h2
        rw [process_char_semicolon s inst hr]
        exact ⟨⟨fun _ => ⟨rfl, rfl⟩, fun _ => rfl⟩, fun h => absurd ⟨rfl, rfl⟩ h⟩
      · by_cases h3 : c = '='
        · subst h3
          rw [process_char_equals s inst hr]
          exact ⟨⟨fun h => absurd h (by simp [dispatches]), fun h => absurd h.1 (by decide)⟩, fun _ => rfl⟩
        · rw [process_char_store s inst c h1 h2 h3 hr]
          split_ifs <;>
            exact ⟨⟨fun h => absurd h (by simp [dispatches]), fun h => absurd h.1 h2⟩, fun _ => rfl⟩

theorem process_char_writes (w : List Char) (s : control_state) (inst : instance_data)
    (c : Char) (h : control_agrees w s) :
    writes_below BUFSIZE (process_char s inst c).2.2 = true := by
  by_cases h1 : c = ':'
  · subst h1
    rw [process_char_colon]
    rfl
  · cases hr : s.reading_cmd with
    | false =>
      rw [process_char_idle s inst c h1 hr]
      rfl
    | true =>
      obtain ⟨k1, k2⟩ := control_agrees_bounds w s h hr
      have l1 : s.cmdpos < BUFSIZE := by unfold BUFSIZE at *; omega
      have l2 : s.parampos < BUFSIZE := by unfold BUFSIZE at *; omega
      by_cases h2 : c = ';'
      · subst h2
        rw [process_char_semicolon s inst hr]
        simp [writes_below, l1, l2]
      · by_cases h3 : c = '='
        · subst h3
          rw [process_char_equals s inst hr]
          rfl
        · rw [process_char_store s inst c h1 h2 h3 hr]
          split_ifs <;> simp [writes_below, l1, l2]

theorem writes_below_append (n : Nat) (a b : List control_event) :
    writes_below n (a ++ b) = (writes_below n a && writes_below n b) := by
  unfold writes_below
  rw [List.all_append]

theorem process_chars_writes (w0 : List Char) (s : control_state) (inst : instance_data)
    (h : control_agrees w0 s) (w : List Char) :
    writes_below BUFSIZE (process_chars w s inst).2.2 = true := by
  induction w using List.reverseRecOn with
  | nil => rfl
  | append_singleton w c ih =>
    rw [process_chars_snoc, writes_below_append, ih,
      process_char_writes (w0 ++ w) _ _ c (process_chars_agrees w0 s inst h w)]
    rfl

/-- Claim C20: for every input `w` received since the start of the process and
every next character `c`, `process_char` calls `parse_command` exactly when `c`
is a `;` and a frame is open after `w` (a `:` was received, no `;` since, and
neither the command nor the parameter of the frame exceeds 4095 characters);
in every other case it leaves the instance unchanged; the flag `reading_cmd` is
that condition; and every store made into `cmd` or `param` along the input is at
an index below 4096. -/
theorem malformed_control_input_is_ignored (w : List Char) (c : Char) (inst : instance_data) :
    (dispatches (process_char (process_chars w initial_control_state inst).1
        (process_chars w initial_control_state inst).2.1 c).2.2 = true ↔
      c = ';' ∧ in_frame w = true) ∧
    (¬ (c = ';' ∧ in_frame w = true) →
      (process_chars (w ++ [c]) initial_control_state inst).2.1 =
        (process_chars w initial_control_state inst).2.1) ∧
    (process_chars w initial_control_state inst).1.reading_cmd = in_frame w ∧
    writes_below BUFSIZE (process_chars (w ++ [c]) initial_control_state inst).2.2 = true := by
  have hag := process_chars_agrees [] initial_control_state inst control_agrees_initial w
  rw [List.nil_append] at hag
  obtain ⟨d1, d2⟩ := process_char_dispatches (process_chars w initial_control_state inst).1
    (process_chars w initial_control_state inst).2.1 c
  rw [hag.1] at d1 d2
  refine ⟨d1, ?_, hag.1, ?_⟩
  · intro hn
    rw [process_chars_snoc]
    exact d2 hn
  · exact process_chars_writes [] initial_control_state inst control_agrees_initial (w ++ [c])

/-- Witness for C20: after `:capture=1` a frame is open, and the `;` that
follows dispatches; after `capture=1` without a `:` it does not. -/
theorem malformed_control_input_is_ignored_witness :
    dispatches (process_char
        (process_chars ":capture=1".toList initial_control_state ⟨false, false⟩).1
        (process_chars ":capture=1".toList initial_control_state ⟨false, false⟩).2.1 ';').2.2
      = true ∧
    (process_chars ("capture=1".toList ++ [';']) initial_control_state ⟨false, false⟩).2.1 =
      (process_chars "capture=1".toList initial_control_state ⟨false, false⟩).2.1 :=
  ⟨(malformed_control_input_is_ignored ":capture=1".toList ';' ⟨false, false⟩).1.mpr
      ⟨rfl, by decide⟩,
    (malformed_control_input_is_ignored "capture=1".toList ';' ⟨false, false⟩).2.1
      (fun h => absurd h.2 (by decide))⟩

/-- Claim C19, evaluated where the code leaves it: with capture enabled and
started, the characters of `:capture=4294967296;` and of `:capture=2147483648;`,
whose parameters have a positive decimal value, clear `capture_enabled` and
`capture_started`, because `atoi` reduces the value to an `int` (0 and
-2147483648); `:capture=1;` sets `capture_enabled`, and `:capt=1;` and
`:capturex=1;` change nothing. -/
theorem capture_with_large_parameter_disables_capture :
    decimal_value "4294967296".toList = 4294967296 ∧
    atoi "4294967296".toList = 0 ∧
    (process_chars ":capture=4294967296;".toList initial_control_state ⟨true, true⟩).2.1 =
      ⟨false, false⟩ ∧
    decimal_value "2147483648".toList = 2147483648 ∧
    atoi "2147483648".toList = -2147483648 ∧
    (process_chars ":capture=2147483648;".toList initial_control_state ⟨true, true⟩).2.1 =
      ⟨false, false⟩ ∧
    (process_chars ":capture=1;".toList initial_control_state ⟨false, false⟩).2.1 =
      ⟨true, false⟩ ∧
    (process_chars ":capt=1;".toList initial_control_state ⟨false, true⟩).2.1 =
      ⟨false, true⟩ ∧
    (process_chars ":capturex=1;".toList initial_control_state ⟨false, true⟩).2.1 =
      ⟨false, true⟩ := by
  refine ⟨by decide, by decide, by decide, by decide, by decide, by decide, by decide,
    by decide, by decide⟩

/-- The C string read from `buf[i]` when `buf` holds the characters of `l`, none
of them NUL, followed by a NUL. -/
theorem c_str_of_prefix (buf : Nat → Char) (l : List Char) :
    ∀ (i fuel : Nat), (∀ j, j < l.length → buf (i + j) = l.getD j (Char.ofNat 0)) →
      buf (i + l.length) = Char.ofNat 0 → (∀ c ∈ l, c ≠ Char.ofNat 0) → l.length < fuel →
      c_str buf fuel i = l := by
  induction l with
  | nil =>
    intro i fuel _ hz _ hf
    obtain ⟨k, rfl⟩ : ∃ k, fuel = k + 1 := ⟨fuel - 1, by simp at hf; omega⟩
    unfold c_str
    rw [if_pos (by simpa using hz)]
  | cons x xs ih =>
    intro i fuel hpre hz hnz hf
    obtain ⟨k, rfl⟩ : ∃ k, fuel = k + 1 := ⟨fuel - 1, by simp at hf; omega⟩
    have hx : buf i = x := by
      have := hpre 0 (by simp)
      simpa using this
    have hxn : x ≠ Char.ofNat 0 := hnz x (List.mem_cons_self x xs)
    unfold c_str
    rw [hx, if_neg hxn]
    congr 1
    apply ih (i + 1) k
    · intro j hj
      have := hpre (j + 1) (by simp; omega)
      rw [List.getD_cons_succ] at this
      rw [← this]
      congr 1
      omega
    · rw [← hz]
      congr 1
      simp
      omega
    · intro c hc
      exact hnz c (List.mem_cons_of_mem x hc)
    · simp at hf
      omega

/-- The comparison `strncmp(buf + i, lit + i, n) == 0` over a length that
includes the terminating NUL of `buf` holds exactly when the string in `buf`
is the rest of the literal. -/
theorem strncmp_eq_of_prefix (buf : Nat → Char) (lit : List Char)
    (hlit : ∀ c ∈ lit, c ≠ Char.ofNat 0) (l : List Char) :
    ∀ i, (∀ j, j < l.length → buf (i + j) = l.getD j (Char.ofNat 0)) →
      buf (i + l.length) = Char.ofNat 0 → (∀ c ∈ l, c ≠ Char.ofNat 0) →
      strncmp_eq buf lit (l.length + 1) i = decide (l = lit.drop i) := by
  induction l with
  | nil =>
    intro i _ hz _
    have hz' : buf i = Char.ofNat 0 := by simpa using hz
    unfold strncmp_eq
    by_cases hi : i < lit.length
    · have hne : lit.getD i (Char.ofNat 0) ≠ Char.ofNat 0 := by
        rw [List.getD_eq_getElem lit _ hi]
        exact hlit _ (List.getElem_mem _)
      rw [hz', if_pos (fun e => hne e.symm)]
      have : lit.drop i ≠ [] := by
        intro e
        have := congrArg List.length e
        simp at this
        omega
      simp [Ne.symm this]
    · have hd : lit.getD i (Char.ofNat 0) = Char.ofNat 0 :=
        List.getD_eq_default _ _ (not_lt.mp hi)
      rw [hz', hd, if_neg (by simp), if_pos rfl]
      have : lit.drop i = [] := List.drop_eq_nil_of_le (not_lt.mp hi)
      simp [this]
  | cons x xs ih =>
    intro i hpre hz hnz
    have hx : buf i = x := by
      have := hpre 0 (by simp)
      simpa using this
    have hxn : x ≠ Char.ofNat 0 := hnz x (List.mem_cons_self x xs)
    have hrec := ih (i + 1)
      (by
        intro j hj
        have := hpre (j + 1) (by simp; omega)
        rw [List.getD_cons_succ] at this
        rw [← this]
        congr 1
        omega)
      (by
        rw [← hz]
        congr 1
        simp
        omega)
      (fun c hc => hnz c (List.mem_cons_of_mem x hc))
    show strncmp_eq buf lit (xs.length + 1 + 1) i = _
    unfold strncmp_eq
    rw [hx]
    by_cases hi : i < lit.length
    · have hget : lit.getD i (Char.ofNat 0) = lit[i] := List.getD_eq_getElem lit _ hi
      have hdrop : lit.drop i = lit[i] :: lit.drop (i + 1) := List.drop_eq_getElem_cons hi
      rw [hget, hdrop]
      by_cases hm : x = lit[i]
      · rw [if_neg (by simpa using hm), if_neg hxn, hrec, ← hm]
        simp
      · rw [if_pos hm]
        symm
        rw [decide_eq_false_iff_not]
        intro e
        exact hm (List.cons.inj e).1
    · have hd : lit.getD i (Char.ofNat 0) = Char.ofNat 0 :=
        List.getD_eq_default _ _ (not_lt.mp hi)
      rw [hd, if_pos hxn, List.drop_eq_nil_of_le (not_lt.mp hi)]
      simp

theorem process_chars_append (a b : List Char) (s : control_state) (inst : instance_data) :
    (process_chars (a ++ b) s inst).1 =
      (process_chars b (process_chars a s inst).1 (process_chars a s inst).2.1).1 ∧
    (process_chars (a ++ b) s inst).2.1 =
      (process_chars b (process_chars a s inst).1 (process_chars a s inst).2.1).2.1 := by
  induction b using List.reverseRecOn with
  | nil =>
    rw [List.append_nil]
    exact ⟨rfl, rfl⟩
  | append_singleton b c ih =>
    rw [← List.append_assoc, process_chars_snoc, process_chars_snoc, ih.1, ih.2]
    exact ⟨rfl, rfl⟩

theorem process_chars_keeps_instance (w : List Char) (s : control_state)
    (inst : instance_data) (h : ';' ∉ w) : (process_chars w s inst).2.1 = inst := by
  induction w using List.reverseRecOn with
  | nil => rfl
  | append_singleton w c ih =>
    have hw : ';' ∉ w := fun m => h (List.mem_append_left _ m)
    have hc : c ≠ ';' := fun e => h (List.mem_append_right _ (by simp [e]))
    rw [process_chars_snoc]
    show (process_char (process_chars w s inst).1 (process_chars w s inst).2.1 c).2.1 = inst
    rw [(process_char_dispatches _ _ c).2 (fun e => hc e.1)]
    exact ih hw

theorem control_agrees_colon (w : List Char) (s : control_state) (inst : instance_data) :
    control_agrees (w ++ [':']) (process_char s inst ':').1 := by
  rw [process_char_colon]
  have hin : in_frame (w ++ [':']) = true :=
    (in_frame_iff _).mpr ⟨[], open_frame_body_colon w, by simp, by decide, by decide⟩
  refine ⟨hin.symm, fun _ => ⟨[], open_frame_body_colon w, rfl, rfl, by simp, ?_, ?_⟩⟩
  · intro i hi
    exact absurd hi (Nat.not_lt_zero i)
  · intro i hi
    exact absurd hi (Nat.not_lt_zero i)

theorem open_frame_body_append (w0 body : List Char) (h : ':' ∉ body) :
    open_frame_body (w0 ++ body) = (open_frame_body w0).map (fun b => b ++ body) := by
  induction body using List.reverseRecOn with
  | nil =>
    rw [List.append_nil]
    cases open_frame_body w0 <;> simp
  | append_singleton body c ih =>
    have hb : ':' ∉ body := fun m => h (List.mem_append_left _ m)
    have hc : c ≠ ':' := fun e => h (List.mem_append_right _ (by simp [e]))
    rw [← List.append_assoc, open_frame_body_snoc _ c hc, ih hb]
    cases open_frame_body w0 <;> simp

theorem to_i32_to_u64 (v : Int) (h1 : -2147483648 ≤ v) (h2 : v < 2147483648) :
    to_i32 (to_u64 v) = v := by
  unfold to_i32 to_u64
  split_ifs <;> omega

/-- In the range of `int`, `atoi` is the decimal value. -/
theorem atoi_in_range (s : List Char) (h1 : -2147483648 ≤ decimal_value s)
    (h2 : decimal_value s < 2147483648) : atoi s = decimal_value s := by
  unfold atoi strtol
  rw [if_neg (by omega), if_neg (by omega)]
  exact to_i32_to_u64 _ h1 h2

theorem frame_cmd_subset (body : List Char) : ∀ c ∈ frame_cmd body, c ∈ body := by
  intro c hc
  unfold frame_cmd at hc
  exact (List.takeWhile_sublist _).subset hc

theorem frame_param_subset (body : List Char) : ∀ c ∈ frame_param body, c ∈ body := by
  intro c hc
  unfold frame_param at hc
  exact (List.dropWhile_sublist _).subset (List.mem_of_mem_filter hc)

/-- What a whole frame does: after a `:`, a body without `:`, `;` or NUL whose
command and parameter fit the buffers, and the closing `;`, the instance is the
result of `parse_command` on the command and the parameter of the body, from any
state of the statics. -/
theorem framed_command_effect (body : List Char) (s : control_state) (inst : instance_data)
    (h1 : ':' ∉ body) (h2 : ';' ∉ body) (h3 : Char.ofNat 0 ∉ body)
    (h4 : (frame_cmd body).length ≤ BUFSIZE - 1)
    (h5 : (frame_param body).length ≤ BUFSIZE - 1) :
    (process_chars (':' :: body ++ [';']) s inst).2.1 =
      if frame_cmd body = "capture".toList then
        (if 0 < atoi (frame_param body) then { inst with capture_enabled := true }
          else { inst with capture_enabled := false, capture_started := false })
      else inst := by
  have hsplit : ':' :: body ++ [';'] = ([':'] ++ body) ++ [';'] := rfl
  rw [hsplit, process_chars_snoc]
  have hcolon : ';' ∉ [':'] ++ body := by
    intro m
    rcases List.mem_append.mp m with m | m
    · exact absurd (List.mem_singleton.mp m) (by decide)
    · exact h2 m
  rw [process_chars_keeps_instance _ s inst hcolon]
  have hst : (process_chars ([':'] ++ body) s inst).1 =
      (process_chars body (process_char s inst ':').1 inst).1 := by
    rw [(process_chars_append [':'] body s inst).1]
    rfl
  have hag : control_agrees ([':'] ++ body) (process_chars ([':'] ++ body) s inst).1 := by
    rw [hst]
    exact process_chars_agrees [':'] _ inst (control_agrees_colon [] s inst) body
  have hbody : open_frame_body ([':'] ++ body) = some body := by
    rw [open_frame_body_append [':'] body h1]
    rfl
  have hin : in_frame ([':'] ++ body) = true :=
    (in_frame_iff _).mpr ⟨body, hbody, h2, h4, h5⟩
  have hr : (process_chars ([':'] ++ body) s inst).1.reading_cmd = true := hag.1.trans hin
  obtain ⟨body', b1, b2, b3, _, b5, b6⟩ := hag.2 hr
  rw [hbody] at b1
  have e : body = body' := Option.some.inj b1
  subst e
  show (process_char (process_chars ([':'] ++ body) s inst).1 inst ';').2.1 = _
  rw [process_char_semicolon _ inst hr]
  dsimp only
  unfold parse_command
  have hcmd := strncmp_eq_of_prefix
    (fun i => if i = (process_chars ([':'] ++ body) s inst).1.cmdpos then Char.ofNat 0
      else (process_chars ([':'] ++ body) s inst).1.cmd i)
    "capture".toList (by decide) (frame_cmd body) 0
    (by
      intro j hj
      show (if 0 + j = _ then _ else _) = _
      rw [Nat.zero_add, if_neg (by rw [b2]; omega)]
      exact b5 j hj)
    (by
      show (if 0 + _ = _ then _ else _) = _
      rw [Nat.zero_add, if_pos b2.symm])
    (fun c hc e => h3 (e ▸ frame_cmd_subset body c hc))
  have hpar := c_str_of_prefix
    (fun i => if i = (process_chars ([':'] ++ body) s inst).1.parampos then Char.ofNat 0
      else (process_chars ([':'] ++ body) s inst).1.param i)
    (frame_param body) 0 BUFSIZE
    (by
      intro j hj
      show (if 0 + j = _ then _ else _) = _
      rw [Nat.zero_add, if_neg (by rw [b3]; omega)]
      exact b6 j hj)
    (by
      show (if 0 + _ = _ then _ else _) = _
      rw [Nat.zero_add, if_pos b3.symm])
    (fun c hc e => h3 (e ▸ frame_param_subset body c hc))
    (by unfold BUFSIZE at *; omega)
  rw [← b2] at hcmd
  rw [small_mod_U32 _ (by rw [b2]; exact h4), hcmd, hpar]
  rw [List.drop_zero]
  by_cases hc : frame_cmd body = "capture".toList
  · rw [if_pos hc, if_pos (by simpa using hc)]
    by_cases hv : 0 < atoi (frame_param body)
    · rw [if_pos hv]
      simp [hv]
    · rw [if_neg hv]
      simp [hv]
  · rw [if_neg hc, if_neg (by simpa using hc)]

theorem frame_of_cmd_param (cmd param : List Char) (hc : '=' ∉ cmd) (hp : '=' ∉ param) :
    frame_cmd (cmd ++ '=' :: param) = cmd ∧ frame_param (cmd ++ '=' :: param) = param := by
  unfold frame_cmd frame_param
  induction cmd with
  | nil =>
    refine ⟨by simp [List.takeWhile], ?_⟩
    simp only [List.nil_append, List.dropWhile, ne_eq, not_true_eq_false, decide_False]
    rw [List.filter_cons_of_neg (by simp)]
    exact List.filter_eq_self.mpr (fun c hc' => by
      simp only [ne_eq, decide_eq_true_eq]
      exact fun e => hp (e ▸ hc'))
  | cons x xs ih =>
    have hx : x ≠ '=' := fun e => hc (by simp [e])
    have hxs : '=' ∉ xs := fun e => hc (List.mem_cons_of_mem x e)
    obtain ⟨i1, i2⟩ := ih hxs
    constructor
    · simp only [List.cons_append, List.takeWhile, hx, ne_eq, not_false_eq_true, decide_True]
      exact congrArg (List.cons x) i1
    · simp only [List.cons_append, List.dropWhile, hx, ne_eq, not_false_eq_true, decide_True]
      exact i2

/-- The recognised command, for every command and parameter made of ordinary
characters that fit the buffers and from any state of the statics: the
characters of `:cmd=param;` change the instance only when `cmd` is `capture`,
and then as `atoi(param) > 0` says; `:cmd;` is the same with an empty parameter;
and `atoi` is the decimal value whenever that value fits in an `int`. -/
theorem recognised_command_effect (cmd param : List Char) (s : control_state)
    (inst : instance_data)
    (hc : ∀ c ∈ cmd, c ≠ ':' ∧ c ≠ ';' ∧ c ≠ '=' ∧ c ≠ Char.ofNat 0)
    (hp : ∀ c ∈ param, c ≠ ':' ∧ c ≠ ';' ∧ c ≠ '=' ∧ c ≠ Char.ofNat 0)
    (hcl : cmd.length ≤ BUFSIZE - 1) (hpl : param.length ≤ BUFSIZE - 1) :
    (process_chars (':' :: (cmd ++ '=' :: param) ++ [';']) s inst).2.1 =
      (if cmd = "capture".toList then
        (if 0 < atoi param then { inst with capture_enabled := true }
          else { inst with capture_enabled := false, capture_started := false })
      else inst) ∧
    (process_chars (':' :: cmd ++ [';']) s inst).2.1 =
      (if cmd = "capture".toList then
        { inst with capture_enabled := false, capture_started := false }
      else inst) ∧
    (-2147483648 ≤ decimal_value param → decimal_value param < 2147483648 →
      atoi param = decimal_value param) := by
  have hce : '=' ∉ cmd := fun m => (hc _ m).2.2.1 rfl
  have hpe : '=' ∉ param := fun m => (hp _ m).2.2.1 rfl
  obtain ⟨f1, f2⟩ := frame_of_cmd_param cmd param hce hpe
  have hmem : ∀ (x : Char), x ≠ '=' → x ∈ cmd ++ '=' :: param → x ∈ cmd ∨ x ∈ param := by
    intro x hx m
    rcases List.mem_append.mp m with m | m
    · exact Or.inl m
    · rcases List.mem_cons.mp m with m | m
      · exact absurd m hx
      · exact Or.inr m
  refine ⟨?_, ?_, atoi_in_range param⟩
  · have h := framed_command_effect (cmd ++ '=' :: param) s inst
      (fun m => (hmem _ (by decide) m).elim (fun a => (hc _ a).1 rfl) (fun a => (hp _ a).1 rfl))
      (fun m => (hmem _ (by decide) m).elim (fun a => (hc _ a).2.1 rfl)
        (fun a => (hp _ a).2.1 rfl))
      (fun m => (hmem _ (by decide) m).elim (fun a => (hc _ a).2.2.2 rfl)
        (fun a => (hp _ a).2.2.2 rfl))
      (by rw [f1]; exact hcl) (by rw [f2]; exact hpl)
    rw [f1, f2] at h
    exact h
  · have h := framed_command_effect cmd s inst (fun m => (hc _ m).1 rfl)
      (fun m => (hc _ m).2.1 rfl) (fun m => (hc _ m).2.2.2 rfl)
      (by rw [frame_cmd_of_no_eq cmd hce]; exact hcl)
      (by rw [frame_param_of_no_eq cmd hce]; exact Nat.zero_le _)
    rw [frame_cmd_of_no_eq cmd hce, frame_param_of_no_eq cmd hce] at h
    rw [h]
    rfl

/-! ### Proc-address lookup -/

theorem shutdown_images_eq (data : swapchain_resources) :
    ∀ n i, i + n ≤ data.image_views.length → i + n ≤ data.framebuffers.length →
      shutdown_images data n i =
        some ((((data.image_views.drop i).take n).zip
            ((data.framebuffers.drop i).take n)).flatMap
          (fun p => [shutdown_call.DestroyImageView data.device p.1,
            shutdown_call.DestroyFramebuffer data.device p.2])) := by
  intro n
  induction n with
  | zero =>
    intro i _ _
    simp [shutdown_images]
  | succ n ih =>
    intro i h1 h2
    have hv : i < data.image_views.length := by omega
    have hf : i < data.framebuffers.length := by omega
    have e1 : data.image_views.get? i = some data.image_views[i] := List.get?_eq_get hv
    have e2 : data.framebuffers.get? i = some data.framebuffers[i] := List.get?_eq_get hf
    unfold shutdown_images
    rw [e1, e2, ih (i + 1) (by omega) (by omega)]
    rw [List.drop_eq_getElem_cons hv, List.drop_eq_getElem_cons hf]
    simp [List.take, List.zip_cons_cons]

/-- Counterexample to claim C22 as stated: for a swapchain with two images and
one draw record, the command pool is destroyed before the pipeline (positions 13
and 14 of the calls made), the descriptor pool after it (position 16). -/
theorem command_pool_is_destroyed_before_the_pipeline :
    (overlay_DestroySwapchainKHR 100 400 (fun a => if a = 5 then some sample_swapchain else none)
        (map_object 400 5 empty_object_map)).map
      (fun r => (r.2.indexOf (shutdown_call.DestroyCommandPool 100 36),
        r.2.indexOf (shutdown_call.DestroyPipeline 100 35),
        r.2.indexOf (shutdown_call.DestroyDescriptorPool 100 31))) = some (13, 14, 16) := by
  decide

/-- Claim C22 as amended: for a registered swapchain whose context holds one
image view and one framebuffer per image, `overlay_DestroySwapchainKHR` returns
and makes its calls in this order: the resources of each draw record and the
record itself, the image view and framebuffer of each image, the render pass,
the command pool, the pipeline and its layout, the descriptor pool and its
layout, the font sampler and the font resources, the ImGui context, the
driver's `DestroySwapchainKHR`, and only then the removal of the registry entry
and the deletion of the context. -/
theorem swapchain_destruction_order (device swapchain a : Nat) (data : swapchain_resources)
    (objects : Nat → Option swapchain_resources) (m : object_map)
    (hreg : m swapchain = some a) (ha : a ≠ 0) (hobj : objects a = some data)
    (hv : data.image_views.length = data.images.length)
    (hf : data.framebuffers.length = data.images.length) :
    overlay_DestroySwapchainKHR device swapchain objects m =
      some (unmap_object data.swapchain m,
        data.draws.flatMap (shutdown_draw data.device) ++
        (data.image_views.zip data.framebuffers).flatMap
          (fun p => [shutdown_call.DestroyImageView data.device p.1,
            shutdown_call.DestroyFramebuffer data.device p.2]) ++
        [shutdown_call.DestroyRenderPass data.device data.render_pass,
         shutdown_call.DestroyCommandPool data.device data.command_pool,
         shutdown_call.DestroyPipeline data.device data.pipeline,
         shutdown_call.DestroyPipelineLayout data.device data.pipeline_layout,
         shutdown_call.DestroyDescriptorPool data.device data.descriptor_pool,
         shutdown_call.DestroyDescriptorSetLayout data.device data.descriptor_layout,
         shutdown_call.DestroySampler data.device data.font_sampler,
         shutdown_call.DestroyImageView data.device data.font_image_view,
         shutdown_call.DestroyImage data.device data.font_image,
         shutdown_call.FreeMemory data.device data.font_mem,
         shutdown_call.DestroyBuffer data.device data.upload_font_buffer,
         shutdown_call.FreeMemory data.device data.upload_font_buffer_mem,
         shutdown_call.ImGui_DestroyContext data.imgui_context] ++
        [shutdown_call.DestroySwapchainKHR device swapchain] ++
        [shutdown_call.unmap_object data.swapchain,
         shutdown_call.delete_swapchain_data a]) := by
  have himg := shutdown_images_eq data data.images.length 0 (by omega) (by omega)
  have t1 : List.take data.images.length data.image_views = data.image_views := by
    rw [← hv, List.take_length]
  have t2 : List.take data.images.length data.framebuffers = data.framebuffers := by
    rw [← hf, List.take_length]
  rw [List.drop_zero, List.drop_zero, t1, t2] at himg
  unfold overlay_DestroySwapchainKHR
  rw [find_object_data_registered swapchain a m hreg]
  simp only [if_neg ha, hobj]
  unfold shutdown_swapchain_data
  rw [himg]
  rfl

/-- Witness for C22: the swapchain 400 with two images and one draw record. -/
theorem swapchain_destruction_order_witness :
    (overlay_DestroySwapchainKHR 100 400 (fun a => if a = 5 then some sample_swapchain else none)
        (map_object 400 5 empty_object_map)).map (fun r => (r.1 400, r.2.length)) =
      some (none, 28) := by
  rw [swapchain_destruction_order 100 400 5 sample_swapchain
    (fun a => if a = 5 then some sample_swapchain else none)
    (map_object 400 5 empty_object_map) rfl (by decide) rfl rfl rfl]
  decide

/-! ### The log file -/

theorem log_layout_append_rows (l : List log_line) (rows : List logData)
    (h : log_layout l = true) (hne : l ≠ []) : log_layout (l ++ rows.map row_of) = true := by
  match l, h, hne with
  | log_line.header :: log_line.sysinfo _ _ _ _ _ _ :: rest, h, _ =>
    show (rest ++ rows.map row_of).all is_row = true
    rw [List.all_append]
    have h' : rest.all is_row = true := h
    rw [h']
    simp [row_of, is_row]

theorem put_rows_laid_out (f : ofstream) (rows : List logData)
    (h : log_layout f.lines = true) (hopen : f.lines = [] → f.is_open = false) :
    log_layout (put_lines f (rows.map row_of)).lines = true ∧
    ((put_lines f (rows.map row_of)).lines = [] → (put_lines f (rows.map row_of)).is_open = false)
    := by
  unfold put_lines
  cases ho : f.is_open with
  | false =>
    simp only [Bool.false_eq_true, if_false]
    exact ⟨h, fun _ => ho⟩
  | true =>
    simp only [if_true]
    have hne : f.lines ≠ [] := by
      intro e
      have := hopen e
      rw [ho] at this
      exact absurd this (by decide)
    refine ⟨log_layout_append_rows f.lines rows h hne, fun e => ?_⟩
    exact absurd (List.append_eq_nil.mp e).1 hne

theorem write_file_laid_out (g : logging_state) (h : file_laid_out g) :
    file_laid_out (write_file g) := by
  have := put_rows_laid_out g.log_file
    ((List.range g.log_size).map (fun i => deref g g.read_buffer i)) h.1 h.2
  rw [List.map_map] at this
  exact this

theorem stop_logging_laid_out (g : logging_state) (h : file_laid_out g) :
    file_laid_out (stop_logging g) := by
  have h1 : file_laid_out (swap_array g) := h
  have h2 := write_file_laid_out (swap_array g) h1
  exact ⟨h2.1, fun _ => rfl⟩

theorem log_sample_laid_out (frame_time : Int) (g : logging_state) (h : file_laid_out g) :
    file_laid_out (log_sample frame_time g) := by
  obtain ⟨_, _, _, h4, _⟩ := log_sample_fields frame_time g
  unfold file_laid_out
  rw [h4]
  exact h

theorem log_rotate_laid_out (g : logging_state) (h : file_laid_out g) :
    file_laid_out (log_rotate g) := by
  unfold log_rotate
  split_ifs
  · exact write_file_laid_out _ h
  · exact h

theorem hud_log_laid_out (P : overlay_params) (now : Nat) (frame_time : Int)
    (g : logging_state) (h : file_laid_out g) : file_laid_out (hud_log P now frame_time g) := by
  unfold hud_log
  by_cases hon : g.loggingOn = true
  · rw [if_pos hon]
    apply log_rotate_laid_out
    by_cases hd : log_duration_reached P (to_i32 (sub_u64 now g.log_start)) = true
    · simp only [hd, if_true]
      exact stop_logging_laid_out _ h
    · simp only [hd, if_false]
      exact log_sample_laid_out _ _ h
  · rw [if_neg hon]
    exact h

theorem update_hud_info_laid_out (P : overlay_params) (inp : frame_input)
    (s : swapchain_stats × logging_state) (h : file_laid_out s.2) :
    file_laid_out (update_hud_info P inp s).2 := by
  obtain ⟨g', ft, he, _, _, _, c4, _⟩ := update_hud_info_log_buffers P inp s
  rw [he]
  apply hud_log_laid_out
  unfold file_laid_out
  rw [c4]
  exact h

theorem check_keybinds_laid_out (P : overlay_params) (k : keybind_input) (g : logging_state)
    (h : file_laid_out g) : file_laid_out (check_keybinds P k g) := by
  unfold check_keybinds
  by_cases hc : 500000 ≤ sub_u64 k.now g.last_f2_press ∧ P.output_file ≠ ""
  · rw [if_pos hc]
    by_cases hp : k.pressed = true
    · simp only [hp, if_true]
      by_cases hon : g.loggingOn = true
      · simp only [hon, Bool.not_true, Bool.false_eq_true, if_false]
        exact stop_logging_laid_out
          { g with last_f2_press := k.now, log_start := k.now, loggingOn := false } h
      · rw [Bool.not_eq_true] at hon
        simp only [hon, Bool.not_false, if_true]
        unfold file_laid_out
        simp only [create_file_fst]
        exact ⟨rfl, fun e => absurd e (by simp [session_file])⟩
    · rw [Bool.not_eq_true] at hp
      simp only [hp, Bool.false_eq_true, if_false]
      exact h
  · rw [if_neg hc]
    exact h

theorem run_logger_laid_out (evs : List logger_event) :
    ∀ s : swapchain_stats × logging_state, file_laid_out s.2 →
      file_laid_out (run_logger evs s).2 := by
  induction evs with
  | nil => intro s h; exact h
  | cons e rest ih =>
    intro s h
    apply ih (logger_step s e)
    cases e with
    | frame params inp => exact update_hud_info_laid_out params inp s h
    | keys params inp => exact check_keybinds_laid_out params inp s.2 h

/-- Claim C23: the stream `create_file` returns holds exactly two lines, the
header `os,cpu,gpu,ram,kernel,driver` and one line with those six values in
that order; a row consists of the five fields frametime, fps, cpu, gpu,
previous of one sample, in that order and separated by commas; `write_file`
appends the rows of `read_buffer[0 .. log_size-1]` in index order; and in every
state reached from the initial logger state the file is either untouched or
made of the header, the environment line and then rows only. -/
theorem log_file_layout (show_double : fps_value → String) :
    (∀ filename lt now g,
      (create_file filename lt now g).1.lines =
        [log_line.header, log_line.sysinfo g.os g.cpu g.gpu g.ram g.kernel g.driver] ∧
      (create_file filename lt now g).1.is_open = true) ∧
    line_text show_double log_line.header = "os,cpu,gpu,ram,kernel,driver" ∧
    (∀ os cpu gpu ram kernel driver,
      line_text show_double (log_line.sysinfo os cpu gpu ram kernel driver) =
        String.intercalate "," [os, cpu, gpu, ram, kernel, driver]) ∧
    (∀ d : logData,
      line_text show_double (row_of d) =
        String.intercalate ","
          [toString d.frametime, show_double d.fps, toString d.cpu, toString d.gpu,
            toString d.previous]) ∧
    (∀ g : logging_state, g.log_file.is_open = true →
      (write_file g).log_file.lines =
        g.log_file.lines ++
          (List.range g.log_size).map (fun i => row_of (deref g g.read_buffer i))) ∧
    (∀ (evs : List logger_event) (sw : swapchain_stats),
      log_layout (run_logger evs (sw, initial_logging_state)).2.log_file.lines = true) := by
  refine ⟨?_, rfl, fun _ _ _ _ _ _ => rfl, fun _ => rfl, ?_, ?_⟩
  · intro filename lt now g
    rw [create_file_fst]
    exact ⟨rfl, rfl⟩
  · intro g hopen
    show (put_lines g.log_file _).lines = _
    unfold put_lines
    rw [if_pos hopen]
  · intro evs sw
    exact (run_logger_laid_out evs (sw, initial_logging_state) ⟨rfl, fun _ => rfl⟩).1

/-- Witness for C23: a session is started and one frame is logged. -/
theorem log_file_layout_witness :
    log_layout (run_logger
      [logger_event.keys test_params (toggle_at 1000000),
        logger_event.frame test_params (steady_frames 0)]
      (zero_swapchain_stats, initial_logging_state)).2.log_file.lines = true :=
  (log_file_layout (fun v => toString v.frames ++ "/" ++ toString v.elapsed)).2.2.2.2.2 _ _

/-- Claim C24, evaluated where the code leaves it: `create_file` run at
14:05:09 local time on 17 March 2020 names the file with `15-6-10`, and at
23:59:59 with `24-60-60`: the hour, the minute and the second are each one more
than the component of the local time. -/
theorem log_file_name_is_one_past_the_time_of_day :
    (create_file "/tmp/mangohud_log" ⟨120, 2, 17, 14, 5, 9⟩ 0 initial_logging_state).1.path =
      "/tmp/mangohud_log2020-3-17_15-6-10" ∧
    (create_file "/tmp/mangohud_log" ⟨120, 2, 17, 23, 59, 59⟩ 0 initial_logging_state).1.path =
      "/tmp/mangohud_log2020-3-17_24-60-60" := by
  constructor <;> rfl

/-! ### The rolling aggregates -/

theorem hud_store_frame_time_fields (now : Nat) (sw : swapchain_stats) :
    (hud_store_frame_time now sw).fps = sw.fps ∧
    (hud_store_frame_time now sw).total_cpu = sw.total_cpu ∧
    (hud_store_frame_time now sw).n_frames_since_update = sw.n_frames_since_update ∧
    (hud_store_frame_time now sw).last_fps_update = sw.last_fps_update := by
  unfold hud_store_frame_time
  split_ifs <;> exact ⟨rfl, rfl, rfl, rfl⟩

theorem hud_log_loads (P : overlay_params) (now : Nat) (frame_time : Int) (g : logging_state) :
    (hud_log P now frame_time g).gpuLoadLog = g.gpuLoadLog ∧
    (hud_log P now frame_time g).cpuLoadLog = g.cpuLoadLog := by
  have hrot : ∀ x : logging_state, (log_rotate x).gpuLoadLog = x.gpuLoadLog ∧
      (log_rotate x).cpuLoadLog = x.cpuLoadLog := by
    intro x
    unfold log_rotate
    split_ifs <;> exact ⟨rfl, rfl⟩
  have hsample : ∀ x : logging_state, (log_sample frame_time x).gpuLoadLog = x.gpuLoadLog ∧
      (log_sample frame_time x).cpuLoadLog = x.cpuLoadLog := by
    intro x
    unfold log_sample store
    cases x.write_buffer <;> exact ⟨rfl, rfl⟩
  unfold hud_log
  by_cases hon : g.loggingOn = true
  · rw [if_pos hon, (hrot _).1, (hrot _).2]
    by_cases hd : log_duration_reached P (to_i32 (sub_u64 now g.log_start)) = true
    · simp only [hd, if_true]
      exact ⟨rfl, rfl⟩
    · rw [Bool.not_eq_true] at hd
      simp only [hd, Bool.false_eq_true, if_false]
      rw [(hsample _).1, (hsample _).2]
      exact ⟨rfl, rfl⟩
  · rw [if_neg hon]
    exact ⟨rfl, rfl⟩

/-- A call of `update_hud_info` in which the refresh is due. -/
theorem update_hud_info_refresh (P : overlay_params) (inp : frame_input)
    (s : swapchain_stats × logging_state) (h : refresh_due P inp.now s.1 = true) :
    (update_hud_info P inp s).1.fps =
      ⟨s.1.n_frames_since_update, sub_u64 inp.now s.1.last_fps_update⟩ ∧
    (update_hud_info P inp s).1.n_frames_since_update = 1 ∧
    (update_hud_info P inp s).1.last_fps_update = inp.now ∧
    (update_hud_info P inp s).1.total_cpu =
      (if P.enabled_cpu_stats = true then inp.cpu_percent else s.1.total_cpu) ∧
    (update_hud_info P inp s).2.gpuLoadLog = inp.gpu_load ∧
    (update_hud_info P inp s).2.cpuLoadLog =
      (if P.enabled_cpu_stats = true then inp.cpu_percent else s.1.total_cpu) := by
  unfold refresh_due at h
  obtain ⟨h1, h2⟩ := of_decide_eq_true h
  obtain ⟨f1, f2, f3, f4⟩ := hud_store_frame_time_fields inp.now s.1
  simp only [update_hud_info, hud_count]
  rw [(hud_log_loads _ _ _ _).1, (hud_log_loads _ _ _ _).2]
  unfold hud_aggregates
  simp only [f4, f2, f3, ne_eq, h1, not_false_eq_true, if_true, h2]
  simp
  decide

/-- A call of `update_hud_info` in which the refresh is not due. -/
theorem update_hud_info_no_refresh (P : overlay_params) (inp : frame_input)
    (s : swapchain_stats × logging_state) (h : refresh_due P inp.now s.1 = false) :
    (update_hud_info P inp s).1.fps = s.1.fps ∧
    (update_hud_info P inp s).1.n_frames_since_update =
      (s.1.n_frames_since_update + 1) % U32 ∧
    (update_hud_info P inp s).1.last_fps_update =
      (if s.1.last_fps_update = 0 then inp.now else s.1.last_fps_update) ∧
    (update_hud_info P inp s).1.total_cpu = s.1.total_cpu ∧
    (update_hud_info P inp s).2.gpuLoadLog = s.2.gpuLoadLog ∧
    (update_hud_info P inp s).2.cpuLoadLog = s.2.cpuLoadLog := by
  unfold refresh_due at h
  have hn := of_decide_eq_false h
  obtain ⟨f1, f2, f3, f4⟩ := hud_store_frame_time_fields inp.now s.1
  simp only [update_hud_info, hud_count]
  rw [(hud_log_loads _ _ _ _).1, (hud_log_loads _ _ _ _).2]
  unfold hud_aggregates
  by_cases h1 : s.1.last_fps_update = 0
  · simp only [f4, h1, ne_eq, not_true_eq_false, if_false, if_true]
    simp [f1, f2, f3]
  · have h2 : ¬ P.fps_sampling_period ≤ sub_u64 inp.now s.1.last_fps_update :=
      fun e => hn ⟨h1, e⟩
    simp only [f4, ne_eq, h1, not_false_eq_true, if_true, h2, if_false]
    simp [f1, f2, f3, f4]

theorem update_hud_info_last_fps_update (P : overlay_params) (inp : frame_input)
    (s : swapchain_stats × logging_state) :
    (update_hud_info P inp s).1.last_fps_update = inp.now ∨
    (s.1.last_fps_update ≠ 0 ∧
      (update_hud_info P inp s).1.last_fps_update = s.1.last_fps_update) := by
  cases h : refresh_due P inp.now s.1 with
  | true => exact Or.inl (update_hud_info_refresh P inp s h).2.2.1
  | false =>
    have := (update_hud_info_no_refresh P inp s h).2.2.1
    by_cases h0 : s.1.last_fps_update = 0
    · rw [if_pos h0] at this
      exact Or.inl this
    · rw [if_neg h0] at this
      exact Or.inr ⟨h0, this⟩

theorem now_monotone (ins : Nat → frame_input) (n : Nat)
    (hmono : ∀ i, i + 1 < n → (ins i).now ≤ (ins (i + 1)).now) :
    ∀ k, k < n → ∀ m, m ≤ k → (ins m).now ≤ (ins k).now := by
  intro k
  induction k with
  | zero =>
    intro _ m hm
    have : m = 0 := by omega
    rw [this]
  | succ k ih =>
    intro hk m hm
    by_cases e : m = k + 1
    · rw [e]
    · exact le_trans (ih (by omega) m (by omega)) (hmono k hk)

/-- After a refresh at call `i`, the field is the time of call `i` or of a later call. -/
theorem last_fps_update_after_refresh (P : overlay_params) (ins : Nat → frame_input)
    (s0 : swapchain_stats × logging_state) (i : Nat)
    (hi : refresh_due P (ins i).now (run_hud P ins i s0).1 = true) :
    ∀ d, ∃ m, i ≤ m ∧ m < i + 1 + d ∧
      (run_hud P ins (i + 1 + d) s0).1.last_fps_update = (ins m).now := by
  intro d
  induction d with
  | zero =>
    exact ⟨i, le_refl i, by omega, (update_hud_info_refresh P (ins i) _ hi).2.2.1⟩
  | succ d ih =>
    obtain ⟨m, hm1, hm2, em⟩ := ih
    show ∃ m, i ≤ m ∧ m < i + 1 + (d + 1) ∧
      (update_hud_info P (ins (i + 1 + d)) (run_hud P ins (i + 1 + d) s0)).1.last_fps_update =
        (ins m).now
    rcases update_hud_info_last_fps_update P (ins (i + 1 + d)) (run_hud P ins (i + 1 + d) s0)
      with e | ⟨_, e⟩
    · exact ⟨i + 1 + d, by omega, by omega, e⟩
    · exact ⟨m, hm1, by omega, by rw [e, em]⟩

theorem refreshes_are_a_period_apart (P : overlay_params) (ins : Nat → frame_input)
    (s0 : swapchain_stats × logging_state) (n : Nat)
    (hmono : ∀ i, i + 1 < n → (ins i).now ≤ (ins (i + 1)).now)
    (hU : ∀ i, i < n → (ins i).now < U64) (i j : Nat) (hij : i < j) (hj : j < n)
    (hi : refresh_due P (ins i).now (run_hud P ins i s0).1 = true)
    (hjr : refresh_due P (ins j).now (run_hud P ins j s0).1 = true) :
    (ins i).now + P.fps_sampling_period ≤ (ins j).now := by
  obtain ⟨m, hm1, hm2, em⟩ := last_fps_update_after_refresh P ins s0 i hi (j - (i + 1))
  have hjeq : i + 1 + (j - (i + 1)) = j := by omega
  rw [hjeq] at hm2 em
  unfold refresh_due at hjr
  obtain ⟨_, h2⟩ := of_decide_eq_true hjr
  rw [em] at h2
  have hmj : (ins m).now ≤ (ins j).now := now_monotone ins n hmono j hj m (by omega)
  have him : (ins i).now ≤ (ins m).now := now_monotone ins n hmono m (by omega) i hm1
  rw [sub_u64_of_le _ _ hmj (hU j hj)] at h2
  omega

theorem hud_aggregates_traced_state (P : overlay_params) (vendorID : Nat) (inp : frame_input)
    (s : swapchain_stats × logging_state) :
    (hud_aggregates_traced P vendorID inp s).1 = hud_aggregates P inp s := by
  unfold hud_aggregates_traced hud_aggregates
  by_cases h1 : s.1.last_fps_update ≠ 0
  · by_cases h2 : P.fps_sampling_period ≤ sub_u64 inp.now s.1.last_fps_update
    · simp only [if_pos h1, if_pos h2]
    · simp only [if_pos h1, if_neg h2]
  · simp only [if_neg h1]

theorem hud_aggregates_traced_reads (P : overlay_params) (vendorID : Nat) (inp : frame_input)
    (s : swapchain_stats × logging_state) :
    (hud_aggregates_traced P vendorID inp s).2 =
      if s.1.last_fps_update ≠ 0 ∧ P.fps_sampling_period ≤ sub_u64 inp.now s.1.last_fps_update
      then hud_telemetry P vendorID else [] := by
  unfold hud_aggregates_traced
  by_cases h1 : s.1.last_fps_update ≠ 0
  · by_cases h2 : P.fps_sampling_period ≤ sub_u64 inp.now s.1.last_fps_update
    · have e : s.1.last_fps_update ≠ 0 ∧
          P.fps_sampling_period ≤ sub_u64 inp.now s.1.last_fps_update := ⟨h1, h2⟩
      simp only [if_pos h1, if_pos h2, if_pos e]
    · have e : ¬ (s.1.last_fps_update ≠ 0 ∧
          P.fps_sampling_period ≤ sub_u64 inp.now s.1.last_fps_update) := fun e => h2 e.2
      simp only [if_pos h1, if_neg h2, if_neg e]
  · have e : ¬ (s.1.last_fps_update ≠ 0 ∧
        P.fps_sampling_period ≤ sub_u64 inp.now s.1.last_fps_update) := fun e => h1 e.1
    simp only [if_neg h1, if_neg e]

/-- The state left by the traced call is the one `update_hud_info` leaves. -/
theorem update_hud_info_traced_state (P : overlay_params) (vendorID : Nat) (inp : frame_input)
    (s : swapchain_stats × logging_state) :
    (update_hud_info_traced P vendorID inp s).1 = update_hud_info P inp s := by
  unfold update_hud_info_traced update_hud_info
  simp only [hud_aggregates_traced_state]

/-- The reads of a call: those of the refresh block when the refresh is due,
none otherwise. -/
theorem update_hud_info_traced_reads (P : overlay_params) (vendorID : Nat) (inp : frame_input)
    (s : swapchain_stats × logging_state) :
    (update_hud_info_traced P vendorID inp s).2 =
      if refresh_due P inp.now s.1 = true then hud_telemetry P vendorID else [] := by
  obtain ⟨_, _, _, f4⟩ := hud_store_frame_time_fields inp.now s.1
  unfold update_hud_info_traced
  simp only [hud_aggregates_traced_reads, f4]
  unfold refresh_due
  simp only [decide_eq_true_eq]

/-- Which reads one refresh makes. -/
theorem hud_telemetry_mem (P : overlay_params) (vendorID : Nat) :
    (telemetry_call.UpdateCPUData ∈ hud_telemetry P vendorID ↔ P.enabled_cpu_stats = true) ∧
    (telemetry_call.UpdateCoreMhz ∈ hud_telemetry P vendorID ↔
      P.enabled_cpu_stats = true ∧ P.enabled_core_load = true) ∧
    (telemetry_call.UpdateCpuTemp ∈ hud_telemetry P vendorID ↔
      P.enabled_cpu_stats = true ∧ P.enabled_cpu_temp = true) ∧
    (telemetry_call.getAmdGpuUsage ∈ hud_telemetry P vendorID ↔
      P.enabled_gpu_stats = true ∧ vendorID = 0x1002) ∧
    (telemetry_call.getNvidiaGpuInfo ∈ hud_telemetry P vendorID ↔
      P.enabled_gpu_stats = true ∧ vendorID = 0x10de) ∧
    (telemetry_call.update_meminfo ∈ hud_telemetry P vendorID ↔ P.enabled_ram = true) ∧
    (telemetry_call.getIoStats ∈ hud_telemetry P vendorID ↔
      P.enabled_io_read = true ∨ P.enabled_io_write = true) ∧
    (hud_telemetry P vendorID).Nodup := by
  unfold hud_telemetry
  by_cases ha : vendorID = 0x1002
  · have hb : ¬ vendorID = 0x10de := by omega
    cases P.enabled_cpu_stats <;> cases P.enabled_core_load <;> cases P.enabled_cpu_temp <;>
      cases P.enabled_gpu_stats <;> cases P.enabled_ram <;> cases P.enabled_io_read <;>
      cases P.enabled_io_write <;> simp [ha]
  · by_cases hb : vendorID = 0x10de
    · cases P.enabled_cpu_stats <;> cases P.enabled_core_load <;> cases P.enabled_cpu_temp <;>
        cases P.enabled_gpu_stats <;> cases P.enabled_ram <;> cases P.enabled_io_read <;>
        cases P.enabled_io_write <;> simp [hb]
    · cases P.enabled_cpu_stats <;> cases P.enabled_core_load <;> cases P.enabled_cpu_temp <;>
        cases P.enabled_gpu_stats <;> cases P.enabled_ram <;> cases P.enabled_io_read <;>
        cases P.enabled_io_write <;> simp [ha, hb]

/-- Claim C25: a call of `update_hud_info` refreshes the rolling aggregates
exactly when `last_fps_update` is non-zero and `now - last_fps_update` is at
least `fps_sampling_period`. It then assigns `sw_stats.fps`, takes the new CPU
and GPU loads, leaves `n_frames_since_update` at 1 and makes the telemetry
reads: `UpdateCPUData` when the CPU statistics are enabled (with
`UpdateCoreMhz` and `UpdateCpuTemp` when core load and CPU temperature are),
`getAmdGpuUsage` or `getNvidiaGpuInfo` when the GPU statistics are enabled and
the vendor is 0x1002 or 0x10de, `update_meminfo` when RAM is enabled and
`getIoStats` when IO read or write is, each at most once. In every other call
`sw_stats.fps` and the loads are unchanged, no telemetry read is made and
`n_frames_since_update` (an `unsigned`, below its maximum) grows by exactly 1.
In a run of `n` calls with non-decreasing 64-bit timestamps on statistics that
start with `last_fps_update = 0`, two calls that refresh, and so two calls that
make a telemetry read, are at least `fps_sampling_period` microseconds apart,
and the first call does not refresh and reads nothing. -/
theorem aggregates_refresh_once_per_period (P : overlay_params) (vendorID : Nat)
    (ins : Nat → frame_input)
    (s0 : swapchain_stats × logging_state) (n : Nat) (h0 : s0.1.last_fps_update = 0)
    (hmono : ∀ i, i + 1 < n → (ins i).now ≤ (ins (i + 1)).now)
    (hU : ∀ i, i < n → (ins i).now < U64) :
    (∀ (inp : frame_input) (s : swapchain_stats × logging_state),
      (update_hud_info_traced P vendorID inp s).1 = update_hud_info P inp s) ∧
    (∀ (inp : frame_input) (s : swapchain_stats × logging_state),
      refresh_due P inp.now s.1 = true →
        (update_hud_info P inp s).1.fps =
          ⟨s.1.n_frames_since_update, sub_u64 inp.now s.1.last_fps_update⟩ ∧
        (update_hud_info P inp s).1.n_frames_since_update = 1 ∧
        (update_hud_info P inp s).1.last_fps_update = inp.now ∧
        (update_hud_info P inp s).1.total_cpu =
          (if P.enabled_cpu_stats = true then inp.cpu_percent else s.1.total_cpu) ∧
        (update_hud_info P inp s).2.gpuLoadLog = inp.gpu_load ∧
        (telemetry_call.UpdateCPUData ∈ (update_hud_info_traced P vendorID inp s).2 ↔
          P.enabled_cpu_stats = true) ∧
        (telemetry_call.UpdateCoreMhz ∈ (update_hud_info_traced P vendorID inp s).2 ↔
          P.enabled_cpu_stats = true ∧ P.enabled_core_load = true) ∧
        (telemetry_call.UpdateCpuTemp ∈ (update_hud_info_traced P vendorID inp s).2 ↔
          P.enabled_cpu_stats = true ∧ P.enabled_cpu_temp = true) ∧
        (telemetry_call.getAmdGpuUsage ∈ (update_hud_info_traced P vendorID inp s).2 ↔
          P.enabled_gpu_stats = true ∧ vendorID = 0x1002) ∧
        (telemetry_call.getNvidiaGpuInfo ∈ (update_hud_info_traced P vendorID inp s).2 ↔
          P.enabled_gpu_stats = true ∧ vendorID = 0x10de) ∧
        (telemetry_call.update_meminfo ∈ (update_hud_info_traced P vendorID inp s).2 ↔
          P.enabled_ram = true) ∧
        (telemetry_call.getIoStats ∈ (update_hud_info_traced P vendorID inp s).2 ↔
          P.enabled_io_read = true ∨ P.enabled_io_write = true) ∧
        (update_hud_info_traced P vendorID inp s).2.Nodup) ∧
    (∀ (inp : frame_input) (s : swapchain_stats × logging_state),
      refresh_due P inp.now s.1 = false →
        (update_hud_info P inp s).1.fps = s.1.fps ∧
        (update_hud_info P inp s).1.total_cpu = s.1.total_cpu ∧
        (update_hud_info P inp s).2.gpuLoadLog = s.2.gpuLoadLog ∧
        (update_hud_info P inp s).2.cpuLoadLog = s.2.cpuLoadLog ∧
        (update_hud_info_traced P vendorID inp s).2 = [] ∧
        (s.1.n_frames_since_update + 1 < U32 →
          (update_hud_info P inp s).1.n_frames_since_update =
            s.1.n_frames_since_update + 1)) ∧
    (∀ i j, i < j → j < n →
      refresh_due P (ins i).now (run_hud P ins i s0).1 = true →
      refresh_due P (ins j).now (run_hud P ins j s0).1 = true →
      (ins i).now + P.fps_sampling_period ≤ (ins j).now) ∧
    (∀ i j, i < j → j < n →
      (update_hud_info_traced P vendorID (ins i) (run_hud P ins i s0)).2 ≠ [] →
      (update_hud_info_traced P vendorID (ins j) (run_hud P ins j s0)).2 ≠ [] →
      (ins i).now + P.fps_sampling_period ≤ (ins j).now) ∧
    refresh_due P (ins 0).now (run_hud P ins 0 s0).1 = false ∧
    (update_hud_info_traced P vendorID (ins 0) (run_hud P ins 0 s0)).2 = [] := by
  have hfirst : refresh_due P (ins 0).now (run_hud P ins 0 s0).1 = false := by
    show refresh_due P (ins 0).now s0.1 = false
    unfold refresh_due
    rw [h0]
    simp
  have hquiet : ∀ (inp : frame_input) (s : swapchain_stats × logging_state),
      refresh_due P inp.now s.1 = false →
      (update_hud_info_traced P vendorID inp s).2 = [] := by
    intro inp s h
    rw [update_hud_info_traced_reads, h]
    rfl
  have hdue : ∀ (inp : frame_input) (s : swapchain_stats × logging_state),
      (update_hud_info_traced P vendorID inp s).2 ≠ [] →
      refresh_due P inp.now s.1 = true := by
    intro inp s h
    cases hr : refresh_due P inp.now s.1 with
    | true => rfl
    | false => exact absurd (hquiet inp s hr) h
  refine ⟨update_hud_info_traced_state P vendorID, ?_, ?_, ?_, ?_, hfirst, hquiet _ _ hfirst⟩
  · intro inp s h
    obtain ⟨a, b, c, d, e, _⟩ := update_hud_info_refresh P inp s h
    have hr : (update_hud_info_traced P vendorID inp s).2 = hud_telemetry P vendorID := by
      rw [update_hud_info_traced_reads, if_pos h]
    rw [hr]
    obtain ⟨m1, m2, m3, m4, m5, m6, m7, m8⟩ := hud_telemetry_mem P vendorID
    exact ⟨a, b, c, d, e, m1, m2, m3, m4, m5, m6, m7, m8⟩
  · intro inp s h
    obtain ⟨a, b, _, d, e, f⟩ := update_hud_info_no_refresh P inp s h
    refine ⟨a, d, e, f, hquiet inp s h, fun hlt => ?_⟩
    rw [b, Nat.mod_eq_of_lt hlt]
  · intro i j hij hj hi hjr
    exact refreshes_are_a_period_apart P ins s0 n hmono hU i j hij hj hi hjr
  · intro i j hij hj hi hjr
    exact refreshes_are_a_period_apart P ins s0 n hmono hU i j hij hj (hdue _ _ hi)
      (hdue _ _ hjr)

/-- Witness for C25: 100 frames 16.667 ms apart with a sampling period of half
a second on an AMD device; the first call does not refresh and makes no
telemetry read. -/
theorem aggregates_refresh_once_per_period_witness :
    zero_swapchain_stats.last_fps_update = 0 ∧
    refresh_due test_params (steady_frames 0).now
      (run_hud test_params steady_frames 0 (zero_swapchain_stats, initial_logging_state)).1 =
        false ∧
    (update_hud_info_traced test_params 0x1002 (steady_frames 0)
      (run_hud test_params steady_frames 0
        (zero_swapchain_stats, initial_logging_state))).2 = [] :=
  ⟨rfl,
    (aggregates_refresh_once_per_period test_params 0x1002 steady_frames
      (zero_swapchain_stats, initial_logging_state) 100 rfl
      (fun i _ => by
        show 1000000 + 16667 * (i + 1) ≤ 1000000 + 16667 * (i + 1 + 1)
        omega)
      (fun i hi => by
        show 1000000 + 16667 * (i + 1) < U64
        unfold U64
        omega)).2.2.2.2.2⟩

/-! ### The maximum-duration stop -/

theorem to_u32_to_i32 (x : Nat) : to_u32 (to_i32 x) = x % 4294967296 := by
  unfold to_u32 to_i32
  split_ifs <;> omega

/-- While the elapsed time and the product `log_duration * 1000000` both fit in
32 bits, the stop condition is the comparison of the true values. -/
theorem log_duration_reached_in_range (P : overlay_params) (elapsed : Nat)
    (he : elapsed < U32) (hd : P.log_duration * 1000000 < U32) :
    log_duration_reached P (to_i32 elapsed) = true ↔
      0 < P.log_duration ∧ P.log_duration * 1000000 ≤ elapsed := by
  unfold log_duration_reached
  rw [decide_eq_true_iff, to_u32_to_i32]
  unfold U32 at *
  rw [Nat.mod_eq_of_lt hd, Nat.mod_eq_of_lt he]
  omega

/-- Claim C26, evaluated where the code leaves it: with `log_duration` 1 s and a
frame 4294967301 µs (2^32 + 5) after the session start, `elapsedLog` is 5, the
session is not ended and a sample is stored; with `log_duration` 4295 s the
product `log_duration * 1000000` is 32704 in 32 bits, and the session is ended
at a frame 33334 µs after its start. -/
theorem duration_stop_is_decided_modulo_two_pow_32 :
    (update_hud_info timed_params ⟨1000000 + 4294967301, 12, 34⟩
      (zero_swapchain_stats,
        check_keybinds timed_params (toggle_at 1000000) initial_logging_state)).2.elapsedLog = 5 ∧
    (update_hud_info timed_params ⟨1000000 + 4294967301, 12, 34⟩
      (zero_swapchain_stats,
        check_keybinds timed_params (toggle_at 1000000) initial_logging_state)).2.loggingOn =
      true ∧
    (update_hud_info timed_params ⟨1000000 + 4294967301, 12, 34⟩
      (zero_swapchain_stats,
        check_keybinds timed_params (toggle_at 1000000) initial_logging_state)).2.log_i = 1 ∧
    (4295 * 1000000) % U32 = 32704 ∧
    (update_hud_info { test_params with log_duration := 4295 } ⟨1000000 + 33334, 12, 34⟩
      (zero_swapchain_stats,
        check_keybinds { test_params with log_duration := 4295 } (toggle_at 1000000)
          initial_logging_state)).2.loggingOn = false ∧
    (update_hud_info { test_params with log_duration := 4295 } ⟨1000000 + 33334, 12, 34⟩
      (zero_swapchain_stats,
        check_keybinds { test_params with log_duration := 4295 } (toggle_at 1000000)
          initial_logging_state)).2.log_i = 0 := by
  refine ⟨by decide, by decide, by decide, by decide, by decide, by decide⟩

/-! ### The OpenGL display size -/

theorem imgui_render_eq (vp sb : GLVec) (st : gl_display_state) :
    imgui_render true vp sb st =
      { last_vp := vp, last_sb := sb,
        DisplaySize :=
          if ¬ (sb.v2 = 1 ∧ sb.v3 = 1) ∧ (sb ≠ st.last_sb ∨ st.last_vp = sb) then (sb.v2, sb.v3)
          else if vp ≠ st.last_vp ∨ (sb.v2 = 1 ∧ sb.v3 = 1) then (vp.v2, vp.v3)
          else st.DisplaySize } := by
  unfold imgui_render
  simp only [Bool.true_eq_false, if_false, decide_eq_true_eq, decide_eq_false_iff_not]
  by_cases hA : vp ≠ st.last_vp ∨ (sb.v2 = 1 ∧ sb.v3 = 1)
  · by_cases hB : ¬ (sb.v2 = 1 ∧ sb.v3 = 1) ∧ (sb ≠ st.last_sb ∨ st.last_vp = sb)
    · rw [if_pos hA, if_pos hB, if_pos hB]
    · rw [if_pos hA, if_neg hB, if_neg hB, if_pos hA]
  · by_cases hB : ¬ (sb.v2 = 1 ∧ sb.v3 = 1) ∧ (sb ≠ st.last_sb ∨ st.last_vp = sb)
    · rw [if_neg hA, if_pos hB, if_pos hB]
    · rw [if_neg hA, if_neg hB, if_neg hB, if_neg hA]

/-- The display size when the condition of the tie-break fails: the scissor box
is the invalid 1x1 one, or it equals the viewport and differs from the previous
viewport. The size is then the viewport's. -/
theorem imgui_render_viewport_size (vp sb : GLVec) (st : gl_display_state)
    (hC : ¬ (¬ (sb.v2 = 1 ∧ sb.v3 = 1) ∧ (sb ≠ vp ∨ sb = st.last_vp))) :
    (imgui_render true vp sb st).DisplaySize = (vp.v2, vp.v3) := by
  rw [imgui_render_eq]
  show (if _ then _ else _) = _
  by_cases hinv : sb.v2 = 1 ∧ sb.v3 = 1
  · rw [if_neg (fun e => e.1 hinv), if_pos (Or.inr hinv)]
  · have hC1 : sb = vp := by
      by_contra e
      exact hC ⟨hinv, Or.inl e⟩
    have hC2 : sb ≠ st.last_vp := fun e => hC ⟨hinv, Or.inr e⟩
    have hvp : vp ≠ st.last_vp := fun e => hC2 (hC1.trans e)
    by_cases hB : ¬ (sb.v2 = 1 ∧ sb.v3 = 1) ∧ (sb ≠ st.last_sb ∨ st.last_vp = sb)
    · rw [if_pos hB, hC1]
    · rw [if_neg hB, if_pos (Or.inl hvp)]

/-- Claim C27: with a current context, whenever the scissor box is the invalid
1x1 one, or equals the viewport without being the previous viewport, the display
size left by `imgui_render` is the viewport's, so that no two such scissor boxes
give different sizes. Whenever the display size differs from the one the
viewport test alone leaves (the viewport's when the viewport changed or the
scissor box is invalid, the former size otherwise), the scissor box is valid,
differs from the viewport or equals the previous viewport, and the size is the
scissor box's. The code takes the scissor box's size when it is valid and
differs from the previous scissor box or equals the previous viewport; the
viewport and the scissor box are remembered; without a context nothing changes. -/
theorem scissor_box_sets_display_size_only_when_it_differs (vp sb : GLVec)
    (st : gl_display_state) :
    (¬ (¬ (sb.v2 = 1 ∧ sb.v3 = 1) ∧ (sb ≠ vp ∨ sb = st.last_vp)) →
      (imgui_render true vp sb st).DisplaySize = (vp.v2, vp.v3)) ∧
    (∀ sb2 : GLVec,
      ¬ (¬ (sb.v2 = 1 ∧ sb.v3 = 1) ∧ (sb ≠ vp ∨ sb = st.last_vp)) →
      ¬ (¬ (sb2.v2 = 1 ∧ sb2.v3 = 1) ∧ (sb2 ≠ vp ∨ sb2 = st.last_vp)) →
      (imgui_render true vp sb st).DisplaySize = (imgui_render true vp sb2 st).DisplaySize) ∧
    ((imgui_render true vp sb st).DisplaySize ≠
        (if vp ≠ st.last_vp ∨ (sb.v2 = 1 ∧ sb.v3 = 1) then (vp.v2, vp.v3)
         else st.DisplaySize) →
      (¬ (sb.v2 = 1 ∧ sb.v3 = 1) ∧ (sb ≠ vp ∨ sb = st.last_vp)) ∧
      (imgui_render true vp sb st).DisplaySize = (sb.v2, sb.v3)) ∧
    (¬ (sb.v2 = 1 ∧ sb.v3 = 1) ∧ (sb ≠ st.last_sb ∨ st.last_vp = sb) →
      (imgui_render true vp sb st).DisplaySize = (sb.v2, sb.v3)) ∧
    (¬ (¬ (sb.v2 = 1 ∧ sb.v3 = 1) ∧ (sb ≠ st.last_sb ∨ st.last_vp = sb)) →
      (imgui_render true vp sb st).DisplaySize =
        (if vp ≠ st.last_vp ∨ (sb.v2 = 1 ∧ sb.v3 = 1) then (vp.v2, vp.v3)
         else st.DisplaySize)) ∧
    (imgui_render true vp sb st).last_vp = vp ∧
    (imgui_render true vp sb st).last_sb = sb ∧
    imgui_render false vp sb st = st := by
  have hB1 : ¬ (sb.v2 = 1 ∧ sb.v3 = 1) ∧ (sb ≠ st.last_sb ∨ st.last_vp = sb) →
      (imgui_render true vp sb st).DisplaySize = (sb.v2, sb.v3) := by
    intro hB
    rw [imgui_render_eq]
    show (if _ then _ else _) = _
    rw [if_pos hB]
  have hB2 : ¬ (¬ (sb.v2 = 1 ∧ sb.v3 = 1) ∧ (sb ≠ st.last_sb ∨ st.last_vp = sb)) →
      (imgui_render true vp sb st).DisplaySize =
        (if vp ≠ st.last_vp ∨ (sb.v2 = 1 ∧ sb.v3 = 1) then (vp.v2, vp.v3)
         else st.DisplaySize) := by
    intro hB
    rw [imgui_render_eq]
    show (if _ then _ else _) = _
    rw [if_neg hB]
  refine ⟨imgui_render_viewport_size vp sb st, ?_, ?_, hB1, hB2, ?_, ?_, rfl⟩
  · intro sb2 h1 h2
    rw [imgui_render_viewport_size vp sb st h1, imgui_render_viewport_size vp sb2 st h2]
  · intro hne
    have hB : ¬ (sb.v2 = 1 ∧ sb.v3 = 1) ∧ (sb ≠ st.last_sb ∨ st.last_vp = sb) := by
      by_contra hB
      exact hne (hB2 hB)
    have hC : ¬ (sb.v2 = 1 ∧ sb.v3 = 1) ∧ (sb ≠ vp ∨ sb = st.last_vp) := by
      by_contra hC
      apply hne
      rw [imgui_render_viewport_size vp sb st hC]
      by_cases hinv : sb.v2 = 1 ∧ sb.v3 = 1
      · rw [if_pos (Or.inr hinv)]
      · have hC1 : sb = vp := by
          by_contra e
          exact hC ⟨hinv, Or.inl e⟩
        have hC2 : sb ≠ st.last_vp := fun e => hC ⟨hinv, Or.inr e⟩
        rw [if_pos (Or.inl (fun e => hC2 (hC1.trans e)))]
    exact ⟨hC, hB1 hB⟩
  · rw [imgui_render_eq]
  · rw [imgui_render_eq]

/-- Witness for C27: the window grows from 640x480 to 800x600, viewport and
scissor box both following; the scissor box equals the viewport and is not the
previous viewport, and the display size is the viewport's. -/
theorem scissor_box_sets_display_size_only_when_it_differs_witness :
    ¬ (¬ ((⟨0, 0, 800, 600⟩ : GLVec).v2 = 1 ∧ (⟨0, 0, 800, 600⟩ : GLVec).v3 = 1) ∧
      ((⟨0, 0, 800, 600⟩ : GLVec) ≠ ⟨0, 0, 800, 600⟩ ∨
        (⟨0, 0, 800, 600⟩ : GLVec) = ⟨0, 0, 640, 480⟩)) ∧
    (imgui_render true ⟨0, 0, 800, 600⟩ ⟨0, 0, 800, 600⟩
      { last_vp := ⟨0, 0, 640, 480⟩, last_sb := ⟨0, 0, 640, 480⟩,
        DisplaySize := (640, 480) }).DisplaySize = (800, 600) :=
  ⟨by decide,
    (scissor_box_sets_display_size_only_when_it_differs ⟨0, 0, 800, 600⟩ ⟨0, 0, 800, 600⟩
      { last_vp := ⟨0, 0, 640, 480⟩, last_sb := ⟨0, 0, 640, 480⟩,
        DisplaySize := (640, 480) }).1 (by decide)⟩

/-! ### Control messages -/

/-- Claim C29, evaluated where the code leaves it: a present of two swapchains
whose chained presents return -4 (`VK_ERROR_DEVICE_LOST`) and `VK_SUCCESS`, with
a result array supplied. The layer returns -4 and both swapchains are
presented, but the array ends as `[0, 0]`: the copy handed to the driver keeps
the caller's `pResults`, so the second chained present stores its result in
element 0 over the -4 of the first. A present of the first swapchain alone
leaves `[-4]`. -/
theorem present_results_first_element_is_overwritten :
    (overlay_QueuePresentKHR test_params first_present_fails exact_limiter 10
        { pWaitSemaphores := [], pSwapchains := [20, 21], pImageIndices := [0, 0],
          pResults := some [7, 7] } two_swapchain_state).map
      (fun o => (o.result, o.pResults, o.iterations.map (fun it => it.chain_result),
        o.iterations.map (fun it => it.present_info.pSwapchains))) =
      some (-4, some [0, 0], [-4, 0], [[20], [21]]) ∧
    (overlay_QueuePresentKHR test_params first_present_fails exact_limiter 10
        { pWaitSemaphores := [], pSwapchains := [20], pImageIndices := [0],
          pResults := some [7] } two_swapchain_state).map
      (fun o => (o.result, o.pResults)) = some (-4, some [-4]) := by
  constructor
  · decide
  · decide

/-! ### The write index -/

theorem log_rotate_log_i (g : logging_state) (h : g.log_i ≤ BUF_SIZE) :
    (log_rotate g).log_i < BUF_SIZE := by
  unfold log_rotate
  by_cases e : g.log_i = BUF_SIZE
  · rw [if_pos e]
    show 0 < BUF_SIZE
    decide
  · rw [if_neg e]
    omega

theorem hud_log_log_i (P : overlay_params) (now : Nat) (frame_time : Int) (g : logging_state)
    (h : g.log_i < BUF_SIZE) : (hud_log P now frame_time g).log_i < BUF_SIZE := by
  unfold hud_log
  by_cases hon : g.loggingOn = true
  · rw [if_pos hon]
    apply log_rotate_log_i
    by_cases hd : log_duration_reached P (to_i32 (sub_u64 now g.log_start)) = true
    · simp only [hd, if_true]
      show 0 ≤ BUF_SIZE
      exact Nat.zero_le _
    · rw [Bool.not_eq_true] at hd
      simp only [hd, Bool.false_eq_true, if_false]
      rw [(log_sample_fields frame_time _).2.1]
      show (g.log_i + 1) % U32 ≤ BUF_SIZE
      unfold BUF_SIZE at *
      unfold U32
      omega
  · rw [if_neg hon]
    exact h

theorem update_hud_info_log_i (P : overlay_params) (inp : frame_input)
    (s : swapchain_stats × logging_state) (h : s.2.log_i < BUF_SIZE) :
    (update_hud_info P inp s).2.log_i < BUF_SIZE := by
  obtain ⟨g', ft, he, _, c2, _⟩ := update_hud_info_log_buffers P inp s
  rw [he]
  exact hud_log_log_i P inp.now ft g' (by rw [c2]; exact h)

theorem check_keybinds_log_i (P : overlay_params) (k : keybind_input) (g : logging_state)
    (h : g.log_i < BUF_SIZE) : (check_keybinds P k g).log_i < BUF_SIZE := by
  unfold check_keybinds
  by_cases hc : 500000 ≤ sub_u64 k.now g.last_f2_press ∧ P.output_file ≠ ""
  · rw [if_pos hc]
    by_cases hp : k.pressed = true
    · simp only [hp, if_true]
      by_cases hon : g.loggingOn = true
      · simp only [hon, Bool.not_true, Bool.false_eq_true, if_false]
        show 0 < BUF_SIZE
        decide
      · rw [Bool.not_eq_true] at hon
        simp only [hon, Bool.not_false, if_true]
        exact h
    · rw [Bool.not_eq_true] at hp
      simp only [hp, Bool.false_eq_true, if_false]
      exact h
  · rw [if_neg hc]
    exact h

theorem run_logger_log_i (evs : List logger_event) :
    ∀ s : swapchain_stats × logging_state, s.2.log_i < BUF_SIZE →
      (run_logger evs s).2.log_i < BUF_SIZE := by
  induction evs with
  | nil => intro s h; exact h
  | cons e rest ih =>
    intro s h
    apply ih (logger_step s e)
    cases e with
    | frame params inp => exact update_hud_info_log_i params inp s h
    | keys params inp => exact check_keybinds_log_i params inp s.2 h

/-- Claim C30: in every state reached from the initial logger state by any
sequence of `check_keybinds` and `update_hud_info` calls, with any parameters
and inputs, `log_i < BUF_SIZE`, so the store of the next `update_hud_info` call
at `write_buffer[log_i]` is inside the 100-element buffer; and while logging is
off `update_hud_info` changes neither `log_i` nor either buffer nor the two
pointers. -/
theorem log_write_index_stays_in_bounds :
    (∀ (evs : List logger_event) (sw : swapchain_stats),
      (run_logger evs (sw, initial_logging_state)).2.log_i < BUF_SIZE) ∧
    (∀ (P : overlay_params) (inp : frame_input) (s : swapchain_stats × logging_state),
      s.2.loggingOn = false →
        (update_hud_info P inp s).2.log_i = s.2.log_i ∧
        (update_hud_info P inp s).2.buffer1 = s.2.buffer1 ∧
        (update_hud_info P inp s).2.buffer2 = s.2.buffer2 ∧
        (update_hud_info P inp s).2.write_buffer = s.2.write_buffer ∧
        (update_hud_info P inp s).2.read_buffer = s.2.read_buffer ∧
        (update_hud_info P inp s).2.loggingOn = false) ∧
    (∀ (P : overlay_params) (inp : frame_input) (s : swapchain_stats × logging_state),
      s.2.loggingOn = true → s.2.log_i < BUF_SIZE → s.2.write_buffer ≠ s.2.read_buffer →
      log_duration_reached P (to_i32 (sub_u64 inp.now s.2.log_start)) = false →
      s.2.log_file.is_open = true →
        (∃ d, deref (update_hud_info P inp s).2 s.2.write_buffer =
          fun j => if j = s.2.log_i then d else deref s.2 s.2.write_buffer j) ∧
        deref (update_hud_info P inp s).2 s.2.read_buffer = deref s.2 s.2.read_buffer) := by
  refine ⟨?_, ?_, ?_⟩
  · intro evs sw
    have h0 : initial_logging_state.log_i < BUF_SIZE := by decide
    exact run_logger_log_i evs (sw, initial_logging_state) h0
  · intro P inp s hoff
    obtain ⟨g', ft, he, c1, c2, _, _, _, c6, c7, c8, c9⟩ := update_hud_info_log_buffers P inp s
    have hg : hud_log P inp.now ft g' = g' := by
      unfold hud_log
      rw [if_neg (by rw [c1, hoff]; decide)]
    rw [he, hg]
    exact ⟨c2, c8, c9, c6, c7, c1.trans hoff⟩
  · intro P inp s hon hlt hne hd hopen
    by_cases h99 : s.2.log_i + 1 < BUF_SIZE
    · obtain ⟨g', ft, he, c1, c2, _, _, c5, c6, c7, c8, c9⟩ :=
        update_hud_info_log_buffers P inp s
      refine ⟨(update_hud_info_store_effect P inp s hon h99 hne hd).1, ?_⟩
      have hd' : deref g' = deref s.2 := funext (deref_congr g' s.2 c8 c9)
      rw [he, hud_log_running P inp.now ft g' (c1.trans hon) (by rw [c5]; exact hd)]
      have hs := (log_sample_fields ft
        { g' with elapsedLog := to_i32 (sub_u64 inp.now g'.log_start) }).2.1
      have hi : (g'.log_i + 1) % U32 ≠ BUF_SIZE := by
        rw [c2]
        unfold BUF_SIZE at *
        unfold U32
        omega
      rw [log_rotate_idle _ (by rw [hs]; exact hi)]
      have e2 := (log_sample_effect ft
        { g' with elapsedLog := to_i32 (sub_u64 inp.now g'.log_start) }
        (by show g'.write_buffer ≠ g'.read_buffer; rw [c6, c7]; exact hne)).2.1
      rw [← c7, ← hd']
      exact e2
    · have hi : s.2.log_i = BUF_SIZE - 1 := by
        unfold BUF_SIZE at *
        omega
      obtain ⟨q1, q2, _⟩ := update_hud_info_rotation_effect P inp s hon hi hopen hne hd
      rw [hi]
      exact ⟨q1, q2⟩

/-- Witness for C30: a start, two frames and a stop. -/
theorem log_write_index_stays_in_bounds_witness :
    (run_logger
      [logger_event.keys test_params (toggle_at 1000000),
        logger_event.frame test_params (steady_frames 0),
        logger_event.frame test_params (steady_frames 1),
        logger_event.keys test_params (toggle_at 3000000)]
      (zero_swapchain_stats, initial_logging_state)).2.log_i < BUF_SIZE :=
  log_write_index_stays_in_bounds.1 _ _

end MangoHud
